import Mathlib

set_option linter.unreachableTactic false
set_option linter.unnecessarySeqFocus false
set_option linter.unusedTactic false
set_option maxHeartbeats 1600000

/-!
Verification of the `payload-oapi` document generator (`src/index.ts`).

The development shallowly embeds the generator: JavaScript objects are
modelled by a `Json` inductive with association-list objects whose update
function (`setKey`) mirrors JavaScript property-assignment semantics
(replace in place when the key exists, append otherwise).  The Payload
field tree is modelled by the mutual inductive family `Field` /
`FieldKind` / `Tab` / `Block`, and the compiler functions `generateField`
/ `generateObject` are translated clause by clause from the source.
Exceptions (`throw new Error(...)` for `tabs` and `ui` reaching the leaf
mapper) are modelled by `Option`: `none` is a raised error, propagated
through every caller.
-/

namespace Payload

/-- JavaScript values produced by the generator (a JSON-like tree). -/
inductive Json where
  | str : String → Json
  | num : Int → Json
  | bool : Bool → Json
  | arr : List Json → Json
  | obj : List (String × Json) → Json

/-- JavaScript property assignment `o[k] = v`: if the key is present the
value is replaced in place, otherwise the pair is appended (object keys
are unique, so replacing the first occurrence is the JavaScript map
semantics). -/
def setKey : List (String × Json) → String → Json → List (String × Json)
  | [], k, v => [(k, v)]
  | kv :: kvs, k, v => if kv.1 = k then (k, v) :: kvs else kv :: setKey kvs k v

/-- JavaScript object lookup `o[k]`, `none` when the key is absent. -/
def Json.getKey : Json → String → Option Json
  | .obj kvs, k => kvs.lookup k
  | _, _ => none

/-- The key/value list of an object (`[]` for non-objects). -/
def Json.getObj : Json → List (String × Json)
  | .obj kvs => kvs
  | _ => []

/-- The element list of an array (`[]` for non-arrays). -/
def Json.getArr : Json → List Json
  | .arr js => js
  | _ => []

/-- Lookup defaulting to the empty object, as in `o[k] || {}`. -/
def Json.getJ (j : Json) (k : String) : Json := (j.getKey k).getD (Json.obj [])

/-- Property assignment lifted to `Json` (non-objects become objects,
which never happens in the generator). -/
def Json.set (j : Json) (k : String) (v : Json) : Json := Json.obj (setKey j.getObj k v)

/-- JavaScript object spread `{...a, ...b}`. -/
def spread2 (a b : List (String × Json)) : List (String × Json) :=
  b.foldl (fun acc kv => setKey acc kv.1 kv.2) a

/-- `[...new Set(xs)]`: deduplication keeping the first occurrence, in order. -/
def dedupKeepFirst : List String → List String
  | [] => []
  | x :: xs => x :: dedupKeepFirst (xs.filter (fun y => y ≠ x))
termination_by xs => xs.length
decreasing_by
  simp only [List.length_cons]
  exact Nat.lt_succ_of_le (List.length_filter_le _ _)

/-- JavaScript truthiness of an optional value (`undefined` is falsy; an
array — even empty — is truthy; `""`, `0` and `false` are falsy). -/
def jsTruthy : Option Json → Bool
  | none => false
  | some (.str s) => s ≠ ""
  | some (.num n) => n ≠ 0
  | some (.bool b) => b
  | some (.arr _) => true
  | some (.obj _) => true

/-- An option of a `select`/`radio` field: either a bare string or a
`{value, label}` pair. -/
inductive OptionVal where
  | plain (s : String)
  | pair (value : String) (label : String)
deriving Repr, DecidableEq

/-- A relationship/join target: a single collection slug or a polymorphic
list of slugs (`Array.isArray(relationTo)` distinguishes the two). -/
inductive RelTarget where
  | single (slug : String)
  | poly (slugs : List String)
deriving Repr, DecidableEq

mutual
/-- A Payload field as the generator reads it: the code casts every field
to `Field & FieldBase` and accesses `name`, `required`, `hidden`,
`virtual` and `type` uniformly. -/
inductive Field where
  | mk (name : String) (required : Bool) (hidden : Bool) (virtual : Bool) (type : FieldKind)

/-- The field kind tag together with its kind-specific attributes. -/
inductive FieldKind where
  | text
  | textarea
  | richText
  | number
  | checkbox
  | code
  | collapsible
  | date
  | email
  | json
  | point
  | upload
  | ui
  | select (options : List OptionVal)
  | radio (options : List OptionVal)
  | relationship (relationTo : RelTarget) (hasMany : Bool)
  | join (collection : RelTarget) (hasMany : Bool)
  | array (fields : List Field)
  | blocks (blocks : List Block)
  | group (fields : List Field)
  | row (fields : List Field)
  | tabs (tabs : List Tab)

/-- One tab of a `tabs` field. -/
inductive Tab where
  | mk (interfaceName : Option String) (fields : List Field)

/-- One block variant of a `blocks` field. -/
inductive Block where
  | mk (fields : List Field)
end

def Field.name : Field → String
  | .mk n _ _ _ _ => n

def Field.required : Field → Bool
  | .mk _ r _ _ _ => r

def Field.hidden : Field → Bool
  | .mk _ _ h _ _ => h

def Field.virtual : Field → Bool
  | .mk _ _ _ v _ => v

def Field.type : Field → FieldKind
  | .mk _ _ _ _ k => k

def Tab.interfaceName : Tab → Option String
  | .mk i _ => i

def Tab.fields : Tab → List Field
  | .mk _ fs => fs

def Block.fields : Block → List Field
  | .mk fs => fs

mutual
/-- Termination weight of a field. -/
def wField : Field → Nat
  | .mk _ _ _ _ k => 1 + wKind k

/-- Termination weight of a field kind. -/
def wKind : FieldKind → Nat
  | .array fs => 10 + wFields fs
  | .group fs => 10 + wFields fs
  | .row fs => 10 + wFields fs
  | .blocks bs => 10 + wBlocks bs
  | .tabs ts => 2 * wTabs ts
  | _ => 1

/-- Termination weight of a field list. -/
def wFields : List Field → Nat
  | [] => 0
  | f :: fs => 1 + wField f + wFields fs

/-- Termination weight of a tab list. -/
def wTabs : List Tab → Nat
  | [] => 0
  | t :: ts => wTab t + wTabs ts

/-- Termination weight of a tab. -/
def wTab : Tab → Nat
  | .mk _ fs => 10 + wFields fs

/-- Termination weight of a block list. -/
def wBlocks : List Block → Nat
  | [] => 0
  | b :: bs => wBlock b + wBlocks bs

/-- Termination weight of a block. -/
def wBlock : Block → Nat
  | .mk fs => 10 + wFields fs
end

theorem wFields_append (l₁ l₂ : List Field) :
    wFields (l₁ ++ l₂) = wFields l₁ + wFields l₂ := by
  induction l₁ with
  | nil => simp [wFields]
  | cons f fs ih => simp [wFields, ih]; omega

theorem wFields_flatMap_le (ts : List Tab) :
    wFields (ts.flatMap Tab.fields) ≤ wTabs ts := by
  induction ts with
  | nil => simp [wFields, wTabs]
  | cons t ts ih =>
    simp only [List.flatMap_cons, wFields_append, wTabs]
    cases t with
    | mk i fs => simp [Tab.fields, wTab]; omega

/-- The two compilation modes (`'new' | 'get'`). -/
inductive Mode where
  | new
  | get
deriving Repr, DecidableEq, BEq

/-- The three component sections (`'schemas' | 'responses' | 'requestBodies'`). -/
inductive ComponentType where
  | schemas
  | responses
  | requestBodies
deriving Repr, DecidableEq

def ComponentType.toStr : ComponentType → String
  | .schemas => "schemas"
  | .responses => "responses"
  | .requestBodies => "requestBodies"

/-- `capitalized`: first character upper-cased (the source would throw on
the empty string; slugs are nonempty, we map `""` to `""`). -/
def capitalized (value : String) : String :=
  match value.data with
  | [] => ""
  | c :: cs => String.mk (Char.toUpper c :: cs)

/-- The `{prefix?, suffix?}` options of `componentName`/`composeRef`
(fields renamed `pre`/`suf`). -/
structure RefOptions where
  pre : Option String
  suf : Option String
deriving Repr, DecidableEq

/-- No options supplied (both `undefined`). -/
def noOpts : RefOptions := ⟨none, none⟩

/-- `componentName`: the `if (prefix)` / `if (suffix)` tests are JavaScript
truthiness, so the empty string behaves like `undefined`. -/
def componentName (name : String) (options : RefOptions) : String :=
  let n1 :=
    match options.pre with
    | some p => if p = "" then name else p ++ capitalized name
    | none => name
  match options.suf with
  | some s => if s = "" then n1 else n1 ++ capitalized s
  | none => n1

/-- `composeRef`: mode `new` forces the `new` prefix before composing the
pointer string. -/
def composeRef (mode : Mode) (type : ComponentType) (name : String)
    (options : RefOptions) : Json :=
  let options : RefOptions :=
    match mode with
    | .new => ⟨some "new", options.suf⟩
    | .get => options
  Json.obj [("$ref", Json.str ("#/components/" ++ type.toStr ++ "/" ++ componentName name options))]

/-- `Array.isArray(relationTo)`. -/
def RelTarget.isArray : RelTarget → Bool
  | .single _ => false
  | .poly _ => true

/-- `field.type === 'join'`. -/
def FieldKind.isJoin : FieldKind → Bool
  | .join _ _ => true
  | _ => false

/-- Read a JSON string array back as a list of strings. -/
def Json.getStrArr : Json → List String
  | .arr js => js.filterMap (fun j => match j with | .str s => some s | _ => none)
  | _ => []

/-- `generateOptions`: an option contributes itself when it is a bare
string and its `value` when it is a `{value, label}` pair. -/
def generateOptions (options : List OptionVal) : List String :=
  options.map (fun o => match o with | .plain s => s | .pair v _ => v)

mutual

/-- `generateField` from the source: the per-kind leaf mapper.  `none`
models the `throw new Error(...)` for `tabs` and `ui`. -/
def generateField (mode : Mode) (field : Field) : Option Json :=
  match field with
  | .mk _ _ _ _ .text => some (Json.obj [("type", Json.str "string")])
  | .mk _ _ _ _ .textarea => some (Json.obj [("type", Json.str "string")])
  | .mk _ _ _ _ .richText => some (Json.obj [("type", Json.str "string")])
  | .mk _ _ _ _ .number => some (Json.obj [("type", Json.str "number")])
  | .mk _ _ _ _ (.array fs) =>
    match generateObject mode fs with
    | none => none
    | some items => some (Json.obj [("type", Json.str "array"), ("items", items)])
  | .mk _ _ _ _ (.select opts) =>
    some (Json.obj [("type", Json.str "string"),
      ("enum", Json.arr ((generateOptions opts).map Json.str))])
  | .mk _ _ _ _ (.join target many) =>
    match target with
    | .poly slugs =>
      if many then
        some (Json.obj [("allOf", Json.arr [
          Json.obj [("type", Json.str "object"),
            ("required", Json.arr [Json.str "docs"]),
            ("properties", Json.obj [("docs", Json.obj [("type", Json.str "array"),
              ("items", Json.obj [("oneOf",
                Json.arr (slugs.map (fun c => composeRef mode .schemas c noOpts)))])])])],
          composeRef .get .schemas "paginationResponse" noOpts])])
      else
        some (Json.obj [("oneOf",
          Json.arr (slugs.map (fun c => composeRef mode .schemas c noOpts)))])
    | .single c =>
      if many then
        some (Json.obj [("allOf", Json.arr [
          Json.obj [("type", Json.str "object"),
            ("required", Json.arr [Json.str "docs"]),
            ("properties", Json.obj [("docs", Json.obj [("type", Json.str "array"),
              ("items", composeRef mode .schemas c noOpts)])])],
          composeRef .get .schemas "paginationResponse" noOpts])])
      else
        some (composeRef mode .schemas c noOpts)
  | .mk _ _ _ _ (.blocks bs) =>
    match goBlocks mode bs with
    | none => none
    | some items =>
      some (Json.obj [("type", Json.str "array"),
        ("items", Json.obj [("anyOf", Json.arr items)])])
  | .mk _ _ _ _ .checkbox => some (Json.obj [("type", Json.str "boolean")])
  | .mk _ _ _ _ .code => some (Json.obj [("type", Json.str "string")])
  | .mk _ _ _ _ .collapsible =>
    some (Json.obj [("type", Json.str "string"), ("format", Json.str "date-time")])
  | .mk _ _ _ _ .date =>
    some (Json.obj [("type", Json.str "string"), ("format", Json.str "date-time")])
  | .mk _ _ _ _ .email =>
    some (Json.obj [("type", Json.str "string"), ("format", Json.str "email")])
  | .mk _ _ _ _ (.group fs) => generateObject mode fs
  | .mk _ _ _ _ .json => some (Json.obj [("type", Json.str "object")])
  | .mk _ _ _ _ .upload =>
    some (Json.obj [("type", Json.str "string"),
      ("description", Json.str "the key of the file uploaded to the upload collection")])
  | .mk _ _ _ _ .point => some (Json.obj [])
  | .mk _ _ _ _ (.radio opts) =>
    some (Json.obj [("type", Json.str "string"),
      ("enum", Json.arr ((generateOptions opts).map Json.str))])
  | .mk _ _ _ _ (.relationship target many) =>
    match mode with
    | .new =>
      if target.isArray || many then
        some (Json.obj [("type", Json.str "array"),
          ("items", Json.obj [("type", Json.str "string")])])
      else
        some (Json.obj [("type", Json.str "string")])
    | .get =>
      match target with
      | .poly slugs =>
        if many then
          some (Json.obj [("allOf", Json.arr [
            Json.obj [("type", Json.str "object"),
              ("required", Json.arr [Json.str "docs"]),
              ("properties", Json.obj [("docs", Json.obj [("type", Json.str "array"),
                ("items", Json.obj [("oneOf",
                  Json.arr (slugs.map (fun r => composeRef mode .schemas r noOpts)))])])])],
            composeRef .get .schemas "paginationResponse" noOpts])])
        else
          some (Json.obj [("oneOf",
            Json.arr (slugs.map (fun r => composeRef mode .schemas r noOpts)))])
      | .single r =>
        if many then
          some (Json.obj [("allOf", Json.arr [
            Json.obj [("type", Json.str "object"),
              ("required", Json.arr [Json.str "docs"]),
              ("properties", Json.obj [("docs", Json.obj [("type", Json.str "array"),
                ("items", composeRef mode .schemas r noOpts)])])],
            composeRef .get .schemas "paginationResponse" noOpts])])
        else
          some (composeRef mode .schemas r noOpts)
  | .mk _ _ _ _ (.row fs) => generateObject mode fs
  | .mk _ _ _ _ (.tabs _) => none
  | .mk _ _ _ _ .ui => none
termination_by wField field
decreasing_by
  all_goals
    first
    | ((simp [wField, wKind, wFields, wTabs, wTab, wBlocks, wBlock]) <;> omega)
    | (have h := wFields_flatMap_le allTabs
       simp [wField, wKind, wFields, wTabs, wTab, wBlocks, wBlock] at h ⊢
       omega)

/-- `block.fields` compiled in declaration order
(`field.blocks.map(block => generateObject(mode, block.fields))`). -/
def goBlocks (mode : Mode) : List Block → Option (List Json)
  | [] => some []
  | .mk fs :: bs =>
    match generateObject mode fs with
    | none => none
    | some j =>
      match goBlocks mode bs with
      | none => none
      | some js => some (j :: js)
termination_by bs => wBlocks bs + 2
decreasing_by
  all_goals
    first
    | ((simp [wField, wKind, wFields, wTabs, wTab, wBlocks, wBlock]) <;> omega)
    | (have h := wFields_flatMap_le allTabs
       simp [wField, wKind, wFields, wTabs, wTab, wBlocks, wBlock] at h ⊢
       omega)

/-- The `for (const tab of field.tabs)` loop of the `tabs` case,
accumulating `result.properties`.  `allTabs` is the full `field.tabs`
list used by the `flatMap` in the no-`interfaceName` branch; `fieldName`
is `field.name`. -/
def goTabs (mode : Mode) (fieldName : String) (allTabs : List Tab)
    (props : List (String × Json)) : List Tab → Option (List (String × Json))
  | [] => some props
  | .mk iname tfs :: ts =>
    match iname with
    | some i =>
      if i = "" then
        match generateObject mode (allTabs.flatMap Tab.fields) with
        | none => none
        | some j => goTabs mode fieldName allTabs (setKey props fieldName j) ts
      else
        match generateObject mode tfs with
        | none => none
        | some j => goTabs mode fieldName allTabs (setKey props i j) ts
    | none =>
      match generateObject mode (allTabs.flatMap Tab.fields) with
      | none => none
      | some j => goTabs mode fieldName allTabs (setKey props fieldName j) ts
termination_by ts => wTabs allTabs + wTabs ts + 4
decreasing_by
  all_goals
    first
    | ((simp [wField, wKind, wFields, wTabs, wTab, wBlocks, wBlock]) <;> omega)
    | (have h := wFields_flatMap_le allTabs
       simp [wField, wKind, wFields, wTabs, wTab, wBlocks, wBlock] at h ⊢
       omega)

/-- The default case of the `switch (field.type)` in the reducer of
`generateObject`: mode-dependent skips, then one property keyed by the
field name (and the required-set update). -/
def stepDefault (mode : Mode) (acc : Json) (field : Field) : Option Json :=
  if field.hidden then some acc
  else if mode == .new && ["id", "createdAt", "updatedAt"].contains field.name then some acc
  else if mode == .new && field.virtual then some acc
  else if field.type.isJoin && mode == .new then some acc
  else
    match generateField mode field with
    | none => none
    | some gf =>
      let accReq := acc.getKey "required"
      let accReqList := (accReq.map Json.getStrArr).getD []
      some (Json.obj (
        [("type", Json.str "object")] ++
        (if jsTruthy accReq || field.required then
          [("required", Json.arr ((dedupKeepFirst
            (if field.required then accReqList ++ [field.name] else accReqList)).map Json.str))]
        else []) ++
        [("properties", Json.obj (setKey (acc.getJ "properties").getObj field.name gf))]))
termination_by wField field + 1
decreasing_by
  all_goals
    first
    | ((simp [wField, wKind, wFields, wTabs, wTab, wBlocks, wBlock]) <;> omega)
    | (have h := wFields_flatMap_le allTabs
       simp [wField, wKind, wFields, wTabs, wTab, wBlocks, wBlock] at h ⊢
       omega)

/-- The `tabs` case of the reducer: run the tab loop starting from
`result = \x7brequired: [], properties: \x7b}}` and merge into the
accumulator. -/
def stepTabs (mode : Mode) (acc : Json) (fieldName : String) (tabs : List Tab) :
    Option Json :=
  match goTabs mode fieldName tabs [] tabs with
  | none => none
  | some resultProps =>
    let resultReq : List String := []
    let accReq := acc.getKey "required"
    let accReqList := (accReq.map Json.getStrArr).getD []
    some (Json.obj (
      [("type", Json.str "object")] ++
      (if jsTruthy accReq || jsTruthy (some (Json.arr (resultReq.map Json.str))) then
        [("required", Json.arr ((dedupKeepFirst (accReqList ++ resultReq)).map Json.str))]
      else []) ++
      [("properties", Json.obj (spread2 (acc.getJ "properties").getObj resultProps))]))
termination_by 2 * wTabs tabs + 6
decreasing_by
  all_goals
    first
    | ((simp [wField, wKind, wFields, wTabs, wTab, wBlocks, wBlock]) <;> omega)
    | (have h := wFields_flatMap_le allTabs
       simp [wField, wKind, wFields, wTabs, wTab, wBlocks, wBlock] at h ⊢
       omega)

/-- One step of the `fields.reduce(...)` in `generateObject`: the
`switch (field.type)` on `tabs` / `ui` / default. -/
def stepField (mode : Mode) (acc : Json) (field : Field) : Option Json :=
  match field with
  | .mk n _ _ _ (.tabs ts) => stepTabs mode acc n ts
  | .mk _ _ _ _ .ui => some acc
  | fld => stepDefault mode acc fld
termination_by wField field + 8
decreasing_by
  all_goals
    first
    | ((simp [wField, wKind, wFields, wTabs, wTab, wBlocks, wBlock]) <;> omega)
    | (have h := wFields_flatMap_le allTabs
       simp [wField, wKind, wFields, wTabs, wTab, wBlocks, wBlock] at h ⊢
       omega)

/-- The `fields.reduce(...)` loop of `generateObject`. -/
def goFields (mode : Mode) (acc : Json) : List Field → Option Json
  | [] => some acc
  | f :: fs =>
    match stepField mode acc f with
    | none => none
    | some acc2 => goFields mode acc2 fs
termination_by fs => wFields fs + 9
decreasing_by
  all_goals
    first
    | ((simp [wField, wKind, wFields, wTabs, wTab, wBlocks, wBlock]) <;> omega)
    | (have h := wFields_flatMap_le allTabs
       simp [wField, wKind, wFields, wTabs, wTab, wBlocks, wBlock] at h ⊢
       omega)

/-- `generateObject` from the source: reduce the field list into one
schema object, starting from `{}`. -/
def generateObject (mode : Mode) (fields : List Field) : Option Json :=
  goFields mode (Json.obj []) fields
termination_by wFields fields + 10
decreasing_by
  all_goals
    first
    | ((simp [wField, wKind, wFields, wTabs, wTab, wBlocks, wBlock]) <;> omega)
    | (have h := wFields_flatMap_le allTabs
       simp [wField, wKind, wFields, wTabs, wTab, wBlocks, wBlock] at h ⊢
       omega)

end

/-- One custom endpoint declaration `{path, method, custom}`; an absent
`custom` override fragment is the empty object. -/
structure Endpoint where
  path : String
  method : String
  custom : List (String × Json)

/-- A collection configuration as read by the generator. -/
structure CollectionConfig where
  slug : String
  fields : List Field
  upload : Bool
  endpoints : Option (List Endpoint)

/-- A global configuration as read by the generator. -/
structure GlobalConfig where
  slug : String
  fields : List Field
  endpoints : Option (List Endpoint)

/-- The content-model configuration (`config.globals`, `config.collections`,
each possibly absent). -/
structure Config where
  globals : Option (List GlobalConfig)
  collections : Option (List CollectionConfig)

/-- Invocation options (`info` override and output path; the output path
only controls the out-of-scope file write). -/
structure Options where
  info : Option (List (String × Json))
  output : Option String

/-- `baseQueryParams` from the source. -/
def baseQueryParams : List Json := [
  Json.obj [("in", Json.str "query"), ("name", Json.str "depth"),
    ("description", Json.str "automatically populates relationships and uploads"),
    ("schema", Json.obj [("type", Json.str "number")])],
  Json.obj [("in", Json.str "query"), ("name", Json.str "locale"),
    ("description", Json.str "retrieves document(s) in a specific locale"),
    ("schema", Json.obj [("type", Json.str "string")])],
  Json.obj [("in", Json.str "query"), ("name", Json.str "fallback-locale"),
    ("description", Json.str "specifies a fallback locale if no locale value exists"),
    ("schema", Json.obj [("type", Json.str "string")])],
  Json.obj [("in", Json.str "query"), ("name", Json.str "select"),
    ("description", Json.str "specifies which fields to include to the result"),
    ("example", Json.str "select[group][number]=true"),
    ("schema", Json.obj [("type", Json.str "array"),
      ("items", Json.obj [("type", Json.str "string")])])],
  Json.obj [("in", Json.str "query"), ("name", Json.str "populate"),
    ("description", Json.str "specifies which fields to include to the result from populated documents"),
    ("example", Json.str "populate[pages][text]=true"),
    ("schema", Json.obj [("type", Json.str "array"),
      ("items", Json.obj [("type", Json.str "string")])])],
  Json.obj [("in", Json.str "query"), ("name", Json.str "joins"),
    ("description", Json.str "specifies the custom request for each join field by name of the field"),
    ("example", Json.str "joins[relatedPosts][sort]=title"),
    ("schema", Json.obj [("type", Json.str "array"),
      ("items", Json.obj [("type", Json.str "string")])])]]

/-- `filterQueryParams` from the source. -/
def filterQueryParams : List Json := [
  Json.obj [("in", Json.str "query"), ("name", Json.str "limit"),
    ("description", Json.str "limits the number of documents returned"),
    ("schema", Json.obj [("type", Json.str "number")])],
  Json.obj [("in", Json.str "query"), ("name", Json.str "page"),
    ("description", Json.str "specifies which page to get documents from when used with a limit"),
    ("schema", Json.obj [("type", Json.str "number")])],
  Json.obj [("in", Json.str "query"), ("name", Json.str "sort"),
    ("description", Json.str "specifies the field(s) to use to sort the returned documents by"),
    ("example", Json.str "sort=-createdAt"),
    ("schema", Json.obj [("type", Json.str "array"),
      ("items", Json.obj [("type", Json.str "string")])])],
  Json.obj [("in", Json.str "query"), ("name", Json.str "where"),
    ("description", Json.str "specifies advanced filters to use to query documents"),
    ("example", Json.str "where[color][equals]=mint"),
    ("schema", Json.obj [("type", Json.str "array"),
      ("items", Json.obj [("type", Json.str "string")])])]]

/-- `defaultCollectionSchemas` from the source. -/
def defaultCollectionSchemas : List (String × Json) := [
  ("paginationResponse", Json.obj [("type", Json.str "object"),
    ("required", Json.arr [Json.str "hasNextPage", Json.str "hasPrevPage",
      Json.str "limit", Json.str "page", Json.str "nextPage", Json.str "pagingCounter",
      Json.str "prevPage", Json.str "totalDocs", Json.str "totalPages"]),
    ("properties", Json.obj [
      ("hasNextPage", Json.obj [("type", Json.str "boolean"), ("default", Json.bool false)]),
      ("hasPrevPage", Json.obj [("type", Json.str "boolean"), ("default", Json.bool false)]),
      ("limit", Json.obj [("type", Json.str "number")]),
      ("page", Json.obj [("type", Json.str "number")]),
      ("nextPage", Json.obj [("type", Json.str "number")]),
      ("pagingCounter", Json.obj [("type", Json.str "number")]),
      ("prevPage", Json.obj [("type", Json.str "number")]),
      ("totalDocs", Json.obj [("type", Json.str "number")]),
      ("totalPages", Json.obj [("type", Json.str "number")])])]),
  ("createResponse", Json.obj [("type", Json.str "object"),
    ("required", Json.arr [Json.str "message"]),
    ("properties", Json.obj [("message", Json.obj [("type", Json.str "string")])])]),
  ("countResponse", Json.obj [("type", Json.str "object"),
    ("required", Json.arr [Json.str "totalDocs"]),
    ("properties", Json.obj [("totalDocs", Json.obj [("type", Json.str "number")])])])]

/-- Write `components[sec][key] = v` on the document. -/
def setComponent (doc : Json) (sec : String) (key : String) (v : Json) : Json :=
  doc.set "components"
    ((doc.getJ "components").set sec (((doc.getJ "components").getJ sec).set key v))

/-- Write `paths[key] = v` on the document. -/
def setPath (doc : Json) (key : String) (v : Json) : Json :=
  doc.set "paths" ((doc.getJ "paths").set key v)

/-- `document.tags.push({name: slug})`. -/
def pushTag (doc : Json) (slug : String) : Json :=
  doc.set "tags" (Json.arr ((doc.getJ "tags").getArr ++ [Json.obj [("name", Json.str slug)]]))

/-- The list read of `x.required || []` used by the entity generators. -/
def reqOf (object : Json) : List String :=
  ((object.getKey "required").map Json.getStrArr).getD []

/-- The loop body of `generateCustomEndpointOperators`: note the read is at
`base + slug + endpoint.path` but the write is at the hardcoded
`/api/` + slug + endpoint.path, exactly as in the source. -/
def goEndpoints (doc : Json) (base : String) (slug : String) : List Endpoint → Json
  | [] => doc
  | e :: es =>
    let path := ((doc.getJ "paths").getKey (base ++ slug ++ e.path)).getD (Json.obj [])
    let method := e.method.toLower
    let op := Json.obj (spread2
      [("tags", Json.arr [Json.str slug]),
       ("responses", Json.obj [("200", composeRef .get .responses slug noOpts)])]
      e.custom)
    let op := if method = "post" || method = "patch" || method = "put" then
        op.set "requestBody" (composeRef .get .requestBodies slug noOpts)
      else op
    let path := path.set method op
    goEndpoints (setPath doc ("/api/" ++ slug ++ e.path) path) base slug es

/-- `generateCustomEndpointOperators` (shared by globals and collections);
`if (!config.endpoints) return`. -/
def generateCustomEndpointOperators (doc : Json) (base : String) (slug : String)
    (endpoints : Option (List Endpoint)) : Json :=
  match endpoints with
  | none => doc
  | some eps => goEndpoints doc base slug eps

/-- `generateUploadCollectionOperators` from the source. -/
def generateUploadCollectionOperators (doc : Json) (collection : CollectionConfig) :
    Option Json :=
  match generateObject .get collection.fields with
  | none => none
  | some object =>
    let slug := collection.slug
    let doc := setComponent doc "schemas" (componentName slug noOpts)
      (Json.obj [("type", Json.str "object"),
        ("required", Json.arr ((dedupKeepFirst
          (["id", "filename", "filesize", "focalX", "focalY", "mimeType", "thumbnailURL",
            "url", "height", "width", "createdAt", "updatedAt"] ++ reqOf object)).map Json.str)),
        ("properties", Json.obj (spread2 [
          ("id", Json.obj [("type", Json.str "number")]),
          ("filename", Json.obj [("type", Json.str "string")]),
          ("filesize", Json.obj [("type", Json.str "number")]),
          ("focalX", Json.obj [("type", Json.str "number")]),
          ("focalY", Json.obj [("type", Json.str "number")]),
          ("mimeType", Json.obj [("type", Json.str "string")]),
          ("thumbnailURL", Json.obj [("type", Json.str "string")]),
          ("url", Json.obj [("type", Json.str "string")]),
          ("height", Json.obj [("type", Json.str "number")]),
          ("width", Json.obj [("type", Json.str "number")]),
          ("createdAt", Json.obj [("type", Json.str "string"), ("format", Json.str "date-time")]),
          ("updatedAt", Json.obj [("type", Json.str "string"), ("format", Json.str "date-time")])]
          (object.getJ "properties").getObj))])
    let doc := setComponent doc "requestBodies" (componentName slug noOpts)
      (Json.obj [("description", Json.str "successful operation"),
        ("content", Json.obj [("application/json", Json.obj [("schema",
          composeRef .get .schemas collection.slug noOpts)])])])
    let doc := setComponent doc "requestBodies" (componentName slug ⟨some "upload", none⟩)
      (Json.obj [("description", Json.str "successful operation"),
        ("content", Json.obj [("multipart/form-data", Json.obj [("schema",
          Json.obj [("type", Json.str "object"),
            ("properties", Json.obj [("_payload", object),
              ("file", Json.obj [("type", Json.str "string"), ("format", Json.str "binary")])])])])])])
    let doc := setComponent doc "responses" (componentName slug noOpts)
      (Json.obj [("description", Json.str "successful operation"),
        ("content", Json.obj [("application/json", Json.obj [("schema",
          composeRef .get .schemas collection.slug noOpts)])])])
    let doc := setComponent doc "responses" (componentName slug ⟨none, some "list"⟩)
      (Json.obj [("description", Json.str "successful operation"),
        ("content", Json.obj [("application/json", Json.obj [("schema",
          Json.obj [("allOf", Json.arr [
            Json.obj [("type", Json.str "object"),
              ("required", Json.arr [Json.str "docs"]),
              ("properties", Json.obj [("docs", Json.obj [("type", Json.str "array"),
                ("items", composeRef .get .schemas slug noOpts)])])],
            composeRef .get .schemas "paginationResponse" noOpts])])])])])
    let doc := setPath doc ("/api/" ++ slug)
      (Json.obj [
        ("post", Json.obj [
          ("operationId", Json.str (componentName slug ⟨some "upload", none⟩)),
          ("tags", Json.arr [Json.str slug]),
          ("requestBody", composeRef .get .requestBodies slug ⟨some "upload", none⟩),
          ("responses", Json.obj [("200", composeRef .get .responses slug noOpts)])]),
        ("get", Json.obj [
          ("parameters", Json.arr (baseQueryParams ++ filterQueryParams)),
          ("operationId", Json.str (componentName slug ⟨some "find", none⟩)),
          ("tags", Json.arr [Json.str slug]),
          ("responses", Json.obj [("200", composeRef .get .responses slug ⟨none, some "list"⟩)])])])
    let doc := setPath doc ("/api/" ++ collection.slug ++ "/{id}")
      (Json.obj [
        ("parameters", Json.arr (baseQueryParams ++ [
          Json.obj [("in", Json.str "path"), ("name", Json.str "id"),
            ("required", Json.bool true),
            ("schema", Json.obj [("type", Json.str "string")])]])),
        ("get", Json.obj [
          ("operationId", Json.str (componentName slug ⟨some "findById", none⟩)),
          ("tags", Json.arr [Json.str slug]),
          ("responses", Json.obj [("200", composeRef .get .responses slug noOpts)])]),
        ("patch", Json.obj [
          ("operationId", Json.str (componentName slug ⟨some "updateById", none⟩)),
          ("tags", Json.arr [Json.str slug]),
          ("requestBody", composeRef .get .requestBodies slug noOpts),
          ("responses", Json.obj [("200", composeRef .get .responses slug noOpts)])]),
        ("delete", Json.obj [
          ("operationId", Json.str (componentName slug ⟨some "deleteById", none⟩)),
          ("tags", Json.arr [Json.str slug]),
          ("responses", Json.obj [("200", composeRef .get .responses slug noOpts)])])])
    let doc := setPath doc ("/api/" ++ collection.slug ++ "/count")
      (Json.obj [
        ("parameters", Json.arr baseQueryParams),
        ("get", Json.obj [
          ("operationId", Json.str (componentName collection.slug ⟨some "count", none⟩)),
          ("tags", Json.arr [Json.str collection.slug]),
          ("responses", Json.obj [("200", composeRef .get .responses "count" noOpts)])])])
    some doc

/-- `generateGlobalOperators` from the source. -/
def generateGlobalOperators (doc : Json) (global : GlobalConfig) : Option Json :=
  match generateObject .get global.fields with
  | none => none
  | some object =>
    let slug := global.slug
    let doc := setComponent doc "schemas" (componentName slug ⟨some "global", none⟩)
      (Json.obj [("type", Json.str "object"),
        ("required", Json.arr ((dedupKeepFirst
          (["id", "createdAt", "updatedAt", "globalType"] ++ reqOf object)).map Json.str)),
        ("properties", Json.obj (spread2 [
          ("id", Json.obj [("type", Json.str "number")]),
          ("createdAt", Json.obj [("type", Json.str "string"), ("format", Json.str "date-time")]),
          ("updatedAt", Json.obj [("type", Json.str "string"), ("format", Json.str "date-time")]),
          ("globalType", Json.obj [("type", Json.str "string")])]
          (object.getJ "properties").getObj))])
    let doc := setComponent doc "requestBodies" (componentName slug ⟨some "global", none⟩)
      (Json.obj [("description", Json.str "successful operation"),
        ("content", Json.obj [("application/json", Json.obj [("schema",
          composeRef .get .schemas slug ⟨some "global", none⟩)])])])
    let doc := setComponent doc "responses" (componentName slug ⟨some "global", none⟩)
      (Json.obj [("description", Json.str "successful operation"),
        ("content", Json.obj [("application/json", Json.obj [("schema",
          composeRef .get .schemas slug ⟨some "global", none⟩)])])])
    let doc := setPath doc ("/api/globals/" ++ slug)
      (Json.obj [
        ("parameters", Json.arr (filterQueryParams ++ baseQueryParams)),
        ("get", Json.obj [
          ("operationId", Json.str (componentName slug ⟨some "get", none⟩)),
          ("tags", Json.arr [Json.str slug]),
          ("responses", Json.obj [("200", composeRef .get .responses slug ⟨some "global", none⟩)])]),
        ("post", Json.obj [
          ("operationId", Json.str (componentName slug ⟨some "update", none⟩)),
          ("tags", Json.arr [Json.str slug]),
          ("requestBody", composeRef .get .requestBodies slug ⟨some "global", none⟩),
          ("responses", Json.obj [("200", composeRef .get .responses slug ⟨some "global", none⟩)])])])
    some doc

/-- `generateCollectionOperators` from the source. -/
def generateCollectionOperators (doc : Json) (collection : CollectionConfig) :
    Option Json :=
  match generateObject .new collection.fields with
  | none => none
  | some newObject =>
  match generateObject .get collection.fields with
  | none => none
  | some object =>
    let slug := collection.slug
    let doc := setComponent doc "schemas" (componentName slug ⟨some "new", none⟩)
      (Json.obj [("type", Json.str "object"),
        ("required", Json.arr ((dedupKeepFirst (reqOf newObject)).map Json.str)),
        ("properties", Json.obj (spread2 [] (newObject.getJ "properties").getObj))])
    let doc := setComponent doc "schemas" (componentName slug noOpts)
      (Json.obj [("type", Json.str "object"),
        ("required", Json.arr ((dedupKeepFirst
          (["id", "createdAt", "updatedAt"] ++ reqOf object)).map Json.str)),
        ("properties", Json.obj (spread2 [
          ("id", Json.obj [("type", Json.str "number")]),
          ("createdAt", Json.obj [("type", Json.str "string"), ("format", Json.str "date-time")]),
          ("updatedAt", Json.obj [("type", Json.str "string"), ("format", Json.str "date-time")])]
          (object.getJ "properties").getObj))])
    let doc := setComponent doc "requestBodies" (componentName slug ⟨some "new", none⟩)
      (Json.obj [("description", Json.str "successful operation"),
        ("content", Json.obj [("application/json", Json.obj [("schema",
          composeRef .get .schemas (componentName collection.slug ⟨some "new", none⟩) noOpts)])])])
    let doc := setComponent doc "requestBodies" (componentName slug noOpts)
      (Json.obj [("description", Json.str "successful operation"),
        ("content", Json.obj [("application/json", Json.obj [("schema",
          composeRef .get .schemas collection.slug noOpts)])])])
    let doc := setComponent doc "responses" (componentName slug noOpts)
      (Json.obj [("description", Json.str "successful operation"),
        ("content", Json.obj [("application/json", Json.obj [("schema",
          composeRef .get .schemas collection.slug noOpts)])])])
    let doc := setComponent doc "responses" (componentName slug ⟨some "new", none⟩)
      (Json.obj [("description", Json.str "successful operation"),
        ("content", Json.obj [("application/json", Json.obj [("schema",
          Json.obj [("allOf", Json.arr [composeRef .get .schemas slug noOpts,
            composeRef .get .schemas "createResponse" noOpts])])])])])
    let doc := setComponent doc "responses" (componentName slug ⟨none, some "list"⟩)
      (Json.obj [("description", Json.str "successful operation"),
        ("content", Json.obj [("application/json", Json.obj [("schema",
          Json.obj [("allOf", Json.arr [
            Json.obj [("type", Json.str "object"),
              ("required", Json.arr [Json.str "docs"]),
              ("properties", Json.obj [("docs", Json.obj [("type", Json.str "array"),
                ("items", composeRef .get .schemas slug noOpts)])])],
            composeRef .get .schemas "paginationResponse" noOpts])])])])])
    let doc := setPath doc ("/api/" ++ collection.slug)
      (Json.obj [
        ("parameters", Json.arr (filterQueryParams ++ baseQueryParams)),
        ("get", Json.obj [
          ("operationId", Json.str (componentName slug ⟨some "find", none⟩)),
          ("tags", Json.arr [Json.str slug]),
          ("responses", Json.obj [("200", composeRef .get .responses slug ⟨none, some "list"⟩)])]),
        ("post", Json.obj [
          ("operationId", Json.str (componentName slug ⟨some "create", none⟩)),
          ("tags", Json.arr [Json.str slug]),
          ("requestBody", composeRef .get .requestBodies slug ⟨some "new", none⟩),
          ("responses", Json.obj [("200", composeRef .get .responses slug noOpts)])]),
        ("patch", Json.obj [
          ("operationId", Json.str (componentName slug ⟨some "update", none⟩)),
          ("tags", Json.arr [Json.str slug]),
          ("requestBody", composeRef .get .requestBodies slug noOpts),
          ("responses", Json.obj [("200", composeRef .get .responses slug noOpts)])]),
        ("delete", Json.obj [
          ("operationId", Json.str (componentName slug ⟨some "delete", none⟩)),
          ("tags", Json.arr [Json.str slug]),
          ("responses", Json.obj [("200", composeRef .get .responses slug noOpts)])])])
    let doc := setPath doc ("/api/" ++ collection.slug ++ "/{id}")
      (Json.obj [
        ("parameters", Json.arr (baseQueryParams ++ [
          Json.obj [("in", Json.str "path"), ("name", Json.str "id"),
            ("required", Json.bool true),
            ("schema", Json.obj [("type", Json.str "string")])]])),
        ("get", Json.obj [
          ("operationId", Json.str (componentName slug ⟨some "findById", none⟩)),
          ("tags", Json.arr [Json.str slug]),
          ("responses", Json.obj [("200", composeRef .get .responses slug noOpts)])]),
        ("patch", Json.obj [
          ("operationId", Json.str (componentName slug ⟨some "updateById", none⟩)),
          ("tags", Json.arr [Json.str slug]),
          ("requestBody", composeRef .get .requestBodies slug noOpts),
          ("responses", Json.obj [("200", composeRef .get .responses slug noOpts)])]),
        ("delete", Json.obj [
          ("operationId", Json.str (componentName slug ⟨some "deleteById", none⟩)),
          ("tags", Json.arr [Json.str slug]),
          ("responses", Json.obj [("200", composeRef .get .responses slug noOpts)])])])
    let doc := setPath doc ("/api/" ++ collection.slug ++ "/count")
      (Json.obj [
        ("parameters", Json.arr baseQueryParams),
        ("get", Json.obj [
          ("operationId", Json.str (componentName collection.slug ⟨some "count", none⟩)),
          ("tags", Json.arr [Json.str collection.slug]),
          ("responses", Json.obj [("200", composeRef .get .responses "count" noOpts)])])])
    some doc

/-- The initial document literal of `openapi` (before any entity is
processed). -/
def initialDocument (options : Options) : Json :=
  Json.obj [
    ("openapi", Json.str "3.0.1"),
    ("info", Json.obj (spread2 (options.info.getD [])
      [("title", Json.str "PayloadCMS"),
       ("description", Json.str "The backend to build the modern web."),
       ("version", Json.str "1.0.0")])),
    ("tags", Json.arr []),
    ("paths", Json.obj []),
    ("components", Json.obj [
      ("requestBodies", Json.obj []),
      ("schemas", Json.obj defaultCollectionSchemas),
      ("responses", Json.obj [
        ("count", Json.obj [("description", Json.str "successful operation"),
          ("content", Json.obj [("application/json", Json.obj [("schema",
            composeRef .get .schemas "countResponse" noOpts)])])])])])]

/-- The `for (const global of config.globals || [])` loop of `openapi`. -/
def processGlobals (doc : Json) : List GlobalConfig → Option Json
  | [] => some doc
  | g :: gs =>
    match generateGlobalOperators (pushTag doc g.slug) g with
    | none => none
    | some doc =>
      processGlobals (generateCustomEndpointOperators doc "/api/globals/" g.slug g.endpoints) gs

/-- The `for (const collection of config.collections || [])` loop of
`openapi`. -/
def processCollections (doc : Json) : List CollectionConfig → Option Json
  | [] => some doc
  | c :: cs =>
    match (if c.upload then generateUploadCollectionOperators (pushTag doc c.slug) c
           else generateCollectionOperators (pushTag doc c.slug) c) with
    | none => none
    | some doc =>
      processCollections (generateCustomEndpointOperators doc "/api/" c.slug c.endpoints) cs

/-- The document constructed by `openapi(options)(config)` (the returned
`config` value and the optional file write are outside the model). -/
def openapiDoc (options : Options) (config : Config) : Option Json :=
  match processGlobals (initialDocument options) (config.globals.getD []) with
  | none => none
  | some doc => processCollections doc (config.collections.getD [])

/-! ### Observers and generic lemmas -/

/-- `k in o` for an association list. -/
def containsKey (kvs : List (String × Json)) (k : String) : Bool :=
  kvs.any (fun kv => kv.1 = k)

/-- The properties list of a compiled schema object. -/
def propsOf (j : Json) : List (String × Json) := (j.getJ "properties").getObj

theorem containsKey_setKey (m : List (String × Json)) (k k' : String) (v : Json) :
    containsKey (setKey m k v) k' = true ↔ k' = k ∨ containsKey m k' = true := by
  induction m with
  | nil =>
    simp [setKey, containsKey]
    exact eq_comm
  | cons kv m ih =>
    obtain ⟨k0, v0⟩ := kv
    by_cases hk : k0 = k
    · subst hk
      by_cases hk' : k' = k0
      · subst hk'
        simp [setKey, containsKey]
      · simp [setKey, containsKey, hk', Ne.symm hk']
    · by_cases hk' : k' = k0
      · subst hk'
        simp [setKey, containsKey, hk]
      · simp [setKey, containsKey, hk, hk', Ne.symm hk'] at ih ⊢
        exact ih

theorem lookup_setKey_self (m : List (String × Json)) (k : String) (v : Json) :
    List.lookup k (setKey m k v) = some v := by
  induction m with
  | nil => simp [setKey, List.lookup_cons]
  | cons kv m ih =>
    obtain ⟨k0, v0⟩ := kv
    by_cases hk : k0 = k
    · simp [setKey, hk, List.lookup_cons]
    · simp [setKey, hk, List.lookup_cons, beq_false_of_ne (Ne.symm hk), ih]

theorem lookup_setKey_ne (m : List (String × Json)) (k k' : String) (v : Json)
    (h : k' ≠ k) : List.lookup k' (setKey m k v) = List.lookup k' m := by
  induction m with
  | nil => simp [setKey, List.lookup_cons, beq_false_of_ne h]
  | cons kv m ih =>
    obtain ⟨k0, v0⟩ := kv
    by_cases hk : k0 = k
    · subst hk
      simp [setKey, List.lookup_cons, beq_false_of_ne h]
    · by_cases he : k' = k0
      · subst he
        simp [setKey, hk, List.lookup_cons]
      · simp [setKey, hk, List.lookup_cons, beq_false_of_ne he, ih]

theorem spread2_cons (a : List (String × Json)) (kv : String × Json)
    (b : List (String × Json)) :
    spread2 a (kv :: b) = spread2 (setKey a kv.1 kv.2) b := by
  simp [spread2]

theorem spread2_nil (a : List (String × Json)) : spread2 a [] = a := by
  simp [spread2]

theorem containsKey_spread2 (a b : List (String × Json)) (k : String) :
    containsKey (spread2 a b) k = true ↔ containsKey a k = true ∨ containsKey b k = true := by
  induction b generalizing a with
  | nil => simp [spread2_nil, containsKey]
  | cons kv b ih =>
    rw [spread2_cons, ih, containsKey_setKey]
    simp [containsKey]
    tauto

theorem mem_dedupKeepFirst (l : List String) (x : String) :
    x ∈ dedupKeepFirst l ↔ x ∈ l := by
  have H : ∀ (n : Nat) (l : List String), l.length ≤ n →
      (x ∈ dedupKeepFirst l ↔ x ∈ l) := by
    intro n
    induction n with
    | zero =>
      intro l hl
      cases l with
      | nil => simp [dedupKeepFirst]
      | cons y ys => simp at hl
    | succ n ih =>
      intro l hl
      cases l with
      | nil => simp [dedupKeepFirst]
      | cons y ys =>
        simp only [dedupKeepFirst]
        by_cases hxy : x = y
        · simp [hxy]
        · simp only [List.mem_cons, hxy, false_or]
          rw [ih (ys.filter (fun z => z ≠ y)) (by
            have hf := List.length_filter_le (fun z => z ≠ y) ys
            simp only [List.length_cons] at hl
            omega)]
          simp [List.mem_filter, hxy]
  exact H l.length l (le_refl _)

/-! ### Totality: the compiler never raises outside the `tabs`/`ui` leaves -/

theorem isSome_match_some {o : Option Json} (h : o.isSome = true) :
    ∃ j, o = some j := by
  cases o with
  | none => simp at h
  | some j => exact ⟨j, rfl⟩

mutual

/-- `generateField` succeeds on every kind except `tabs` and `ui`. -/
theorem generateField_isSome (mode : Mode) (field : Field)
    (h1 : ∀ ts, field.type ≠ FieldKind.tabs ts) (h2 : field.type ≠ FieldKind.ui) :
    (generateField mode field).isSome = true :=
  match field, h1, h2 with
  | .mk n r hd v .text, _, _ => by simp [generateField]
  | .mk n r hd v .textarea, _, _ => by simp [generateField]
  | .mk n r hd v .richText, _, _ => by simp [generateField]
  | .mk n r hd v .number, _, _ => by simp [generateField]
  | .mk n r hd v .checkbox, _, _ => by simp [generateField]
  | .mk n r hd v .code, _, _ => by simp [generateField]
  | .mk n r hd v .collapsible, _, _ => by simp [generateField]
  | .mk n r hd v .date, _, _ => by simp [generateField]
  | .mk n r hd v .email, _, _ => by simp [generateField]
  | .mk n r hd v .json, _, _ => by simp [generateField]
  | .mk n r hd v .point, _, _ => by simp [generateField]
  | .mk n r hd v .upload, _, _ => by simp [generateField]
  | .mk n r hd v (.select opts), _, _ => by simp [generateField]
  | .mk n r hd v (.radio opts), _, _ => by simp [generateField]
  | .mk n r hd v (.relationship target many), _, _ => by
    cases mode with
    | new =>
      simp only [generateField]
      split <;> simp
    | get =>
      cases target with
      | poly slugs =>
        simp only [generateField]
        split <;> simp
      | single s =>
        simp only [generateField]
        split <;> simp
  | .mk n r hd v (.join target many), _, _ => by
    cases target with
    | poly slugs =>
      simp only [generateField]
      split <;> simp
    | single s =>
      simp only [generateField]
      split <;> simp
  | .mk n r hd v (.array fs), _, _ => by
    have hg := generateObject_isSome mode fs
    simp only [generateField]
    cases hgo : generateObject mode fs with
    | none => rw [hgo] at hg; simp at hg
    | some j => simp
  | .mk n r hd v (.group fs), _, _ => by
    have hg := generateObject_isSome mode fs
    simp only [generateField]
    cases hgo : generateObject mode fs with
    | none => rw [hgo] at hg; simp at hg
    | some j => simp [hgo]
  | .mk n r hd v (.row fs), _, _ => by
    have hg := generateObject_isSome mode fs
    simp only [generateField]
    cases hgo : generateObject mode fs with
    | none => rw [hgo] at hg; simp at hg
    | some j => simp [hgo]
  | .mk n r hd v (.blocks bs), _, _ => by
    have hg := goBlocks_isSome mode bs
    simp only [generateField]
    cases hgo : goBlocks mode bs with
    | none => rw [hgo] at hg; simp at hg
    | some js => simp
  | .mk n r hd v (.tabs ts), h1, _ => by
    simp only [Field.type] at h1
    exact absurd rfl (h1 ts)
  | .mk n r hd v .ui, _, h2 => by
    simp only [Field.type] at h2
    exact absurd rfl h2
termination_by wField field
decreasing_by
  all_goals ((simp [wField, wKind, wFields, wTabs, wTab, wBlocks, wBlock]) <;> omega)

/-- Every block list compiles. -/
theorem goBlocks_isSome (mode : Mode) (bs : List Block) :
    (goBlocks mode bs).isSome = true :=
  match bs with
  | [] => by simp [goBlocks]
  | .mk fs :: bs => by
    have h1 := generateObject_isSome mode fs
    have h2 := goBlocks_isSome mode bs
    simp only [goBlocks]
    cases hg : generateObject mode fs with
    | none => rw [hg] at h1; simp at h1
    | some j =>
      cases hb : goBlocks mode bs with
      | none => rw [hb] at h2; simp at h2
      | some js => simp
termination_by wBlocks bs + 2
decreasing_by
  all_goals ((simp [wField, wKind, wFields, wTabs, wTab, wBlocks, wBlock]) <;> omega)

/-- The tab loop always succeeds. -/
theorem goTabs_isSome (mode : Mode) (fieldName : String) (allTabs : List Tab)
    (props : List (String × Json)) (ts : List Tab) :
    (goTabs mode fieldName allTabs props ts).isSome = true :=
  match ts with
  | [] => by simp [goTabs]
  | .mk iname tfs :: ts => by
    cases iname with
    | some i =>
      by_cases hi : i = ""
      · subst hi
        have h1 := generateObject_isSome mode (allTabs.flatMap Tab.fields)
        simp only [goTabs, if_pos rfl]
        cases hg : generateObject mode (allTabs.flatMap Tab.fields) with
        | none => rw [hg] at h1; simp at h1
        | some j =>
          simpa using goTabs_isSome mode fieldName allTabs (setKey props fieldName j) ts
      · have h1 := generateObject_isSome mode tfs
        simp only [goTabs, if_neg hi]
        cases hg : generateObject mode tfs with
        | none => rw [hg] at h1; simp at h1
        | some j =>
          simpa using goTabs_isSome mode fieldName allTabs (setKey props i j) ts
    | none =>
      have h1 := generateObject_isSome mode (allTabs.flatMap Tab.fields)
      simp only [goTabs]
      cases hg : generateObject mode (allTabs.flatMap Tab.fields) with
      | none => rw [hg] at h1; simp at h1
      | some j =>
        simpa using goTabs_isSome mode fieldName allTabs (setKey props fieldName j) ts
termination_by wTabs allTabs + wTabs ts + 4
decreasing_by
  all_goals
    first
    | ((simp [wField, wKind, wFields, wTabs, wTab, wBlocks, wBlock]) <;> omega)
    | (have h := wFields_flatMap_le allTabs
       simp [wField, wKind, wFields, wTabs, wTab, wBlocks, wBlock] at h ⊢
       omega)

/-- The default reducer case succeeds for non-`tabs`/`ui` fields. -/
theorem stepDefault_isSome (mode : Mode) (acc : Json) (field : Field)
    (h1 : ∀ ts, field.type ≠ FieldKind.tabs ts) (h2 : field.type ≠ FieldKind.ui) :
    (stepDefault mode acc field).isSome = true := by
  have hg := generateField_isSome mode field h1 h2
  simp only [stepDefault]
  split
  · simp
  · split
    · simp
    · split
      · simp
      · split
        · simp
        · cases hgo : generateField mode field with
          | none => rw [hgo] at hg; simp at hg
          | some gf => simp
termination_by wField field + 1
decreasing_by
  all_goals ((simp [wField, wKind, wFields, wTabs, wTab, wBlocks, wBlock]) <;> omega)

/-- The `tabs` reducer case always succeeds. -/
theorem stepTabs_isSome (mode : Mode) (acc : Json) (fieldName : String)
    (tabs : List Tab) : (stepTabs mode acc fieldName tabs).isSome = true := by
  have hgt := goTabs_isSome mode fieldName tabs [] tabs
  simp only [stepTabs]
  cases hg : goTabs mode fieldName tabs [] tabs with
  | none => rw [hg] at hgt; simp at hgt
  | some resultProps => simp
termination_by 2 * wTabs tabs + 6
decreasing_by
  all_goals ((simp [wField, wKind, wFields, wTabs, wTab, wBlocks, wBlock]) <;> omega)

/-- One reducer step always succeeds. -/
theorem stepField_isSome (mode : Mode) (acc : Json) (field : Field) :
    (stepField mode acc field).isSome = true :=
  match field with
  | .mk n r hd v (.tabs ts) => by
    simp only [stepField]
    exact stepTabs_isSome mode acc n ts
  | .mk n r hd v .ui => by simp [stepField]
  | .mk n r hd v .text => by
    simp only [stepField]
    exact stepDefault_isSome mode acc _ (by simp [Field.type]) (by simp [Field.type])
  | .mk n r hd v .textarea => by
    simp only [stepField]
    exact stepDefault_isSome mode acc _ (by simp [Field.type]) (by simp [Field.type])
  | .mk n r hd v .richText => by
    simp only [stepField]
    exact stepDefault_isSome mode acc _ (by simp [Field.type]) (by simp [Field.type])
  | .mk n r hd v .number => by
    simp only [stepField]
    exact stepDefault_isSome mode acc _ (by simp [Field.type]) (by simp [Field.type])
  | .mk n r hd v .checkbox => by
    simp only [stepField]
    exact stepDefault_isSome mode acc _ (by simp [Field.type]) (by simp [Field.type])
  | .mk n r hd v .code => by
    simp only [stepField]
    exact stepDefault_isSome mode acc _ (by simp [Field.type]) (by simp [Field.type])
  | .mk n r hd v .collapsible => by
    simp only [stepField]
    exact stepDefault_isSome mode acc _ (by simp [Field.type]) (by simp [Field.type])
  | .mk n r hd v .date => by
    simp only [stepField]
    exact stepDefault_isSome mode acc _ (by simp [Field.type]) (by simp [Field.type])
  | .mk n r hd v .email => by
    simp only [stepField]
    exact stepDefault_isSome mode acc _ (by simp [Field.type]) (by simp [Field.type])
  | .mk n r hd v .json => by
    simp only [stepField]
    exact stepDefault_isSome mode acc _ (by simp [Field.type]) (by simp [Field.type])
  | .mk n r hd v .point => by
    simp only [stepField]
    exact stepDefault_isSome mode acc _ (by simp [Field.type]) (by simp [Field.type])
  | .mk n r hd v .upload => by
    simp only [stepField]
    exact stepDefault_isSome mode acc _ (by simp [Field.type]) (by simp [Field.type])
  | .mk n r hd v (.select opts) => by
    simp only [stepField]
    exact stepDefault_isSome mode acc _ (by simp [Field.type]) (by simp [Field.type])
  | .mk n r hd v (.radio opts) => by
    simp only [stepField]
    exact stepDefault_isSome mode acc _ (by simp [Field.type]) (by simp [Field.type])
  | .mk n r hd v (.relationship target many) => by
    simp only [stepField]
    exact stepDefault_isSome mode acc _ (by simp [Field.type]) (by simp [Field.type])
  | .mk n r hd v (.join target many) => by
    simp only [stepField]
    exact stepDefault_isSome mode acc _ (by simp [Field.type]) (by simp [Field.type])
  | .mk n r hd v (.array fs) => by
    simp only [stepField]
    exact stepDefault_isSome mode acc _ (by simp [Field.type]) (by simp [Field.type])
  | .mk n r hd v (.group fs) => by
    simp only [stepField]
    exact stepDefault_isSome mode acc _ (by simp [Field.type]) (by simp [Field.type])
  | .mk n r hd v (.blocks bs) => by
    simp only [stepField]
    exact stepDefault_isSome mode acc _ (by simp [Field.type]) (by simp [Field.type])
  | .mk n r hd v (.row fs) => by
    simp only [stepField]
    exact stepDefault_isSome mode acc _ (by simp [Field.type]) (by simp [Field.type])
termination_by wField field + 8
decreasing_by
  all_goals ((simp [wField, wKind, wFields, wTabs, wTab, wBlocks, wBlock]) <;> omega)

/-- The reducer loop always succeeds. -/
theorem goFields_isSome (mode : Mode) (acc : Json) (fs : List Field) :
    (goFields mode acc fs).isSome = true :=
  match fs with
  | [] => by simp [goFields]
  | f :: fs => by
    have h1 := stepField_isSome mode acc f
    simp only [goFields]
    cases hs : stepField mode acc f with
    | none => rw [hs] at h1; simp at h1
    | some acc2 => simpa using goFields_isSome mode acc2 fs
termination_by wFields fs + 9
decreasing_by
  all_goals ((simp [wField, wKind, wFields, wTabs, wTab, wBlocks, wBlock]) <;> omega)

/-- `generateObject` succeeds on every field list. -/
theorem generateObject_isSome (mode : Mode) (fields : List Field) :
    (generateObject mode fields).isSome = true := by
  simp only [generateObject]
  exact goFields_isSome mode (Json.obj []) fields
termination_by wFields fields + 10
decreasing_by
  all_goals ((simp [wField, wKind, wFields, wTabs, wTab, wBlocks, wBlock]) <;> omega)

end

/-- `generateGlobalOperators` never fails. -/
theorem generateGlobalOperators_isSome (doc : Json) (g : GlobalConfig) :
    (generateGlobalOperators doc g).isSome = true := by
  have h := generateObject_isSome .get g.fields
  simp only [generateGlobalOperators]
  cases hg : generateObject .get g.fields with
  | none => rw [hg] at h; simp at h
  | some object => simp

/-- `generateCollectionOperators` never fails. -/
theorem generateCollectionOperators_isSome (doc : Json) (c : CollectionConfig) :
    (generateCollectionOperators doc c).isSome = true := by
  have h1 := generateObject_isSome .new c.fields
  have h2 := generateObject_isSome .get c.fields
  simp only [generateCollectionOperators]
  cases hg1 : generateObject .new c.fields with
  | none => rw [hg1] at h1; simp at h1
  | some newObject =>
    cases hg2 : generateObject .get c.fields with
    | none => rw [hg2] at h2; simp at h2
    | some object => simp

/-- `generateUploadCollectionOperators` never fails. -/
theorem generateUploadCollectionOperators_isSome (doc : Json) (c : CollectionConfig) :
    (generateUploadCollectionOperators doc c).isSome = true := by
  have h := generateObject_isSome .get c.fields
  simp only [generateUploadCollectionOperators]
  cases hg : generateObject .get c.fields with
  | none => rw [hg] at h; simp at h
  | some object => simp

/-- The globals loop never fails. -/
theorem processGlobals_isSome (doc : Json) (gs : List GlobalConfig) :
    (processGlobals doc gs).isSome = true := by
  induction gs generalizing doc with
  | nil => simp [processGlobals]
  | cons g gs ih =>
    have h := generateGlobalOperators_isSome (pushTag doc g.slug) g
    simp only [processGlobals]
    cases hg : generateGlobalOperators (pushTag doc g.slug) g with
    | none => rw [hg] at h; simp at h
    | some doc2 => simpa using ih _

/-- The collections loop never fails. -/
theorem processCollections_isSome (doc : Json) (cs : List CollectionConfig) :
    (processCollections doc cs).isSome = true := by
  induction cs generalizing doc with
  | nil => simp [processCollections]
  | cons c cs ih =>
    simp only [processCollections]
    by_cases hu : c.upload
    · have h := generateUploadCollectionOperators_isSome (pushTag doc c.slug) c
      rw [if_pos hu]
      cases hg : generateUploadCollectionOperators (pushTag doc c.slug) c with
      | none => rw [hg] at h; simp at h
      | some doc2 => simpa using ih _
    · have h := generateCollectionOperators_isSome (pushTag doc c.slug) c
      rw [if_neg hu]
      cases hg : generateCollectionOperators (pushTag doc c.slug) c with
      | none => rw [hg] at h; simp at h
      | some doc2 => simpa using ih _

/-- The full document generation never fails. -/
theorem openapiDoc_isSome (options : Options) (config : Config) :
    (openapiDoc options config).isSome = true := by
  have h := processGlobals_isSome (initialDocument options) (config.globals.getD [])
  simp only [openapiDoc]
  cases hg : processGlobals (initialDocument options) (config.globals.getD []) with
  | none => rw [hg] at h; simp at h
  | some doc => simpa using processCollections_isSome doc (config.collections.getD [])

/-! ### Claims C10 and C9 -/

/-- C10: `generateObject` intercepts `tabs` and `ui` before dispatching to
the leaf mapper `generateField` (whose two throwing branches, modelled by
`none`, are therefore unreachable), so compiling any field list — and
generating the whole document for any configuration and options — never
raises. -/
theorem claim_C10_no_throw :
    (∀ (mode : Mode) (fields : List Field), (generateObject mode fields).isSome = true) ∧
    (∀ (options : Options) (config : Config), (openapiDoc options config).isSome = true) :=
  ⟨generateObject_isSome, openapiDoc_isSome⟩

/-- C9: the generated document is a deterministic pure function of the
configuration and the options: two runs on equal inputs yield equal
documents. -/
theorem claim_C9_deterministic (options1 options2 : Options) (config1 config2 : Config)
    (ho : options1 = options2) (hc : config1 = config2) :
    openapiDoc options1 config1 = openapiDoc options2 config2 := by
  rw [ho, hc]

/-- Witness for C9 at a concrete configuration. -/
theorem claim_C9_witness :
    openapiDoc ⟨none, none⟩ ⟨none, some [⟨"posts", [Field.mk "title" true false false .text], false, none⟩]⟩ =
    openapiDoc ⟨none, none⟩ ⟨none, some [⟨"posts", [Field.mk "title" true false false .text], false, none⟩]⟩ :=
  claim_C9_deterministic _ _ _ _ rfl rfl

/-! ### Reducer-step characterization and skip/monotonicity lemmas -/

/-- Every reducer step is a `tabs` step, a `ui` skip, or the default case. -/
theorem stepField_characterization (mode : Mode) (acc : Json) (field : Field) :
    (∃ ts, field.type = FieldKind.tabs ts ∧
      stepField mode acc field = stepTabs mode acc field.name ts) ∨
    (field.type = FieldKind.ui ∧ stepField mode acc field = some acc) ∨
    ((∀ ts, field.type ≠ FieldKind.tabs ts) ∧ field.type ≠ FieldKind.ui ∧
      stepField mode acc field = stepDefault mode acc field) := by
  obtain ⟨n, r, hd, v, k⟩ := field
  cases k
  case tabs ts =>
    exact Or.inl ⟨ts, rfl, by simp [stepField, Field.name]⟩
  case ui =>
    exact Or.inr (Or.inl ⟨rfl, by simp [stepField]⟩)
  all_goals
    exact Or.inr (Or.inr ⟨by intro ts h; simp [Field.type] at h,
      by intro h; simp [Field.type] at h, by simp only [stepField]⟩)

/-- The reducer over an appended list runs the two halves in sequence. -/
theorem goFields_append (mode : Mode) (acc : Json) (l1 l2 : List Field) :
    goFields mode acc (l1 ++ l2) =
      match goFields mode acc l1 with
      | none => none
      | some a => goFields mode a l2 := by
  induction l1 generalizing acc with
  | nil => simp [goFields]
  | cons f fs ih =>
    simp only [List.cons_append, goFields]
    cases hs : stepField mode acc f with
    | none => rfl
    | some acc2 => exact ih acc2

/-- A step that returns the accumulator unchanged can be removed from the
middle of a field list without changing the compiled object. -/
theorem generateObject_skip_middle (mode : Mode) (pre post : List Field) (field : Field)
    (hskip : ∀ acc, stepField mode acc field = some acc) :
    generateObject mode (pre ++ field :: post) = generateObject mode (pre ++ post) := by
  simp only [generateObject, goFields_append]
  cases hg : goFields mode (Json.obj []) pre with
  | none => rfl
  | some a =>
    simp only [goFields, hskip a]

/-- Hidden fields of any kind other than `tabs` are skipped by the reducer
(`ui` fields are skipped regardless). -/
theorem stepField_hidden (mode : Mode) (acc : Json) (field : Field)
    (hh : field.hidden = true) (ht : ∀ ts, field.type ≠ FieldKind.tabs ts) :
    stepField mode acc field = some acc := by
  rcases stepField_characterization mode acc field with ⟨ts, hty, _⟩ | ⟨_, he⟩ | ⟨_, _, he⟩
  · exact absurd hty (ht ts)
  · exact he
  · rw [he]
    simp [stepDefault, hh]

/-- In `new` mode the reducer skips built-in names, virtual fields and
joins (any kind other than `tabs`; `ui` is skipped regardless). -/
theorem stepField_new_skip (acc : Json) (field : Field)
    (hcat : field.name = "id" ∨ field.name = "createdAt" ∨ field.name = "updatedAt"
      ∨ field.virtual = true ∨ field.type.isJoin = true)
    (ht : ∀ ts, field.type ≠ FieldKind.tabs ts) :
    stepField .new acc field = some acc := by
  rcases stepField_characterization .new acc field with ⟨ts, hty, _⟩ | ⟨_, he⟩ | ⟨_, _, he⟩
  · exact absurd hty (ht ts)
  · exact he
  · rw [he]
    by_cases hh : field.hidden = true
    · simp [stepDefault, hh]
    · simp only [Bool.not_eq_true] at hh
      rcases hcat with h | h | h | h | h <;>
        simp [stepDefault, hh, h, show (Mode.new == Mode.new) = true from rfl]

theorem getStrArr_arr_map (l : List String) :
    Json.getStrArr (Json.arr (l.map Json.str)) = l := by
  induction l with
  | nil => simp [Json.getStrArr]
  | cons x xs ih =>
    simp only [Json.getStrArr, List.map_cons, List.filterMap_cons] at ih ⊢
    rw [ih]

/-- A nonempty required list means the accumulator's `required` key holds
an array, which is truthy. -/
theorem jsTruthy_of_mem_reqOf (acc : Json) (x : String) (hx : x ∈ reqOf acc) :
    jsTruthy (acc.getKey "required") = true := by
  unfold reqOf at hx
  cases hk : acc.getKey "required" with
  | none => rw [hk] at hx; simp at hx
  | some j0 =>
    rw [hk] at hx
    simp at hx
    cases j0 <;> simp [Json.getStrArr] at hx <;> simp [jsTruthy]

/-- Running the default reducer case in `get` mode on a visible
non-`tabs`/`ui` field records the field under its name and, when it is
required, adds the name to the required set. -/
theorem stepDefault_get_facts (acc : Json) (field : Field)
    (hh : field.hidden = false)
    (h1 : ∀ ts, field.type ≠ FieldKind.tabs ts) (h2 : field.type ≠ FieldKind.ui) :
    ∃ j, stepDefault .get acc field = some j ∧
      containsKey (propsOf j) field.name = true ∧
      (field.required = true → field.name ∈ reqOf j) := by
  obtain ⟨gf, hgf⟩ := isSome_match_some (generateField_isSome .get field h1 h2)
  obtain ⟨j, hj⟩ := isSome_match_some (stepDefault_isSome .get acc field h1 h2)
  refine ⟨j, hj, ?_⟩
  simp only [stepDefault] at hj
  split at hj
  · next hcond => rw [hh] at hcond; simp at hcond
  · split at hj
    · next hcond => simp [show (Mode.get == Mode.new) = false from rfl] at hcond
    · split at hj
      · next hcond => simp [show (Mode.get == Mode.new) = false from rfl] at hcond
      · split at hj
        · next hcond => simp [show (Mode.get == Mode.new) = false from rfl] at hcond
        · rw [hgf] at hj
          simp only [Option.some.injEq] at hj
          subst hj
          constructor
          · simp only [propsOf, Json.getJ, Json.getKey]
            split
            · simp [List.lookup, Json.getObj]
              exact (containsKey_setKey _ _ _ _).mpr (Or.inl rfl)
            · simp [List.lookup, Json.getObj]
              exact (containsKey_setKey _ _ _ _).mpr (Or.inl rfl)
          · intro hr
            simp only [reqOf, Json.getKey]
            split
            · next hcond =>
              simp [List.lookup, getStrArr_arr_map, mem_dedupKeepFirst, hr]
            · next hcond =>
              simp [hr] at hcond

/-- One reducer step preserves every property key already accumulated. -/
theorem stepField_props_mono (mode : Mode) (acc : Json) (field : Field) (k : String)
    (hk : containsKey (propsOf acc) k = true) :
    ∀ j, stepField mode acc field = some j → containsKey (propsOf j) k = true := by
  intro j hj
  rcases stepField_characterization mode acc field with ⟨ts, _, he⟩ | ⟨_, he⟩ | ⟨_, _, he⟩
  · rw [he] at hj
    simp only [stepTabs] at hj
    cases hg : goTabs mode field.name ts [] ts with
    | none => rw [hg] at hj; simp at hj
    | some resultProps =>
      rw [hg] at hj
      simp only [Option.some.injEq] at hj
      subst hj
      simp only [propsOf, Json.getJ, Json.getKey]
      split
      · simp [List.lookup, Json.getObj]
        exact (containsKey_spread2 _ _ _).mpr (Or.inl hk)
      · simp [List.lookup, Json.getObj]
        exact (containsKey_spread2 _ _ _).mpr (Or.inl hk)
  · rw [he] at hj
    simp only [Option.some.injEq] at hj
    subst hj
    exact hk
  · rw [he] at hj
    simp only [stepDefault] at hj
    split at hj
    · simp only [Option.some.injEq] at hj; subst hj; exact hk
    · split at hj
      · simp only [Option.some.injEq] at hj; subst hj; exact hk
      · split at hj
        · simp only [Option.some.injEq] at hj; subst hj; exact hk
        · split at hj
          · simp only [Option.some.injEq] at hj; subst hj; exact hk
          · cases hgf : generateField mode field with
            | none => rw [hgf] at hj; simp at hj
            | some gf =>
              rw [hgf] at hj
              simp only [Option.some.injEq] at hj
              subst hj
              simp only [propsOf, Json.getJ, Json.getKey]
              split
              · simp [List.lookup, Json.getObj]
                exact (containsKey_setKey _ _ _ _).mpr (Or.inr hk)
              · simp [List.lookup, Json.getObj]
                exact (containsKey_setKey _ _ _ _).mpr (Or.inr hk)

/-- One reducer step preserves the accumulated required names. -/
theorem stepField_req_mono (mode : Mode) (acc : Json) (field : Field) (x : String)
    (hx : x ∈ reqOf acc) :
    ∀ j, stepField mode acc field = some j → x ∈ reqOf j := by
  intro j hj
  have htru := jsTruthy_of_mem_reqOf acc x hx
  have hxl : x ∈ ((acc.getKey "required").map Json.getStrArr).getD [] := hx
  rcases stepField_characterization mode acc field with ⟨ts, _, he⟩ | ⟨_, he⟩ | ⟨_, _, he⟩
  · rw [he] at hj
    simp only [stepTabs] at hj
    cases hg : goTabs mode field.name ts [] ts with
    | none => rw [hg] at hj; simp at hj
    | some resultProps =>
      rw [hg] at hj
      simp only [Option.some.injEq] at hj
      subst hj
      simp only [reqOf, Json.getKey]
      split
      · next hcond =>
        simp [List.lookup, getStrArr_arr_map, mem_dedupKeepFirst]
        exact hxl
      · next hcond =>
        simp [jsTruthy] at hcond
  · rw [he] at hj
    simp only [Option.some.injEq] at hj
    subst hj
    exact hx
  · rw [he] at hj
    simp only [stepDefault] at hj
    split at hj
    · simp only [Option.some.injEq] at hj; subst hj; exact hx
    · split at hj
      · simp only [Option.some.injEq] at hj; subst hj; exact hx
      · split at hj
        · simp only [Option.some.injEq] at hj; subst hj; exact hx
        · split at hj
          · simp only [Option.some.injEq] at hj; subst hj; exact hx
          · cases hgf : generateField mode field with
            | none => rw [hgf] at hj; simp at hj
            | some gf =>
              rw [hgf] at hj
              simp only [Option.some.injEq] at hj
              subst hj
              simp only [reqOf, Json.getKey]
              split
              · next hcond =>
                simp [List.lookup, getStrArr_arr_map, mem_dedupKeepFirst]
                by_cases hr : field.required = true
                · simp [hr]
                  exact Or.inl hxl
                · simp [hr]
                  exact hxl
              · next hcond =>
                have hor : (jsTruthy (acc.getKey "required") || field.required) = true := by
                  simp [htru]
                exact absurd hor hcond

/-- The reducer loop preserves accumulated property keys. -/
theorem goFields_props_mono (mode : Mode) (acc : Json) (fs : List Field) (k : String)
    (hk : containsKey (propsOf acc) k = true) :
    ∀ j, goFields mode acc fs = some j → containsKey (propsOf j) k = true := by
  induction fs generalizing acc with
  | nil =>
    intro j hj
    simp only [goFields, Option.some.injEq] at hj
    subst hj
    exact hk
  | cons f fs ih =>
    intro j hj
    simp only [goFields] at hj
    cases hs : stepField mode acc f with
    | none => rw [hs] at hj; simp at hj
    | some a2 =>
      rw [hs] at hj
      exact ih a2 (stepField_props_mono mode acc f k hk a2 hs) j hj

/-- The reducer loop preserves accumulated required names. -/
theorem goFields_req_mono (mode : Mode) (acc : Json) (fs : List Field) (x : String)
    (hx : x ∈ reqOf acc) :
    ∀ j, goFields mode acc fs = some j → x ∈ reqOf j := by
  induction fs generalizing acc with
  | nil =>
    intro j hj
    simp only [goFields, Option.some.injEq] at hj
    subst hj
    exact hx
  | cons f fs ih =>
    intro j hj
    simp only [goFields] at hj
    cases hs : stepField mode acc f with
    | none => rw [hs] at hj; simp at hj
    | some a2 =>
      rw [hs] at hj
      exact ih a2 (stepField_req_mono mode acc f x hx a2 hs) j hj

/-! ### Claims C3, C4, C5 -/

/-- C3 (amended): every hidden field whose kind is not `tabs` contributes
nothing to the compiled schema, in either mode: it can be removed from the
field list without changing the result (`ui` fields are skipped regardless
of `hidden`).  A hidden `tabs` field, however, is still compiled — the
reducer's `tabs` case precedes the `hidden` check — see the
counterexample. -/
theorem claim_C3_hidden_excluded (mode : Mode) (pre post : List Field) (field : Field)
    (hh : field.hidden = true) (ht : ∀ ts, field.type ≠ FieldKind.tabs ts) :
    generateObject mode (pre ++ field :: post) = generateObject mode (pre ++ post) :=
  generateObject_skip_middle mode pre post field
    (fun acc => stepField_hidden mode acc field hh ht)

/-- Witness for C3 at a concrete hidden text field. -/
theorem claim_C3_witness :
    (Field.mk "secret" false true false .text).hidden = true ∧
    (∀ ts, (Field.mk "secret" false true false .text).type ≠ FieldKind.tabs ts) ∧
    generateObject .get ([Field.mk "title" true false false .text] ++
        Field.mk "secret" false true false .text :: []) =
      generateObject .get ([Field.mk "title" true false false .text] ++ []) :=
  ⟨rfl, by intro ts h; simp [Field.type] at h,
    claim_C3_hidden_excluded .get [Field.mk "title" true false false .text] []
      (Field.mk "secret" false true false .text) rfl
      (by intro ts h; simp [Field.type] at h)⟩

/-- C3 counterexample: a hidden `tabs` field still contributes its tabs'
properties to the compiled schema (here the property `iface`), so the
claim that hidden fields of any kind including `tabs` contribute nothing
is false on the code. -/
theorem claim_C3_counterexample :
    (Field.mk "t" false true false
      (.tabs [Tab.mk (some "iface") [Field.mk "a" false false false .text]])).hidden = true ∧
    (generateObject .get [Field.mk "t" false true false
      (.tabs [Tab.mk (some "iface") [Field.mk "a" false false false .text]])]).map
        (fun j => containsKey (propsOf j) "iface") = some true := by
  refine ⟨rfl, ?_⟩
  simp [generateObject, goFields, stepField, stepTabs, stepDefault, goTabs, goBlocks,
    generateField, Json.getKey, Json.getJ, Json.getObj, Json.getArr, setKey, spread2,
    dedupKeepFirst, jsTruthy, Field.hidden, Field.name, Field.required, Field.virtual,
    Field.type, FieldKind.isJoin, Json.getStrArr, Tab.fields, List.lookup, containsKey,
    propsOf, reqOf, composeRef, componentName, capitalized, noOpts, ComponentType.toStr,
    RelTarget.isArray, generateOptions]

/-- C4 (amended): in `new` mode the reducer omits every non-`tabs` field
named `id`/`createdAt`/`updatedAt`, marked virtual, or of kind `join`
(removing it does not change the compiled object); in `get` mode such a
field is included — its name is a property key of the result, and is in
the required set when the field is required — provided the field is not
hidden and not of kind `ui` (hidden exclusion takes priority over the
kind's rule; `ui` fields are annotation-only in both modes). -/
theorem claim_C4_write_mode_exclusion (pre post : List Field) (field : Field)
    (hcat : field.name = "id" ∨ field.name = "createdAt" ∨ field.name = "updatedAt"
      ∨ field.virtual = true ∨ field.type.isJoin = true)
    (ht : ∀ ts, field.type ≠ FieldKind.tabs ts) :
    generateObject .new (pre ++ field :: post) = generateObject .new (pre ++ post) ∧
    (field.hidden = false → field.type ≠ FieldKind.ui →
      ∀ j, generateObject .get (pre ++ field :: post) = some j →
        containsKey (propsOf j) field.name = true ∧
        (field.required = true → field.name ∈ reqOf j)) := by
  constructor
  · exact generateObject_skip_middle .new pre post field
      (fun acc => stepField_new_skip acc field hcat ht)
  · intro hh hui j hj
    simp only [generateObject] at hj
    rw [goFields_append] at hj
    cases hgp : goFields .get (Json.obj []) pre with
    | none => rw [hgp] at hj; simp at hj
    | some a =>
      rw [hgp] at hj
      simp only [goFields] at hj
      rcases stepField_characterization .get a field with ⟨ts, hty, _⟩ | ⟨hty, _⟩ | ⟨_, _, he⟩
      · exact absurd hty (ht ts)
      · exact absurd hty hui
      · obtain ⟨a2, ha2, hprop, hreq⟩ := stepDefault_get_facts a field hh ht hui
        rw [he, ha2] at hj
        simp only at hj
        exact ⟨goFields_props_mono .get a2 post field.name hprop j hj,
          fun hr => goFields_req_mono .get a2 post field.name (hreq hr) j hj⟩

/-- Witness for C4 at a concrete `join` field. -/
theorem claim_C4_witness :
    ((Field.mk "author" true false false (.join (.single "users") false)).name = "id" ∨
      (Field.mk "author" true false false (.join (.single "users") false)).name = "createdAt" ∨
      (Field.mk "author" true false false (.join (.single "users") false)).name = "updatedAt" ∨
      (Field.mk "author" true false false (.join (.single "users") false)).virtual = true ∨
      (Field.mk "author" true false false (.join (.single "users") false)).type.isJoin = true) ∧
    (∀ ts, (Field.mk "author" true false false (.join (.single "users") false)).type ≠ FieldKind.tabs ts) ∧
    (generateObject .new ([] ++ (Field.mk "author" true false false (.join (.single "users") false)) :: []) =
        generateObject .new ([] ++ []) ∧
      ((Field.mk "author" true false false (.join (.single "users") false)).hidden = false →
        (Field.mk "author" true false false (.join (.single "users") false)).type ≠ FieldKind.ui →
        ∀ j, generateObject .get ([] ++ (Field.mk "author" true false false (.join (.single "users") false)) :: []) = some j →
          containsKey (propsOf j) (Field.mk "author" true false false (.join (.single "users") false)).name = true ∧
          ((Field.mk "author" true false false (.join (.single "users") false)).required = true →
            (Field.mk "author" true false false (.join (.single "users") false)).name ∈ reqOf j))) :=
  ⟨by simp [Field.name, Field.type, FieldKind.isJoin],
   by intro ts h; simp [Field.type] at h,
   claim_C4_write_mode_exclusion [] [] _
     (by simp [Field.name, Field.type, FieldKind.isJoin])
     (by intro ts h; simp [Field.type] at h)⟩

/-- C4 counterexample: a hidden `join` field is absent from the `get`-mode
schema as well, so the claim's clause that `id`/built-in/virtual/`join`
fields are always present in `get`-mode schemas is false on the code
(hidden exclusion wins). -/
theorem claim_C4_counterexample :
    (Field.mk "author" false true false (.join (.single "users") false)).type.isJoin = true ∧
    (generateObject .get [Field.mk "author" false true false
        (.join (.single "users") false)]).map
      (fun j => containsKey (propsOf j) "author") = some false := by
  refine ⟨rfl, ?_⟩
  simp [generateObject, goFields, stepField, stepTabs, stepDefault, goTabs, goBlocks,
    generateField, Json.getKey, Json.getJ, Json.getObj, Json.getArr, setKey, spread2,
    dedupKeepFirst, jsTruthy, Field.hidden, Field.name, Field.required, Field.virtual,
    Field.type, FieldKind.isJoin, Json.getStrArr, Tab.fields, List.lookup, containsKey,
    propsOf, reqOf, composeRef, componentName, capitalized, noOpts, ComponentType.toStr,
    RelTarget.isArray, generateOptions]

/-- C5 (amended): a polymorphic (`relationTo` an array) relationship field
without `hasMany` compiles in `get` mode to a `oneOf` of one schema
reference per target slug, and in `new` mode to an array of identifier
strings — not a bare string: the source tests
`Array.isArray(field.relationTo) || field.hasMany` and returns the array
shape for every polymorphic relationship. -/
theorem claim_C5_polymorphic_relationship (n : String) (r hd v : Bool)
    (slugs : List String) :
    generateField .get (Field.mk n r hd v (.relationship (.poly slugs) false)) =
      some (Json.obj [("oneOf",
        Json.arr (slugs.map (fun s => composeRef .get .schemas s noOpts)))]) ∧
    generateField .new (Field.mk n r hd v (.relationship (.poly slugs) false)) =
      some (Json.obj [("type", Json.str "array"),
        ("items", Json.obj [("type", Json.str "string")])]) := by
  constructor <;> simp [generateField, RelTarget.isArray]

/-- C5 counterexample: in `new` mode the fragment for a polymorphic
non-`hasMany` relationship has `type: array`, not `type: string` as the
claim states. -/
theorem claim_C5_counterexample :
    (generateField .new (Field.mk "rel" false false false
      (.relationship (.poly ["users", "pages"]) false))).map
        (fun j => j.getKey "type") = some (some (Json.str "array")) ∧
    some (some (Json.str "array")) ≠ some (some (Json.str "string")) := by
  constructor
  · simp [generateField, RelTarget.isArray, Json.getKey, List.lookup]
  · simp

/-! ### Keys, lookup-through-spread, and the tab-loop characterization -/

theorem containsKey_iff_keys (m : List (String × Json)) (k : String) :
    containsKey m k = true ↔ k ∈ m.map Prod.fst := by
  simp only [containsKey, List.any_eq_true, decide_eq_true_eq, List.mem_map]

theorem containsKey_false_iff (m : List (String × Json)) (k : String) :
    containsKey m k = false ↔ k ∉ m.map Prod.fst := by
  rw [← containsKey_iff_keys]
  cases containsKey m k <;> simp

theorem keys_setKey (m : List (String × Json)) (k : String) (v : Json) :
    (setKey m k v).map Prod.fst =
      if containsKey m k = true then m.map Prod.fst else m.map Prod.fst ++ [k] := by
  induction m with
  | nil => simp [setKey, containsKey]
  | cons kv m ih =>
    obtain ⟨k0, v0⟩ := kv
    by_cases hk : k0 = k
    · subst hk
      simp [setKey, containsKey]
    · have hcc : containsKey ((k0, v0) :: m) k = containsKey m k := by
        simp [containsKey, hk]
      simp only [setKey, if_neg hk, List.map_cons, ih, hcc]
      by_cases hc : containsKey m k = true <;> simp [hc]

theorem nodupKeys_setKey (m : List (String × Json)) (k : String) (v : Json)
    (h : (m.map Prod.fst).Nodup) : ((setKey m k v).map Prod.fst).Nodup := by
  rw [keys_setKey]
  by_cases hc : containsKey m k = true
  · simp [hc, h]
  · rw [if_neg hc]
    rw [List.nodup_append]
    refine ⟨h, List.nodup_singleton k, ?_⟩
    intro a ha hb
    simp at hb
    subst hb
    exact absurd ha ((containsKey_false_iff m a).mp (Bool.eq_false_iff.mpr hc))

theorem lookup_spread2_absent (b : List (String × Json)) (k : String) :
    ∀ (a : List (String × Json)), containsKey b k = false →
      List.lookup k (spread2 a b) = List.lookup k a := by
  induction b with
  | nil => intro a _; simp [spread2_nil]
  | cons kv b ih =>
    intro a hk
    obtain ⟨k0, v0⟩ := kv
    rw [containsKey_false_iff] at hk
    simp only [List.map_cons, List.mem_cons] at hk
    push_neg at hk
    rw [spread2_cons]
    rw [ih _ ((containsKey_false_iff b k).mpr hk.2)]
    exact lookup_setKey_ne a k0 k v0 hk.1

theorem lookup_spread2_right (b : List (String × Json)) (k : String) :
    ∀ (a : List (String × Json)), (b.map Prod.fst).Nodup → containsKey b k = true →
      List.lookup k (spread2 a b) = List.lookup k b := by
  induction b with
  | nil => intro a _ hk; simp [containsKey] at hk
  | cons kv b ih =>
    intro a hnd hk
    obtain ⟨k0, v0⟩ := kv
    simp only [List.map_cons, List.nodup_cons] at hnd
    rw [spread2_cons]
    by_cases hcb : containsKey b k = true
    · rw [ih _ hnd.2 hcb]
      have hkk0 : k ≠ k0 := by
        intro he
        subst he
        exact absurd ((containsKey_iff_keys _ _).mp hcb) hnd.1
      simp [List.lookup_cons, beq_false_of_ne hkk0]
    · have hk0 : k = k0 := by
        have := (containsKey_iff_keys _ _).mp hk
        simp only [List.map_cons, List.mem_cons] at this
        rcases this with h | h
        · exact h
        · exact absurd ((containsKey_iff_keys _ _).mpr h) hcb
      subst hk0
      rw [lookup_spread2_absent b k _ (Bool.eq_false_iff.mpr hcb)]
      simp [lookup_setKey_self, List.lookup_cons]

/-- The tab loop preserves key uniqueness of the accumulated properties. -/
theorem goTabs_nodupKeys (mode : Mode) (fn : String) (allTabs : List Tab) (ts : List Tab) :
    ∀ (props : List (String × Json)), (props.map Prod.fst).Nodup →
      ∀ props2, goTabs mode fn allTabs props ts = some props2 →
        (props2.map Prod.fst).Nodup := by
  induction ts with
  | nil =>
    intro props hnd props2 h
    simp only [goTabs, Option.some.injEq] at h
    subst h
    exact hnd
  | cons t ts ih =>
    intro props hnd props2 h
    obtain ⟨iname, tfs⟩ := t
    cases iname with
    | some i =>
      by_cases hi : i = ""
      · subst hi
        simp only [goTabs, if_pos rfl] at h
        cases hg : generateObject mode (allTabs.flatMap Tab.fields) with
        | none => rw [hg] at h; simp at h
        | some j =>
          rw [hg] at h
          exact ih _ (nodupKeys_setKey _ _ _ hnd) props2 h
      · simp only [goTabs, if_neg hi] at h
        cases hg : generateObject mode tfs with
        | none => rw [hg] at h; simp at h
        | some j =>
          rw [hg] at h
          exact ih _ (nodupKeys_setKey _ _ _ hnd) props2 h
    | none =>
      simp only [goTabs] at h
      cases hg : generateObject mode (allTabs.flatMap Tab.fields) with
      | none => rw [hg] at h; simp at h
      | some j =>
        rw [hg] at h
        exact ih _ (nodupKeys_setKey _ _ _ hnd) props2 h

/-- The tab loop preserves accumulated property keys. -/
theorem goTabs_keys_mono (mode : Mode) (fn : String) (allTabs : List Tab) (ts : List Tab) :
    ∀ (props : List (String × Json)) (k : String), containsKey props k = true →
      ∀ props2, goTabs mode fn allTabs props ts = some props2 →
        containsKey props2 k = true := by
  induction ts with
  | nil =>
    intro props k hk props2 h
    simp only [goTabs, Option.some.injEq] at h
    subst h
    exact hk
  | cons t ts ih =>
    intro props k hk props2 h
    obtain ⟨iname, tfs⟩ := t
    cases iname with
    | some i =>
      by_cases hi : i = ""
      · subst hi
        simp only [goTabs, if_pos rfl] at h
        cases hg : generateObject mode (allTabs.flatMap Tab.fields) with
        | none => rw [hg] at h; simp at h
        | some j =>
          rw [hg] at h
          exact ih _ k ((containsKey_setKey _ _ _ _).mpr (Or.inr hk)) props2 h
      · simp only [goTabs, if_neg hi] at h
        cases hg : generateObject mode tfs with
        | none => rw [hg] at h; simp at h
        | some j =>
          rw [hg] at h
          exact ih _ k ((containsKey_setKey _ _ _ _).mpr (Or.inr hk)) props2 h
    | none =>
      simp only [goTabs] at h
      cases hg : generateObject mode (allTabs.flatMap Tab.fields) with
      | none => rw [hg] at h; simp at h
      | some j =>
        rw [hg] at h
        exact ih _ k ((containsKey_setKey _ _ _ _).mpr (Or.inr hk)) props2 h

/-- Every tab with a truthy `interfaceName` contributes that key. -/
theorem goTabs_adds_iname (mode : Mode) (fn : String) (allTabs : List Tab) (ts : List Tab) :
    ∀ props props2, goTabs mode fn allTabs props ts = some props2 →
      ∀ t ∈ ts, ∀ i, t.interfaceName = some i → i ≠ "" → containsKey props2 i = true := by
  induction ts with
  | nil =>
    intro _ _ _ t ht
    simp at ht
  | cons t0 ts ih =>
    intro props props2 h t ht i hti hi
    obtain ⟨iname0, tfs0⟩ := t0
    rcases List.mem_cons.mp ht with rfl | ht'
    · simp only [Tab.interfaceName] at hti
      subst hti
      simp only [goTabs, if_neg hi] at h
      cases hg : generateObject mode tfs0 with
      | none => rw [hg] at h; simp at h
      | some j =>
        rw [hg] at h
        exact goTabs_keys_mono mode fn allTabs ts _ i
          ((containsKey_setKey _ _ _ _).mpr (Or.inl rfl)) props2 h
    · cases iname0 with
      | some i0 =>
        by_cases hi0 : i0 = ""
        · subst hi0
          simp only [goTabs, if_pos rfl] at h
          cases hg : generateObject mode (allTabs.flatMap Tab.fields) with
          | none => rw [hg] at h; simp at h
          | some j =>
            rw [hg] at h
            exact ih _ props2 h t ht' i hti hi
        · simp only [goTabs, if_neg hi0] at h
          cases hg : generateObject mode tfs0 with
          | none => rw [hg] at h; simp at h
          | some j =>
            rw [hg] at h
            exact ih _ props2 h t ht' i hti hi
      | none =>
        simp only [goTabs] at h
        cases hg : generateObject mode (allTabs.flatMap Tab.fields) with
        | none => rw [hg] at h; simp at h
        | some j =>
          rw [hg] at h
          exact ih _ props2 h t ht' i hti hi

/-- When every remaining tab has a truthy `interfaceName` different from
`fn`, the loop does not touch the `fn` key. -/
theorem goTabs_preserves_fn (mode : Mode) (fn : String) (allTabs : List Tab) (ts : List Tab) :
    ∀ props props2, goTabs mode fn allTabs props ts = some props2 →
      (∀ t ∈ ts, ∃ i, t.interfaceName = some i ∧ i ≠ "" ∧ i ≠ fn) →
      List.lookup fn props2 = List.lookup fn props := by
  induction ts with
  | nil =>
    intro props props2 h _
    simp only [goTabs, Option.some.injEq] at h
    subst h
    rfl
  | cons t0 ts ih =>
    intro props props2 h hall
    obtain ⟨iname0, tfs0⟩ := t0
    obtain ⟨i0, hi0eq, hi0ne, hi0fn⟩ := hall _ (List.mem_cons_self _ _)
    simp only [Tab.interfaceName] at hi0eq
    subst hi0eq
    simp only [goTabs, if_neg hi0ne] at h
    cases hg : generateObject mode tfs0 with
    | none => rw [hg] at h; simp at h
    | some j =>
      rw [hg] at h
      rw [ih _ props2 h (fun t ht => hall t (List.mem_cons_of_mem _ ht))]
      exact lookup_setKey_ne props i0 fn j (Ne.symm hi0fn)

/-- When some remaining tab has no truthy `interfaceName` — and no truthy
`interfaceName` collides with `fn` — the `fn` key of the loop's result is
exactly the compilation of the concatenation of ALL tabs' fields. -/
theorem goTabs_flat_value (mode : Mode) (fn : String) (allTabs : List Tab) (ts : List Tab) :
    ∀ props props2, goTabs mode fn allTabs props ts = some props2 →
      (∃ t ∈ ts, t.interfaceName = none ∨ t.interfaceName = some "") →
      (∀ t ∈ ts, ∀ i, t.interfaceName = some i → i ≠ "" → i ≠ fn) →
      List.lookup fn props2 = generateObject mode (allTabs.flatMap Tab.fields) := by
  induction ts with
  | nil =>
    intro _ _ _ hex _
    simp at hex
  | cons t0 ts ih =>
    intro props props2 h hex hall
    obtain ⟨iname0, tfs0⟩ := t0
    by_cases huntruthy : iname0 = none ∨ iname0 = some ""
    · -- head writes the flat object under fn
      have hstep : ∃ j, generateObject mode (allTabs.flatMap Tab.fields) = some j ∧
          goTabs mode fn allTabs (setKey props fn j) ts = some props2 := by
        rcases huntruthy with h0 | h0 <;> subst h0
        · simp only [goTabs] at h
          cases hg : generateObject mode (allTabs.flatMap Tab.fields) with
          | none => rw [hg] at h; simp at h
          | some j => rw [hg] at h; exact ⟨j, rfl, h⟩
        · simp only [goTabs, if_pos rfl] at h
          cases hg : generateObject mode (allTabs.flatMap Tab.fields) with
          | none => rw [hg] at h; simp at h
          | some j => rw [hg] at h; exact ⟨j, rfl, h⟩
      obtain ⟨j, hj, hrest⟩ := hstep
      by_cases hex2 : ∃ t ∈ ts, t.interfaceName = none ∨ t.interfaceName = some ""
      · exact (ih _ props2 hrest hex2
          (fun t ht => hall t (List.mem_cons_of_mem _ ht)))
      · push_neg at hex2
        have hall2 : ∀ t ∈ ts, ∃ i, t.interfaceName = some i ∧ i ≠ "" ∧ i ≠ fn := by
          intro t ht
          obtain ⟨hn1, hn2⟩ := hex2 t ht
          cases hit : t.interfaceName with
          | none => exact absurd hit hn1
          | some i =>
            have hine : i ≠ "" := by
              intro hie
              exact hn2 (by rw [hit, hie])
            exact ⟨i, rfl, hine, hall t (List.mem_cons_of_mem _ ht) i hit hine⟩
        rw [goTabs_preserves_fn mode fn allTabs ts _ props2 hrest hall2]
        rw [lookup_setKey_self, hj]
    · -- head is truthy: it cannot write fn
      push_neg at huntruthy
      cases hit : iname0 with
      | none => exact absurd hit huntruthy.1
      | some i0 =>
        subst hit
        have hi0 : i0 ≠ "" := by
          intro hie
          subst hie
          exact absurd rfl huntruthy.2
        simp only [goTabs, if_neg hi0] at h
        cases hg : generateObject mode tfs0 with
        | none => rw [hg] at h; simp at h
        | some j =>
          rw [hg] at h
          have hex' : ∃ t ∈ ts, t.interfaceName = none ∨ t.interfaceName = some "" := by
            rcases hex with ⟨t, ht, hor⟩
            rcases List.mem_cons.mp ht with rfl | ht'
            · simp only [Tab.interfaceName] at hor
              rcases hor with h0 | h0
              · exact absurd h0 (by simp)
              · exact absurd h0 (by simp [hi0])
            · exact ⟨t, ht', hor⟩
          exact ih _ props2 h hex' (fun t ht => hall t (List.mem_cons_of_mem _ ht))

theorem containsKey_of_lookup_some (m : List (String × Json)) (k : String) (v : Json)
    (h : List.lookup k m = some v) : containsKey m k = true := by
  induction m with
  | nil => simp [List.lookup] at h
  | cons kv m ih =>
    obtain ⟨k0, v0⟩ := kv
    by_cases hk : k = k0
    · subst hk
      simp [containsKey]
    · simp only [List.lookup_cons, beq_false_of_ne hk] at h
      have := ih h
      simp [containsKey] at this ⊢
      exact Or.inr this

/-! ### Claim C1 (tabs compilation) -/

/-- C1 (amended): when the reducer meets a `tabs` field, (a) the parent's
required set is just the deduplicated accumulated sibling set — tabs
contribute nothing to it; (b) every tab with a truthy `interfaceName`
becomes one nested property keyed by that name; (c) a tab without a
truthy `interfaceName` does NOT have its sub-fields merged into the
parent: instead the compilation of the concatenation of ALL tabs' fields
(including those with `interfaceName`) becomes one nested property keyed
by the tabs field's own name (`undefined` for a type-correct unnamed tabs
field); (d) sibling properties are preserved. -/
theorem claim_C1_tabs_compilation (mode : Mode) (acc : Json) (n : String)
    (r hd v : Bool) (ts : List Tab) :
    ∀ j, stepField mode acc (Field.mk n r hd v (.tabs ts)) = some j →
      reqOf j = dedupKeepFirst (reqOf acc ++ []) ∧
      (∀ t ∈ ts, ∀ i, t.interfaceName = some i → i ≠ "" →
        containsKey (propsOf j) i = true) ∧
      ((∃ t ∈ ts, t.interfaceName = none ∨ t.interfaceName = some "") →
        (∀ t ∈ ts, ∀ i, t.interfaceName = some i → i ≠ "" → i ≠ n) →
        List.lookup n (propsOf j) = generateObject mode (ts.flatMap Tab.fields)) ∧
      (∀ k, containsKey (propsOf acc) k = true → containsKey (propsOf j) k = true) := by
  intro j hj
  simp only [stepField, stepTabs] at hj
  cases hg : goTabs mode n ts [] ts with
  | none => rw [hg] at hj; simp at hj
  | some resultProps =>
    rw [hg] at hj
    simp only [Option.some.injEq] at hj
    subst hj
    have hnd : (resultProps.map Prod.fst).Nodup :=
      goTabs_nodupKeys mode n ts ts [] (by simp) resultProps hg
    refine ⟨?_, ?_, ?_, ?_⟩
    · simp only [reqOf, Json.getKey]
      split
      · next hcond => simp [List.lookup, getStrArr_arr_map]
      · next hcond => simp [jsTruthy] at hcond
    · intro t ht i hti hi
      simp only [propsOf, Json.getJ, Json.getKey]
      split
      · simp [List.lookup, Json.getObj]
        exact (containsKey_spread2 _ _ _).mpr
          (Or.inr (goTabs_adds_iname mode n ts ts [] resultProps hg t ht i hti hi))
      · next hcond => simp [jsTruthy] at hcond
    · intro hex hall
      have hflat := goTabs_flat_value mode n ts ts [] resultProps hg hex hall
      obtain ⟨fj, hfj⟩ := isSome_match_some (generateObject_isSome mode (ts.flatMap Tab.fields))
      rw [hfj] at hflat
      have hc : containsKey resultProps n = true :=
        containsKey_of_lookup_some resultProps n fj hflat
      simp only [propsOf, Json.getJ, Json.getKey]
      split
      · simp only [List.lookup_cons, List.cons_append, List.append_assoc]
        simp [List.lookup, Json.getObj]
        rw [lookup_spread2_right resultProps n _ hnd hc, hflat, hfj]
      · next hcond => simp [jsTruthy] at hcond
    · intro k hk
      simp only [propsOf, Json.getJ, Json.getKey]
      split
      · simp [List.lookup, Json.getObj]
        exact (containsKey_spread2 _ _ _).mpr (Or.inl hk)
      · next hcond => simp [jsTruthy] at hcond

/-- The concrete tabs field used for the C1 witness. -/
def c1Tabs : List Tab := [Tab.mk none [Field.mk "a" true false false .text]]

/-- The compiled object of the C1 witness input. -/
def c1J : Json :=
  Json.obj [("type", Json.str "object"), ("required", Json.arr []),
    ("properties", Json.obj [("undefined", Json.obj [("type", Json.str "object"),
      ("required", Json.arr [Json.str "a"]),
      ("properties", Json.obj [("a", Json.obj [("type", Json.str "string")])])])])]

/-- Witness for C1: a single tab without `interfaceName` holding a
required text field `a`, on an unnamed (hence `undefined`-named) tabs
field with an empty accumulator. -/
theorem claim_C1_witness :
    stepField .get (Json.obj []) (Field.mk "undefined" false false false (.tabs c1Tabs)) =
      some c1J ∧
    (reqOf c1J = dedupKeepFirst (reqOf (Json.obj []) ++ []) ∧
      (∀ t ∈ c1Tabs, ∀ i, t.interfaceName = some i → i ≠ "" →
        containsKey (propsOf c1J) i = true) ∧
      ((∃ t ∈ c1Tabs, t.interfaceName = none ∨ t.interfaceName = some "") →
        (∀ t ∈ c1Tabs, ∀ i, t.interfaceName = some i → i ≠ "" → i ≠ "undefined") →
        List.lookup "undefined" (propsOf c1J) =
          generateObject .get (c1Tabs.flatMap Tab.fields)) ∧
      (∀ k, containsKey (propsOf (Json.obj [])) k = true →
        containsKey (propsOf c1J) k = true)) :=
  have hstep : stepField .get (Json.obj []) (Field.mk "undefined" false false false
      (.tabs c1Tabs)) = some c1J := by
    simp [c1Tabs, c1J, generateObject, goFields, stepField, stepTabs, stepDefault, goTabs, goBlocks,
    generateField, Json.getKey, Json.getJ, Json.getObj, Json.getArr, setKey, spread2,
    dedupKeepFirst, jsTruthy, Field.hidden, Field.name, Field.required, Field.virtual,
    Field.type, FieldKind.isJoin, Json.getStrArr, Tab.fields, List.lookup, containsKey,
    propsOf, reqOf, composeRef, componentName, capitalized, noOpts, ComponentType.toStr,
    RelTarget.isArray, generateOptions]
  ⟨hstep, claim_C1_tabs_compilation .get (Json.obj []) "undefined" false false false
    c1Tabs c1J hstep⟩

/-- C1 counterexample: with one tab lacking `interfaceName` that holds a
required text field `a`, the claim says `a` is flattened into the parent's
properties and required set; the code instead nests it under the tabs
field's name, so the parent's properties and required set do not contain
`a`. -/
theorem claim_C1_counterexample :
    (generateObject .get [Field.mk "undefined" false false false
        (.tabs [Tab.mk none [Field.mk "a" true false false .text]])]).map
      (fun j => (containsKey (propsOf j) "a", (reqOf j).contains "a")) =
    some (false, false) := by
  simp [generateObject, goFields, stepField, stepTabs, stepDefault, goTabs, goBlocks,
    generateField, Json.getKey, Json.getJ, Json.getObj, Json.getArr, setKey, spread2,
    dedupKeepFirst, jsTruthy, Field.hidden, Field.name, Field.required, Field.virtual,
    Field.type, FieldKind.isJoin, Json.getStrArr, Tab.fields, List.lookup, containsKey,
    propsOf, reqOf, composeRef, componentName, capitalized, noOpts, ComponentType.toStr,
    RelTarget.isArray, generateOptions]

/-! ### Document access lemmas -/

theorem getJ_set_self (j : Json) (k : String) (v : Json) : (j.set k v).getJ k = v := by
  simp [Json.set, Json.getJ, Json.getKey, lookup_setKey_self]

theorem getJ_set_ne (j : Json) (k k' : String) (v : Json) (h : k' ≠ k) :
    (j.set k v).getJ k' = j.getJ k' := by
  cases j <;> simp [Json.set, Json.getJ, Json.getKey, Json.getObj, lookup_setKey_ne _ _ _ _ h]
  all_goals
    cases hl : List.lookup k' (setKey [] k v) with
    | none => simp
    | some x =>
      rw [lookup_setKey_ne _ _ _ _ h] at hl
      simp [List.lookup] at hl

theorem getJ_setComponent_components (doc : Json) (sec k : String) (v : Json) :
    (setComponent doc sec k v).getJ "components" =
      (doc.getJ "components").set sec (((doc.getJ "components").getJ sec).set k v) := by
  simp [setComponent, getJ_set_self]

theorem getJ_setComponent_paths (doc : Json) (sec k : String) (v : Json) :
    (setComponent doc sec k v).getJ "paths" = doc.getJ "paths" := by
  simp [setComponent, getJ_set_ne _ _ _ _ (by decide : "paths" ≠ "components")]

theorem getJ_setPath_paths (doc : Json) (k : String) (v : Json) :
    (setPath doc k v).getJ "paths" = (doc.getJ "paths").set k v := by
  simp [setPath, getJ_set_self]

theorem getJ_setPath_components (doc : Json) (k : String) (v : Json) :
    (setPath doc k v).getJ "components" = doc.getJ "components" := by
  simp [setPath, getJ_set_ne _ _ _ _ (by decide : "components" ≠ "paths")]

theorem getJ_pushTag (doc : Json) (slug : String) (k : String) (h : k ≠ "tags") :
    (pushTag doc slug).getJ k = doc.getJ k := by
  simp [pushTag, getJ_set_ne _ _ _ _ h]

theorem length_capitalized (s : String) : (capitalized s).length = s.length := by
  cases s with
  | mk data =>
    cases data with
    | nil => rfl
    | cons c cs => simp [capitalized, String.length]

/-! ### Claim C6 (custom endpoint path for globals) -/

/-- C6: at the failing input — a global `settings` with a custom endpoint
`{path: "/ping", method: "GET"}` — the generated document records the
operation under `/api/settings/ping` and has no key
`/api/globals/settings/ping`: the loop reads the path item at
`base + slug + path` but writes it to the hardcoded `/api/` prefix
(src/index.ts:176 vs 191), so the claimed `/api/globals/` base is never
used for the write. -/
theorem claim_C6_failing_input_eval :
    (openapiDoc ⟨none, none⟩
        ⟨some [⟨"settings", [], some [⟨"/ping", "GET", []⟩]⟩], none⟩).map
      (fun d => (containsKey (d.getJ "paths").getObj "/api/settings/ping",
                 containsKey (d.getJ "paths").getObj "/api/globals/settings/ping")) =
    some (true, false) := by
  simp [openapiDoc, processGlobals, processCollections, initialDocument, pushTag,
    generateGlobalOperators, generateCollectionOperators, generateUploadCollectionOperators,
    generateCustomEndpointOperators, goEndpoints, setComponent, setPath, Json.set,
    defaultCollectionSchemas, baseQueryParams, filterQueryParams, String.toLower,
    Char.toLower, generateObject, goFields, stepField, stepTabs, stepDefault, goTabs,
    goBlocks, generateField, Json.getKey, Json.getJ, Json.getObj, Json.getArr, setKey,
    spread2, dedupKeepFirst, jsTruthy, Field.hidden, Field.name, Field.required,
    Field.virtual, Field.type, FieldKind.isJoin, Json.getStrArr, Tab.fields, List.lookup,
    containsKey, propsOf, reqOf, composeRef, componentName, capitalized, noOpts,
    ComponentType.toStr, RelTarget.isArray, generateOptions]

theorem string_ne_append (s t : String) (ht : 0 < t.length) : s ≠ s ++ t := by
  intro he
  have hl := congrArg String.length he
  rw [String.length_append] at hl
  omega

theorem getSec_setComponent_self (doc : Json) (sec k : String) (v : Json) :
    ((setComponent doc sec k v).getJ "components").getJ sec =
      ((doc.getJ "components").getJ sec).set k v := by
  rw [getJ_setComponent_components, getJ_set_self]

theorem getSec_setComponent_ne (doc : Json) (sec sec' k : String) (v : Json)
    (h : sec' ≠ sec) :
    ((setComponent doc sec k v).getJ "components").getJ sec' =
      (doc.getJ "components").getJ sec' := by
  rw [getJ_setComponent_components, getJ_set_ne _ _ _ _ h]

theorem componentName_new_ne_list (s : String) :
    componentName s ⟨some "new", none⟩ ≠ componentName s ⟨none, some "list"⟩ := by
  intro he
  have hl := congrArg String.length he
  simp [componentName, String.length_append, length_capitalized] at hl
  have h1 : "new".length = 3 := by decide
  have h2 : "list".length = 4 := by decide
  omega

theorem componentName_new_ne_plain (s : String) :
    componentName s noOpts ≠ componentName s ⟨some "new", none⟩ := by
  intro he
  have hl := congrArg String.length he
  simp [componentName, noOpts, String.length_append, length_capitalized] at hl
  have h1 : "new".length = 3 := by decide
  omega

theorem componentName_upload_ne_plain (s : String) :
    componentName s noOpts ≠ componentName s ⟨some "upload", none⟩ := by
  intro he
  have hl := congrArg String.length he
  simp [componentName, noOpts, String.length_append, length_capitalized] at hl
  have h1 : "upload".length = 6 := by decide
  omega

/-! ### Claim C7 (collection create operation) -/

/-- C7 (amended): for every non-upload collection, the POST operation at
`/api/<slug>` has `operationId create<Slug>` and references the
`new<Slug>` request body, but its 200 response references the plain
`<slug>` response component, not the create-confirmation component;
the create-confirmation response `new<Slug>` is still emitted, with
schema `allOf [<slug>, createResponse]`, it is just not referenced by the
create operation. -/
theorem claim_C7_create_operation (doc : Json) (c : CollectionConfig) :
    ∀ d, generateCollectionOperators doc c = some d →
      ((((d.getJ "paths").getJ ("/api/" ++ c.slug)).getJ "post").getJ "operationId" =
        Json.str (componentName c.slug ⟨some "create", none⟩)) ∧
      ((((d.getJ "paths").getJ ("/api/" ++ c.slug)).getJ "post").getJ "requestBody" =
        composeRef .get .requestBodies c.slug ⟨some "new", none⟩) ∧
      (((((d.getJ "paths").getJ ("/api/" ++ c.slug)).getJ "post").getJ "responses").getJ "200" =
        composeRef .get .responses c.slug noOpts) ∧
      (((d.getJ "components").getJ "responses").getJ (componentName c.slug ⟨some "new", none⟩) =
        Json.obj [("description", Json.str "successful operation"),
          ("content", Json.obj [("application/json", Json.obj [("schema",
            Json.obj [("allOf", Json.arr [composeRef .get .schemas c.slug noOpts,
              composeRef .get .schemas "createResponse" noOpts])])])])]) := by
  intro d hd
  obtain ⟨newObject, hnew⟩ := isSome_match_some (generateObject_isSome .new c.fields)
  obtain ⟨object, hget⟩ := isSome_match_some (generateObject_isSome .get c.fields)
  simp only [generateCollectionOperators, hnew, hget, Option.some.injEq] at hd
  subst hd
  have hne_id : ("/api/" ++ c.slug) ≠ ("/api/" ++ c.slug ++ "/{id}") :=
    string_ne_append _ "/{id}" (by decide)
  have hne_count : ("/api/" ++ c.slug) ≠ ("/api/" ++ c.slug ++ "/count") :=
    string_ne_append _ "/count" (by decide)
  refine ⟨?_, ?_, ?_, ?_⟩
  · rw [getJ_setPath_paths, getJ_setPath_paths, getJ_setPath_paths,
      getJ_set_ne _ _ _ _ hne_count, getJ_set_ne _ _ _ _ hne_id, getJ_set_self]
    simp [Json.getJ, Json.getKey, List.lookup]
  · rw [getJ_setPath_paths, getJ_setPath_paths, getJ_setPath_paths,
      getJ_set_ne _ _ _ _ hne_count, getJ_set_ne _ _ _ _ hne_id, getJ_set_self]
    simp [Json.getJ, Json.getKey, List.lookup]
  · rw [getJ_setPath_paths, getJ_setPath_paths, getJ_setPath_paths,
      getJ_set_ne _ _ _ _ hne_count, getJ_set_ne _ _ _ _ hne_id, getJ_set_self]
    simp [Json.getJ, Json.getKey, List.lookup]
  · rw [getJ_setPath_components, getJ_setPath_components, getJ_setPath_components,
      getSec_setComponent_self,
      getSec_setComponent_self,
      getSec_setComponent_self,
      getSec_setComponent_ne _ _ _ _ _ (by decide : "responses" ≠ "requestBodies"),
      getSec_setComponent_ne _ _ _ _ _ (by decide : "responses" ≠ "requestBodies"),
      getSec_setComponent_ne _ _ _ _ _ (by decide : "responses" ≠ "schemas"),
      getSec_setComponent_ne _ _ _ _ _ (by decide : "responses" ≠ "schemas"),
      getJ_set_ne _ _ _ _ (componentName_new_ne_list c.slug),
      getJ_set_self]

/-- C7 counterexample: for the collection `posts`, the POST operation's 200
response is `#/components/responses/posts`, not the create-confirmation
component `#/components/responses/newPosts` named by the claim. -/
theorem claim_C7_counterexample :
    (openapiDoc ⟨none, none⟩ ⟨none, some [⟨"posts", [], false, none⟩]⟩).map
      (fun d => ((((d.getJ "paths").getJ "/api/posts").getJ "post").getJ "requestBody",
                 ((((d.getJ "paths").getJ "/api/posts").getJ "post").getJ "responses").getJ "200")) =
    some (Json.obj [("$ref", Json.str "#/components/requestBodies/newPosts")],
          Json.obj [("$ref", Json.str "#/components/responses/posts")]) ∧
    Json.obj [("$ref", Json.str "#/components/responses/posts")] ≠
      Json.obj [("$ref", Json.str "#/components/responses/newPosts")] := by
  constructor
  · simp [openapiDoc, processGlobals, processCollections, initialDocument, pushTag,
    generateGlobalOperators, generateCollectionOperators, generateUploadCollectionOperators,
    generateCustomEndpointOperators, goEndpoints, setComponent, setPath, Json.set,
    defaultCollectionSchemas, baseQueryParams, filterQueryParams, String.toLower,
    Char.toLower, generateObject, goFields, stepField, stepTabs, stepDefault, goTabs,
    goBlocks, generateField, Json.getKey, Json.getJ, Json.getObj, Json.getArr, setKey,
    spread2, dedupKeepFirst, jsTruthy, Field.hidden, Field.name, Field.required,
    Field.virtual, Field.type, FieldKind.isJoin, Json.getStrArr, Tab.fields, List.lookup,
    containsKey, propsOf, reqOf, composeRef, componentName, capitalized, noOpts,
    ComponentType.toStr, RelTarget.isArray, generateOptions]
  · simp

/-- Witness for C7 at the collection `posts`. -/
theorem claim_C7_witness :
    (((((generateCollectionOperators (initialDocument ⟨none, none⟩)
          ⟨"posts", [], false, none⟩).getD (Json.obj [])).getJ "paths").getJ
        ("/api/" ++ "posts")).getJ "post").getJ "requestBody" =
      composeRef .get .requestBodies "posts" ⟨some "new", none⟩ := by
  obtain ⟨d, hd⟩ := isSome_match_some (generateCollectionOperators_isSome
    (initialDocument ⟨none, none⟩) ⟨"posts", [], false, none⟩)
  rw [hd]
  simp only [Option.getD_some]
  exact (claim_C7_create_operation _ _ d hd).2.1

/-! ### Claim C8 (upload request body) -/

/-- C8 (amended): for every upload collection, the `upload<Slug>` request
body is a `multipart/form-data` schema whose `_payload` wrapper carries
the READ-mode (`get`-mode) compiled field object — the generator never
compiles the fields in `new` mode — alongside a binary `file` part. -/
theorem claim_C8_upload_body (doc : Json) (c : CollectionConfig) :
    ∀ d, generateUploadCollectionOperators doc c = some d →
      ∃ object, generateObject .get c.fields = some object ∧
        ((d.getJ "components").getJ "requestBodies").getJ
            (componentName c.slug ⟨some "upload", none⟩) =
          Json.obj [("description", Json.str "successful operation"),
            ("content", Json.obj [("multipart/form-data", Json.obj [("schema",
              Json.obj [("type", Json.str "object"),
                ("properties", Json.obj [("_payload", object),
                  ("file", Json.obj [("type", Json.str "string"),
                    ("format", Json.str "binary")])])])])])] := by
  intro d hd
  obtain ⟨object, hget⟩ := isSome_match_some (generateObject_isSome .get c.fields)
  refine ⟨object, hget, ?_⟩
  simp only [generateUploadCollectionOperators, hget, Option.some.injEq] at hd
  subst hd
  rw [getJ_setPath_components, getJ_setPath_components, getJ_setPath_components,
    getSec_setComponent_ne _ _ _ _ _ (by decide : "requestBodies" ≠ "responses"),
    getSec_setComponent_ne _ _ _ _ _ (by decide : "requestBodies" ≠ "responses"),
    getSec_setComponent_self,
    getJ_set_self]

/-- Witness for C8 at the upload collection `media` with no fields. -/
theorem claim_C8_witness :
    ((((generateUploadCollectionOperators (initialDocument ⟨none, none⟩)
          ⟨"media", [], true, none⟩).getD (Json.obj [])).getJ "components").getJ
        "requestBodies").getJ (componentName "media" ⟨some "upload", none⟩) =
      Json.obj [("description", Json.str "successful operation"),
        ("content", Json.obj [("multipart/form-data", Json.obj [("schema",
          Json.obj [("type", Json.str "object"),
            ("properties", Json.obj [("_payload", Json.obj []),
              ("file", Json.obj [("type", Json.str "string"),
                ("format", Json.str "binary")])])])])])] := by
  obtain ⟨d, hd⟩ := isSome_match_some (generateUploadCollectionOperators_isSome
    (initialDocument ⟨none, none⟩) ⟨"media", [], true, none⟩)
  rw [hd]
  simp only [Option.getD_some]
  obtain ⟨object, hget, hval⟩ := claim_C8_upload_body _ _ d hd
  simp only [generateObject, goFields, Option.some.injEq] at hget
  rw [← hget] at hval
  exact hval

/-- C8 counterexample: for an upload collection with a relationship field,
the `_payload` object is the `get`-mode compilation (a schema reference),
which differs from the `new`-mode compilation (an identifier string), so
the claim that the wrapper carries the write-mode object is false. -/
theorem claim_C8_counterexample :
    (openapiDoc ⟨none, none⟩ ⟨none, some [⟨"media",
        [Field.mk "author" false false false (.relationship (.single "users") false)],
        true, none⟩]⟩).map
      (fun d => (((((((d.getJ "components").getJ "requestBodies").getJ
        "uploadMedia").getJ "content").getJ "multipart/form-data").getJ "schema").getJ
          "properties").getJ "_payload") =
      some (Json.obj [("type", Json.str "object"),
        ("properties", Json.obj [("author",
          Json.obj [("$ref", Json.str "#/components/schemas/users")])])]) ∧
    generateObject .new [Field.mk "author" false false false
        (.relationship (.single "users") false)] =
      some (Json.obj [("type", Json.str "object"),
        ("properties", Json.obj [("author", Json.obj [("type", Json.str "string")])])]) ∧
    Json.obj [("type", Json.str "object"),
        ("properties", Json.obj [("author",
          Json.obj [("$ref", Json.str "#/components/schemas/users")])])] ≠
      Json.obj [("type", Json.str "object"),
        ("properties", Json.obj [("author", Json.obj [("type", Json.str "string")])])] := by
  refine ⟨?_, ?_, ?_⟩
  · simp [openapiDoc, processGlobals, processCollections, initialDocument, pushTag,
    generateGlobalOperators, generateCollectionOperators, generateUploadCollectionOperators,
    generateCustomEndpointOperators, goEndpoints, setComponent, setPath, Json.set,
    defaultCollectionSchemas, baseQueryParams, filterQueryParams, String.toLower,
    Char.toLower, generateObject, goFields, stepField, stepTabs, stepDefault, goTabs,
    goBlocks, generateField, Json.getKey, Json.getJ, Json.getObj, Json.getArr, setKey,
    spread2, dedupKeepFirst, jsTruthy, Field.hidden, Field.name, Field.required,
    Field.virtual, Field.type, FieldKind.isJoin, Json.getStrArr, Tab.fields, List.lookup,
    containsKey, propsOf, reqOf, composeRef, componentName, capitalized, noOpts,
    ComponentType.toStr, RelTarget.isArray, generateOptions]
  · simp [openapiDoc, processGlobals, processCollections, initialDocument, pushTag,
    generateGlobalOperators, generateCollectionOperators, generateUploadCollectionOperators,
    generateCustomEndpointOperators, goEndpoints, setComponent, setPath, Json.set,
    defaultCollectionSchemas, baseQueryParams, filterQueryParams, String.toLower,
    Char.toLower, generateObject, goFields, stepField, stepTabs, stepDefault, goTabs,
    goBlocks, generateField, Json.getKey, Json.getJ, Json.getObj, Json.getArr, setKey,
    spread2, dedupKeepFirst, jsTruthy, Field.hidden, Field.name, Field.required,
    Field.virtual, Field.type, FieldKind.isJoin, Json.getStrArr, Tab.fields, List.lookup,
    containsKey, propsOf, reqOf, composeRef, componentName, capitalized, noOpts,
    ComponentType.toStr, RelTarget.isArray, generateOptions]
  · simp

/-! ### Claim C2: reference pointers and integrity -/

/-- The singleton pointer list of a string value, else empty. -/
def Json.refStr : Json → List String
  | .str s => [s]
  | _ => []

/-- The pointer contributed by one object entry: a `$ref` key whose value
is a string. -/
def refEntry (k : String) (v : Json) : List String :=
  if k = "$ref" then v.refStr else []

mutual
/-- All `$ref` pointer strings occurring in a JSON value. -/
def refsOf : Json → List String
  | .str _ => []
  | .num _ => []
  | .bool _ => []
  | .arr js => refsOfList js
  | .obj kvs => refsOfKvs kvs

/-- `refsOf` over a list of values. -/
def refsOfList : List Json → List String
  | [] => []
  | j :: js => refsOf j ++ refsOfList js

/-- `refsOf` over the entries of an object: a `$ref` key with a string
value is a pointer. -/
def refsOfKvs : List (String × Json) → List String
  | [] => []
  | (k, v) :: kvs => refEntry k v ++ refsOf v ++ refsOfKvs kvs
end

/-- The pointer string `#/components/<type>/<name>`. -/
def refString (type : ComponentType) (name : String) : String :=
  "#/components/" ++ type.toStr ++ "/" ++ name

/-- The key/value list of one components section of a document. -/
def componentMap (doc : Json) (t : ComponentType) : List (String × Json) :=
  ((doc.getJ "components").getJ t.toStr).getObj

/-- The pointers of a document's `paths` and `components` (the locations
the claim enumerates; the `info` override is copied user data). -/
def docRefs (doc : Json) : List String :=
  refsOf (doc.getJ "paths") ++ refsOf (doc.getJ "components")

/-- Reference integrity: every pointer of the document resolves to an
existing key of the corresponding components section. -/
def refIntegrity (doc : Json) : Prop :=
  ∀ r ∈ docRefs doc, ∃ t n, r = refString t n ∧
    containsKey (componentMap doc t) n = true

/-- The slugs of a relationship/join target. -/
def RelTarget.rtSlugs : RelTarget → List String
  | .single s => [s]
  | .poly l => l

mutual
/-- The relationship/join target slugs of a field. -/
def relTargetsField : Field → List String
  | .mk _ _ _ _ k => relTargetsKind k

/-- The relationship/join target slugs of a field kind. -/
def relTargetsKind : FieldKind → List String
  | .relationship rt _ => rt.rtSlugs
  | .join rt _ => rt.rtSlugs
  | .array fs => relTargetsFields fs
  | .group fs => relTargetsFields fs
  | .row fs => relTargetsFields fs
  | .blocks bs => relTargetsBlocks bs
  | .tabs ts => relTargetsTabs ts
  | _ => []

/-- `relTargetsField` over a field list. -/
def relTargetsFields : List Field → List String
  | [] => []
  | f :: fs => relTargetsField f ++ relTargetsFields fs

/-- `relTargetsFields` over the tabs of a `tabs` field. -/
def relTargetsTabs : List Tab → List String
  | [] => []
  | .mk _ fs :: ts => relTargetsFields fs ++ relTargetsTabs ts

/-- `relTargetsFields` over the blocks of a `blocks` field. -/
def relTargetsBlocks : List Block → List String
  | [] => []
  | .mk fs :: bs => relTargetsFields fs ++ relTargetsBlocks bs
end

/-- The declared collection slugs of a configuration. -/
def collectionSlugs (config : Config) : List String :=
  (config.collections.getD []).map CollectionConfig.slug

/-- All relationship/join target slugs of a configuration. -/
def configRelTargets (config : Config) : List String :=
  (config.globals.getD []).flatMap (fun g => relTargetsFields g.fields) ++
    (config.collections.getD []).flatMap (fun c => relTargetsFields c.fields)

theorem refsOf_composeRef_get (ty : ComponentType) (nm : String) (opts : RefOptions) :
    refsOf (composeRef .get ty nm opts) = [refString ty (componentName nm opts)] := by
  simp [composeRef, refsOf, refsOfKvs, refString, refEntry, Json.refStr]

theorem refsOfList_map_str (l : List String) : refsOfList (l.map Json.str) = [] := by
  induction l with
  | nil => rfl
  | cons x xs ih => simp [refsOfList, refsOf, ih]

theorem refsOfList_baseQueryParams : refsOfList baseQueryParams = [] := by rfl

theorem refsOfList_filterQueryParams : refsOfList filterQueryParams = [] := by rfl

theorem refsOfKvs_defaultCollectionSchemas : refsOfKvs defaultCollectionSchemas = [] := by rfl

theorem relTargetsFields_append (l1 l2 : List Field) :
    relTargetsFields (l1 ++ l2) = relTargetsFields l1 ++ relTargetsFields l2 := by
  induction l1 with
  | nil => simp [relTargetsFields]
  | cons f fs ih => simp [relTargetsFields, ih]

theorem relTargetsFields_flatMap_sub (ts : List Tab) :
    ∀ t ∈ relTargetsFields (ts.flatMap Tab.fields), t ∈ relTargetsTabs ts := by
  induction ts with
  | nil => simp [relTargetsFields]
  | cons t0 ts ih =>
    obtain ⟨iname, tfs⟩ := t0
    intro t ht
    simp only [List.flatMap_cons, relTargetsFields_append, Tab.fields, List.mem_append] at ht
    simp only [relTargetsTabs, List.mem_append]
    rcases ht with h | h
    · exact Or.inl h
    · exact Or.inr (ih t h)

theorem refsOfList_append (l1 l2 : List Json) :
    refsOfList (l1 ++ l2) = refsOfList l1 ++ refsOfList l2 := by
  induction l1 with
  | nil => simp [refsOfList]
  | cons j js ih => simp [refsOfList, ih]

theorem refsOfKvs_append (l1 l2 : List (String × Json)) :
    refsOfKvs (l1 ++ l2) = refsOfKvs l1 ++ refsOfKvs l2 := by
  induction l1 with
  | nil => simp [refsOfKvs]
  | cons kv kvs ih =>
    obtain ⟨k, v⟩ := kv
    simp [refsOfKvs, ih]

theorem refsOfKvs_single_obj (k : String) (kvs : List (String × Json)) :
    refsOfKvs [(k, Json.obj kvs)] = refsOfKvs kvs := by
  simp [refsOfKvs, refsOf, refEntry, Json.refStr]

theorem refsOfKvs_getObj (j : Json) (r : String) (h : r ∈ refsOfKvs j.getObj) :
    r ∈ refsOf j := by
  cases j <;> simp [Json.getObj, refsOfKvs] at h <;> simp [refsOf, h]

theorem refsOfList_getArr (j : Json) (r : String) (h : r ∈ refsOfList j.getArr) :
    r ∈ refsOf j := by
  cases j <;> simp [Json.getArr, refsOfList] at h <;> simp [refsOf, h]

theorem refsOfKvs_cons (k : String) (v : Json) (kvs : List (String × Json)) :
    refsOfKvs ((k, v) :: kvs) = refsOfKvs [(k, v)] ++ refsOfKvs kvs := by
  rw [refsOfKvs, refsOfKvs, refsOfKvs]
  simp only [List.append_nil, List.append_assoc]

theorem refsOfKvs_single_of_ne (k : String) (v : Json) (hk : k ≠ "$ref") :
    refsOfKvs [(k, v)] = refsOf v := by
  rw [refsOfKvs, refsOfKvs, refEntry, if_neg hk]
  simp only [List.nil_append, List.append_nil]

theorem refsOf_mem_setKey (kvs : List (String × Json)) (k : String) (v : Json) (r : String)
    (h : r ∈ refsOfKvs (setKey kvs k v)) : r ∈ refsOfKvs kvs ∨ r ∈ refsOfKvs [(k, v)] := by
  induction kvs with
  | nil => rw [setKey] at h; exact Or.inr h
  | cons kv rest ih =>
    obtain ⟨k0, v0⟩ := kv
    by_cases hk : k0 = k
    · subst hk
      rw [setKey, if_pos rfl, refsOfKvs_cons] at h
      rcases List.mem_append.1 h with h | h
      · exact Or.inr h
      · left; rw [refsOfKvs_cons]; exact List.mem_append.2 (Or.inr h)
    · rw [setKey, if_neg hk, refsOfKvs_cons] at h
      rcases List.mem_append.1 h with h | h
      · left; rw [refsOfKvs_cons]; exact List.mem_append.2 (Or.inl h)
      · rcases ih h with h | h
        · left; rw [refsOfKvs_cons]; exact List.mem_append.2 (Or.inr h)
        · exact Or.inr h

theorem refsOf_mem_set (j : Json) (k : String) (v : Json) (r : String)
    (h : r ∈ refsOf (j.set k v)) : r ∈ refsOf j ∨ r ∈ refsOfKvs [(k, v)] := by
  rw [Json.set, refsOf] at h
  rcases refsOf_mem_setKey _ _ _ _ h with h | h
  · exact Or.inl (refsOfKvs_getObj _ _ h)
  · exact Or.inr h

theorem refsOf_lookup (kvs : List (String × Json)) (k : String) (v : Json) (r : String)
    (hl : kvs.lookup k = some v) (h : r ∈ refsOf v) : r ∈ refsOfKvs kvs := by
  induction kvs with
  | nil => simp [List.lookup] at hl
  | cons kv rest ih =>
    obtain ⟨k0, v0⟩ := kv
    rw [List.lookup_cons] at hl
    by_cases hk : k = k0
    · subst hk
      simp at hl
      subst hl
      rw [refsOfKvs_cons]
      refine List.mem_append.2 (Or.inl ?hmem)
      rw [refsOfKvs, refsOfKvs]
      simp only [List.append_nil, List.mem_append]
      exact Or.inr h
    · rw [beq_false_of_ne hk] at hl
      simp at hl
      rw [refsOfKvs_cons]
      exact List.mem_append.2 (Or.inr (ih hl))

theorem refsOf_getJ (j : Json) (k : String) (r : String) (h : r ∈ refsOf (j.getJ k)) :
    r ∈ refsOf j := by
  cases j with
  | obj kvs =>
    rw [Json.getJ, Json.getKey] at h
    cases hl : kvs.lookup k with
    | none => rw [hl] at h; simp [refsOf, refsOfKvs] at h
    | some v =>
      rw [hl] at h
      simp at h
      exact refsOf_lookup _ _ _ _ hl h
  | str s => simp [Json.getJ, Json.getKey, refsOf, refsOfKvs] at h
  | num n => simp [Json.getJ, Json.getKey, refsOf, refsOfKvs] at h
  | bool b => simp [Json.getJ, Json.getKey, refsOf, refsOfKvs] at h
  | arr js => simp [Json.getJ, Json.getKey, refsOf, refsOfKvs] at h

theorem refsOf_mem_spread2 (a b : List (String × Json)) (r : String)
    (h : r ∈ refsOfKvs (spread2 a b)) : r ∈ refsOfKvs a ∨ r ∈ refsOfKvs b := by
  induction b generalizing a with
  | nil => exact Or.inl h
  | cons kv rest ih =>
    obtain ⟨k, v⟩ := kv
    rw [spread2, List.foldl_cons] at h
    rcases ih (setKey a k v) h with h | h
    · rcases refsOf_mem_setKey _ _ _ _ h with h | h
      · exact Or.inl h
      · right; rw [refsOfKvs_cons]; exact List.mem_append.2 (Or.inl h)
    · right; rw [refsOfKvs_cons]; exact List.mem_append.2 (Or.inr h)

theorem docRefs_mem_setComponent (doc : Json) (sec k : String) (v : Json) (r : String)
    (hsec : sec ≠ "$ref")
    (h : r ∈ docRefs (setComponent doc sec k v)) :
    r ∈ docRefs doc ∨ r ∈ refsOfKvs [(k, v)] := by
  rw [docRefs, getJ_setComponent_paths, getJ_setComponent_components] at h
  simp only [List.mem_append] at h
  rcases h with h | h
  · left; rw [docRefs]; simp [h]
  · rcases refsOf_mem_set _ _ _ _ h with h | h
    · left; rw [docRefs]; simp [h]
    · rw [refsOfKvs_single_of_ne _ _ hsec] at h
      rcases refsOf_mem_set _ _ _ _ h with h | h
      · left
        rw [docRefs]
        simp only [List.mem_append]
        exact Or.inr (refsOf_getJ _ _ _ h)
      · exact Or.inr h

theorem docRefs_mem_setPath (doc : Json) (k : String) (v : Json) (r : String)
    (h : r ∈ docRefs (setPath doc k v)) :
    r ∈ docRefs doc ∨ r ∈ refsOfKvs [(k, v)] := by
  rw [docRefs, getJ_setPath_paths, getJ_setPath_components] at h
  simp only [List.mem_append] at h
  rcases h with h | h
  · rcases refsOf_mem_set _ _ _ _ h with h | h
    · left; rw [docRefs]; simp [h]
    · exact Or.inr h
  · left; rw [docRefs]; simp [h]

theorem docRefs_pushTag (doc : Json) (slug : String) (r : String)
    (h : r ∈ docRefs (pushTag doc slug)) : r ∈ docRefs doc := by
  rw [docRefs, getJ_pushTag _ _ _ (by decide), getJ_pushTag _ _ _ (by decide)] at h
  exact h

theorem stepTabs_obj (mode : Mode) (acc : Json) (n : String) (ts : List Tab) (j : Json)
    (h : stepTabs mode acc n ts = some j) : ∃ kvs2, j = Json.obj kvs2 := by
  rw [stepTabs] at h
  split at h
  · exact absurd h (by simp)
  · injection h with h
    exact ⟨_, h.symm⟩

theorem stepDefault_obj (mode : Mode) (acc : Json) (field : Field) (j : Json)
    (kvs : List (String × Json)) (ha : acc = Json.obj kvs)
    (h : stepDefault mode acc field = some j) : ∃ kvs2, j = Json.obj kvs2 := by
  rw [stepDefault] at h
  split at h
  · injection h with h; exact ⟨kvs, by rw [← h, ha]⟩
  · split at h
    · injection h with h; exact ⟨kvs, by rw [← h, ha]⟩
    · split at h
      · injection h with h; exact ⟨kvs, by rw [← h, ha]⟩
      · split at h
        · injection h with h; exact ⟨kvs, by rw [← h, ha]⟩
        · split at h
          · exact absurd h (by simp)
          · injection h with h
            exact ⟨_, h.symm⟩

theorem stepField_obj (mode : Mode) (acc : Json) (field : Field) (j : Json)
    (kvs : List (String × Json)) (ha : acc = Json.obj kvs)
    (h : stepField mode acc field = some j) : ∃ kvs2, j = Json.obj kvs2 := by
  rcases stepField_characterization mode acc field with ⟨ts, _, he⟩ | ⟨_, he⟩ | ⟨_, _, he⟩
  · rw [he] at h
    exact stepTabs_obj _ _ _ _ _ h
  · rw [he] at h
    injection h with h
    exact ⟨kvs, by rw [← h, ha]⟩
  · rw [he] at h
    exact stepDefault_obj _ _ _ _ _ ha h

theorem goFields_obj (mode : Mode) (fields : List Field) :
    ∀ acc kvs j, acc = Json.obj kvs → goFields mode acc fields = some j →
      ∃ kvs2, j = Json.obj kvs2 := by
  induction fields with
  | nil =>
    intro acc kvs j ha h
    rw [goFields] at h
    injection h with h
    exact ⟨kvs, by rw [← h, ha]⟩
  | cons f fs ih =>
    intro acc kvs j ha h
    rw [goFields] at h
    split at h
    · exact absurd h (by simp)
    · rename_i acc2 hs
      obtain ⟨kvs2, h2⟩ := stepField_obj _ _ _ _ _ ha hs
      exact ih acc2 kvs2 j h2 h

theorem generateObject_obj (mode : Mode) (fields : List Field) (j : Json)
    (h : generateObject mode fields = some j) : ∃ kvs2, j = Json.obj kvs2 := by
  rw [generateObject] at h
  exact goFields_obj mode fields _ [] j rfl h

/-- The bound on pointers emitted by the field compiler: the pagination
schema or a relationship/join target schema. -/
def refBound (r : String) (targets : List String) : Prop :=
  r = refString .schemas "paginationResponse" ∨ ∃ t ∈ targets, r = refString .schemas t

theorem refBound_mono (r : String) (l1 l2 : List String) (hs : ∀ t ∈ l1, t ∈ l2)
    (h : refBound r l1) : refBound r l2 := by
  rcases h with h | ⟨t, ht, h⟩
  · exact Or.inl h
  · exact Or.inr ⟨t, hs t ht, h⟩

theorem componentName_noOpts (s : String) : componentName s noOpts = s := rfl

theorem refsOf_composeRef_get_mem (ty : ComponentType) (nm : String) (r : String)
    (h : r ∈ refsOf (composeRef .get ty nm noOpts)) : r = refString ty nm := by
  rw [refsOf_composeRef_get, componentName_noOpts] at h
  simpa using h

theorem refsOfList_map_composeRef (slugs : List String) (r : String)
    (h : r ∈ refsOfList (slugs.map (fun c => composeRef .get .schemas c noOpts))) :
    ∃ t ∈ slugs, r = refString .schemas t := by
  induction slugs with
  | nil => simp [refsOfList] at h
  | cons s ss ih =>
    rw [List.map_cons, refsOfList] at h
    rcases List.mem_append.1 h with h | h
    · exact ⟨s, by simp, refsOf_composeRef_get_mem _ _ _ h⟩
    · obtain ⟨t, ht, hr⟩ := ih h
      exact ⟨t, by simp [ht], hr⟩

theorem generateField_obj (mode : Mode) (field : Field) (j : Json)
    (h : generateField mode field = some j) : ∃ kvs2, j = Json.obj kvs2 := by
  obtain ⟨n, rq, hd, v, k⟩ := field
  cases k
  case relationship target many =>
    cases mode <;> cases target <;> simp only [generateField] at h <;>
      (repeat' split at h) <;> exact ⟨_, (Option.some.inj h).symm⟩
  case join target many =>
    cases target <;> simp only [generateField] at h <;> (repeat' split at h) <;>
      exact ⟨_, (Option.some.inj h).symm⟩
  all_goals
    (simp only [generateField] at h) <;> (repeat' split at h) <;>
      first
      | exact Option.noConfusion h
      | exact ⟨_, (Option.some.inj h).symm⟩
      | exact generateObject_obj _ _ _ h

theorem refsOfKvs_reqPart (c : Prop) [Decidable c] (l : List String) :
    refsOfKvs (if c then [("required", Json.arr (l.map Json.str))] else []) = [] := by
  split
  · simp [refsOfKvs, refEntry, Json.refStr, refsOf, refsOfList_map_str]
  · rfl

theorem refsOf_step_literal (req props : List (String × Json)) (r : String)
    (hreq : refsOfKvs req = [])
    (h : r ∈ refsOfKvs ([("type", Json.str "object")] ++ req ++
      [("properties", Json.obj props)])) :
    r ∈ refsOfKvs props := by
  rw [refsOfKvs_append, refsOfKvs_append, hreq] at h
  simp [refsOfKvs, refEntry, Json.refStr, refsOf] at h
  exact h

mutual

/-- Pointers emitted by `generateField` (outside the unreachable `join`
in `new` mode) are the pagination schema or a target schema. -/
theorem refsOf_generateField (mode : Mode) (field : Field)
    (hm : mode = .get ∨ field.type.isJoin = false) :
    ∀ j, generateField mode field = some j → ∀ r, r ∈ refsOf j →
      refBound r (relTargetsField field) :=
  match field, hm with
  | .mk n rq hd v .text, _ => by
    intro j hj r hr
    simp only [generateField] at hj
    injection hj with hj
    subst hj
    simp [refsOf, refsOfKvs, refEntry, Json.refStr, refsOfList, refsOfList_map_str] at hr
  | .mk n rq hd v .textarea, _ => by
    intro j hj r hr
    simp only [generateField] at hj
    injection hj with hj
    subst hj
    simp [refsOf, refsOfKvs, refEntry, Json.refStr, refsOfList, refsOfList_map_str] at hr
  | .mk n rq hd v .richText, _ => by
    intro j hj r hr
    simp only [generateField] at hj
    injection hj with hj
    subst hj
    simp [refsOf, refsOfKvs, refEntry, Json.refStr, refsOfList, refsOfList_map_str] at hr
  | .mk n rq hd v .number, _ => by
    intro j hj r hr
    simp only [generateField] at hj
    injection hj with hj
    subst hj
    simp [refsOf, refsOfKvs, refEntry, Json.refStr, refsOfList, refsOfList_map_str] at hr
  | .mk n rq hd v .checkbox, _ => by
    intro j hj r hr
    simp only [generateField] at hj
    injection hj with hj
    subst hj
    simp [refsOf, refsOfKvs, refEntry, Json.refStr, refsOfList, refsOfList_map_str] at hr
  | .mk n rq hd v .code, _ => by
    intro j hj r hr
    simp only [generateField] at hj
    injection hj with hj
    subst hj
    simp [refsOf, refsOfKvs, refEntry, Json.refStr, refsOfList, refsOfList_map_str] at hr
  | .mk n rq hd v .collapsible, _ => by
    intro j hj r hr
    simp only [generateField] at hj
    injection hj with hj
    subst hj
    simp [refsOf, refsOfKvs, refEntry, Json.refStr, refsOfList, refsOfList_map_str] at hr
  | .mk n rq hd v .date, _ => by
    intro j hj r hr
    simp only [generateField] at hj
    injection hj with hj
    subst hj
    simp [refsOf, refsOfKvs, refEntry, Json.refStr, refsOfList, refsOfList_map_str] at hr
  | .mk n rq hd v .email, _ => by
    intro j hj r hr
    simp only [generateField] at hj
    injection hj with hj
    subst hj
    simp [refsOf, refsOfKvs, refEntry, Json.refStr, refsOfList, refsOfList_map_str] at hr
  | .mk n rq hd v .json, _ => by
    intro j hj r hr
    simp only [generateField] at hj
    injection hj with hj
    subst hj
    simp [refsOf, refsOfKvs, refEntry, Json.refStr, refsOfList, refsOfList_map_str] at hr
  | .mk n rq hd v .point, _ => by
    intro j hj r hr
    simp only [generateField] at hj
    injection hj with hj
    subst hj
    simp [refsOf, refsOfKvs, refEntry, Json.refStr, refsOfList, refsOfList_map_str] at hr
  | .mk n rq hd v .upload, _ => by
    intro j hj r hr
    simp only [generateField] at hj
    injection hj with hj
    subst hj
    simp [refsOf, refsOfKvs, refEntry, Json.refStr, refsOfList, refsOfList_map_str] at hr
  | .mk n rq hd v (.select opts), _ => by
    intro j hj r hr
    simp only [generateField] at hj
    injection hj with hj
    subst hj
    simp [refsOf, refsOfKvs, refEntry, Json.refStr, refsOfList, refsOfList_map_str] at hr
  | .mk n rq hd v (.radio opts), _ => by
    intro j hj r hr
    simp only [generateField] at hj
    injection hj with hj
    subst hj
    simp [refsOf, refsOfKvs, refEntry, Json.refStr, refsOfList, refsOfList_map_str] at hr
  | .mk n rq hd v (.array fs), _ => by
    intro j hj r hr
    have hg := refsOf_generateObject mode fs
    simp only [generateField] at hj
    split at hj
    · exact absurd hj (by simp)
    · rename_i items hgo
      injection hj with hj
      subst hj
      simp [refsOf, refsOfKvs, refEntry, Json.refStr] at hr
      refine refBound_mono _ _ _ ?_ (hg items hgo r hr)
      intro t ht
      simpa [relTargetsField, relTargetsKind] using ht
  | .mk n rq hd v (.group fs), _ => by
    intro j hj r hr
    have hg := refsOf_generateObject mode fs
    simp only [generateField] at hj
    refine refBound_mono _ _ _ ?_ (hg j hj r hr)
    intro t ht
    simpa [relTargetsField, relTargetsKind] using ht
  | .mk n rq hd v (.row fs), _ => by
    intro j hj r hr
    have hg := refsOf_generateObject mode fs
    simp only [generateField] at hj
    refine refBound_mono _ _ _ ?_ (hg j hj r hr)
    intro t ht
    simpa [relTargetsField, relTargetsKind] using ht
  | .mk n rq hd v (.blocks bs), _ => by
    intro j hj r hr
    have hg := refsOf_goBlocks mode bs
    simp only [generateField] at hj
    split at hj
    · exact absurd hj (by simp)
    · rename_i items hgo
      injection hj with hj
      subst hj
      simp [refsOf, refsOfKvs, refEntry, Json.refStr, refsOfList] at hr
      refine refBound_mono _ _ _ ?_ (hg items hgo r hr)
      intro t ht
      simpa [relTargetsField, relTargetsKind] using ht
  | .mk n rq hd v (.relationship target many), _ => by
    intro j hj r hr
    cases mode with
    | new =>
      simp only [generateField] at hj
      split at hj <;>
        (injection hj with hj
         subst hj
         simp [refsOf, refsOfKvs, refEntry, Json.refStr, refsOfList] at hr)
    | get =>
      cases target with
      | poly slugs =>
        simp only [generateField] at hj
        split at hj <;>
          (injection hj with hj
           subst hj
           simp only [refsOf, refsOfKvs, refEntry, Json.refStr, refsOfList,
             List.append_nil, List.nil_append, List.mem_append] at hr)
        · rcases hr with hr | hr
          · simp at hr
          · rcases hr with hr | hr
            · obtain ⟨t, ht, hteq⟩ := refsOfList_map_composeRef slugs r (by simpa using hr)
              refine Or.inr ⟨t, ?_, hteq⟩
              simpa [relTargetsField, relTargetsKind, RelTarget.rtSlugs] using ht
            · exact Or.inl (refsOf_composeRef_get_mem _ _ _ (by simpa using hr))
        · obtain ⟨t, ht, hteq⟩ := refsOfList_map_composeRef slugs r (by simpa using hr)
          refine Or.inr ⟨t, ?_, hteq⟩
          simpa [relTargetsField, relTargetsKind, RelTarget.rtSlugs] using ht
      | single s =>
        simp only [generateField] at hj
        split at hj <;>
          (injection hj with hj
           subst hj
           simp only [refsOf, refsOfKvs, refEntry, Json.refStr, refsOfList,
             List.append_nil, List.nil_append, List.mem_append] at hr)
        · rcases hr with hr | hr
          · simp at hr
          · rcases hr with hr | hr
            · refine Or.inr ⟨s, ?_, refsOf_composeRef_get_mem _ _ _ (by simpa using hr)⟩
              simp [relTargetsField, relTargetsKind, RelTarget.rtSlugs]
            · exact Or.inl (refsOf_composeRef_get_mem _ _ _ (by simpa using hr))
        · refine Or.inr ⟨s, ?_, refsOf_composeRef_get_mem _ _ _ (by simpa using hr)⟩
          simp [relTargetsField, relTargetsKind, RelTarget.rtSlugs]
  | .mk n rq hd v (.join target many), hm => by
    intro j hj r hr
    have hget : mode = .get := by
      rcases hm with hm | hm
      · exact hm
      · simp [Field.type, FieldKind.isJoin] at hm
    subst hget
    cases target with
    | poly slugs =>
      simp only [generateField] at hj
      split at hj <;>
        (injection hj with hj
         subst hj
         simp only [refsOf, refsOfKvs, refEntry, Json.refStr, refsOfList,
           List.append_nil, List.nil_append, List.mem_append] at hr)
      · rcases hr with hr | hr
        · simp at hr
        · rcases hr with hr | hr
          · obtain ⟨t, ht, hteq⟩ := refsOfList_map_composeRef slugs r (by simpa using hr)
            refine Or.inr ⟨t, ?_, hteq⟩
            simpa [relTargetsField, relTargetsKind, RelTarget.rtSlugs] using ht
          · exact Or.inl (refsOf_composeRef_get_mem _ _ _ (by simpa using hr))
      · obtain ⟨t, ht, hteq⟩ := refsOfList_map_composeRef slugs r (by simpa using hr)
        refine Or.inr ⟨t, ?_, hteq⟩
        simpa [relTargetsField, relTargetsKind, RelTarget.rtSlugs] using ht
    | single s =>
      simp only [generateField] at hj
      split at hj <;>
        (injection hj with hj
         subst hj
         simp only [refsOf, refsOfKvs, refEntry, Json.refStr, refsOfList,
           List.append_nil, List.nil_append, List.mem_append] at hr)
      · rcases hr with hr | hr
        · simp at hr
        · rcases hr with hr | hr
          · refine Or.inr ⟨s, ?_, refsOf_composeRef_get_mem _ _ _ (by simpa using hr)⟩
            simp [relTargetsField, relTargetsKind, RelTarget.rtSlugs]
          · exact Or.inl (refsOf_composeRef_get_mem _ _ _ (by simpa using hr))
      · refine Or.inr ⟨s, ?_, refsOf_composeRef_get_mem _ _ _ (by simpa using hr)⟩
        simp [relTargetsField, relTargetsKind, RelTarget.rtSlugs]
  | .mk n rq hd v (.tabs ts), _ => by
    intro j hj r hr
    simp only [generateField] at hj
    exact absurd hj (by simp)
  | .mk n rq hd v .ui, _ => by
    intro j hj r hr
    simp only [generateField] at hj
    exact absurd hj (by simp)
termination_by wField field
decreasing_by
  all_goals
    first
    | ((simp [wField, wKind, wFields, wTabs, wTab, wBlocks, wBlock]) <;> omega)
    | (have h := wFields_flatMap_le allTabs
       simp [wField, wKind, wFields, wTabs, wTab, wBlocks, wBlock] at h ⊢
       omega)

/-- Pointers emitted for a block list. -/
theorem refsOf_goBlocks (mode : Mode) (bs : List Block) :
    ∀ js, goBlocks mode bs = some js → ∀ r, r ∈ refsOfList js →
      refBound r (relTargetsBlocks bs) :=
  match bs with
  | [] => by
    intro js h r hr
    simp only [goBlocks] at h
    injection h with h
    subst h
    simp [refsOfList] at hr
  | .mk fs :: bs => by
    intro js h r hr
    have h1 := refsOf_generateObject mode fs
    have h2 := refsOf_goBlocks mode bs
    simp only [goBlocks] at h
    split at h
    · exact absurd h (by simp)
    · rename_i j hgo
      split at h
      · exact absurd h (by simp)
      · rename_i js2 hgb
        injection h with h
        subst h
        rw [refsOfList] at hr
        rcases List.mem_append.1 hr with hr | hr
        · refine refBound_mono _ _ _ ?_ (h1 j hgo r hr)
          intro t ht
          simp [relTargetsBlocks, ht]
        · refine refBound_mono _ _ _ ?_ (h2 js2 hgb r hr)
          intro t ht
          simp [relTargetsBlocks, ht]
termination_by wBlocks bs + 2
decreasing_by
  all_goals ((simp [wField, wKind, wFields, wTabs, wTab, wBlocks, wBlock]) <;> omega)

/-- Pointers accumulated by the tab loop. -/
theorem refsOf_goTabs (mode : Mode) (fieldName : String) (allTabs : List Tab)
    (props : List (String × Json)) (ts : List Tab) :
    ∀ props2, goTabs mode fieldName allTabs props ts = some props2 →
      ∀ r, r ∈ refsOfKvs props2 → r ∈ refsOfKvs props ∨
        refBound r (relTargetsTabs allTabs ++ relTargetsTabs ts) :=
  match ts with
  | [] => by
    intro props2 h r hr
    simp only [goTabs] at h
    injection h with h
    subst h
    exact Or.inl hr
  | .mk iname tfs :: ts => by
    intro props2 h r hr
    cases iname with
    | some i =>
      by_cases hi : i = ""
      · subst hi
        have hgo := refsOf_generateObject mode (allTabs.flatMap Tab.fields)
        simp only [goTabs, if_pos rfl] at h
        cases hgen : generateObject mode (allTabs.flatMap Tab.fields) with
        | none =>
          rw [hgen] at h
          simp at h
        | some j =>
          rw [hgen] at h
          rcases refsOf_goTabs mode fieldName allTabs (setKey props fieldName j) ts
              props2 h r hr with h2 | h2
          · rcases refsOf_mem_setKey _ _ _ _ h2 with h3 | h3
            · exact Or.inl h3
            · obtain ⟨kvs2, hk2⟩ := generateObject_obj mode _ j hgen
              rw [hk2, refsOfKvs_single_obj] at h3
              have hrj : r ∈ refsOf j := by rw [hk2, refsOf]; exact h3
              refine Or.inr (refBound_mono _ _ _ ?_ (hgo j hgen r hrj))
              intro t ht
              exact List.mem_append.2 (Or.inl (relTargetsFields_flatMap_sub allTabs t ht))
          · refine Or.inr (refBound_mono _ _ _ ?_ h2)
            intro t ht
            rcases List.mem_append.1 ht with ht | ht
            · exact List.mem_append.2 (Or.inl ht)
            · refine List.mem_append.2 (Or.inr ?_)
              simp [relTargetsTabs, ht]
      · have hgo := refsOf_generateObject mode tfs
        simp only [goTabs, if_neg hi] at h
        cases hgen : generateObject mode tfs with
        | none =>
          rw [hgen] at h
          simp at h
        | some j =>
          rw [hgen] at h
          rcases refsOf_goTabs mode fieldName allTabs (setKey props i j) ts
              props2 h r hr with h2 | h2
          · rcases refsOf_mem_setKey _ _ _ _ h2 with h3 | h3
            · exact Or.inl h3
            · obtain ⟨kvs2, hk2⟩ := generateObject_obj mode _ j hgen
              rw [hk2, refsOfKvs_single_obj] at h3
              have hrj : r ∈ refsOf j := by rw [hk2, refsOf]; exact h3
              refine Or.inr (refBound_mono _ _ _ ?_ (hgo j hgen r hrj))
              intro t ht
              refine List.mem_append.2 (Or.inr ?_)
              simp [relTargetsTabs, ht]
          · refine Or.inr (refBound_mono _ _ _ ?_ h2)
            intro t ht
            rcases List.mem_append.1 ht with ht | ht
            · exact List.mem_append.2 (Or.inl ht)
            · refine List.mem_append.2 (Or.inr ?_)
              simp [relTargetsTabs, ht]
    | none =>
      have hgo := refsOf_generateObject mode (allTabs.flatMap Tab.fields)
      simp only [goTabs] at h
      cases hgen : generateObject mode (allTabs.flatMap Tab.fields) with
      | none =>
        rw [hgen] at h
        simp at h
      | some j =>
        rw [hgen] at h
        rcases refsOf_goTabs mode fieldName allTabs (setKey props fieldName j) ts
            props2 h r hr with h2 | h2
        · rcases refsOf_mem_setKey _ _ _ _ h2 with h3 | h3
          · exact Or.inl h3
          · obtain ⟨kvs2, hk2⟩ := generateObject_obj mode _ j hgen
            rw [hk2, refsOfKvs_single_obj] at h3
            have hrj : r ∈ refsOf j := by rw [hk2, refsOf]; exact h3
            refine Or.inr (refBound_mono _ _ _ ?_ (hgo j hgen r hrj))
            intro t ht
            exact List.mem_append.2 (Or.inl (relTargetsFields_flatMap_sub allTabs t ht))
        · refine Or.inr (refBound_mono _ _ _ ?_ h2)
          intro t ht
          rcases List.mem_append.1 ht with ht | ht
          · exact List.mem_append.2 (Or.inl ht)
          · refine List.mem_append.2 (Or.inr ?_)
            simp [relTargetsTabs, ht]
termination_by wTabs allTabs + wTabs ts + 4
decreasing_by
  all_goals
    first
    | ((simp [wField, wKind, wFields, wTabs, wTab, wBlocks, wBlock]) <;> omega)
    | (have h := wFields_flatMap_le allTabs
       simp [wField, wKind, wFields, wTabs, wTab, wBlocks, wBlock] at h ⊢
       omega)

/-- Pointers of the default reducer case: the accumulator's plus the new
field fragment's. -/
theorem refsOf_stepDefault (mode : Mode) (acc : Json) (field : Field) :
    ∀ j, stepDefault mode acc field = some j → ∀ r, r ∈ refsOf j →
      r ∈ refsOf acc ∨ refBound r (relTargetsField field) := by
  intro j hj r hr
  rw [stepDefault] at hj
  split at hj
  · injection hj with hj; rw [← hj] at hr; exact Or.inl hr
  · split at hj
    · injection hj with hj; rw [← hj] at hr; exact Or.inl hr
    · split at hj
      · injection hj with hj; rw [← hj] at hr; exact Or.inl hr
      · split at hj
        · injection hj with hj; rw [← hj] at hr; exact Or.inl hr
        · rename_i h4
          split at hj
          · exact absurd hj (by simp)
          · rename_i gf hgf
            have hm : mode = .get ∨ field.type.isJoin = false := by
              cases mode with
              | get => exact Or.inl rfl
              | new =>
                cases hij : field.type.isJoin with
                | false => exact Or.inr rfl
                | true =>
                  refine absurd ?_ h4
                  simp [hij]
                  rfl
            injection hj with hj
            subst hj
            rw [refsOf] at hr
            have hr2 := refsOf_step_literal _ _ _ (refsOfKvs_reqPart _ _) hr
            rcases refsOf_mem_setKey _ _ _ _ hr2 with h3 | h3
            · left
              exact refsOf_getJ acc "properties" r (refsOfKvs_getObj _ _ h3)
            · obtain ⟨kvs2, hk2⟩ := generateField_obj mode field gf hgf
              rw [hk2, refsOfKvs_single_obj] at h3
              have hrg : r ∈ refsOf gf := by rw [hk2, refsOf]; exact h3
              exact Or.inr (refsOf_generateField mode field hm gf hgf r hrg)
termination_by wField field + 1
decreasing_by
  all_goals ((simp [wField, wKind, wFields, wTabs, wTab, wBlocks, wBlock]) <;> omega)

/-- Pointers of the `tabs` reducer case. -/
theorem refsOf_stepTabs (mode : Mode) (acc : Json) (fieldName : String) (tabs : List Tab) :
    ∀ j, stepTabs mode acc fieldName tabs = some j → ∀ r, r ∈ refsOf j →
      r ∈ refsOf acc ∨ refBound r (relTargetsTabs tabs) := by
  intro j hj r hr
  simp only [stepTabs] at hj
  split at hj
  · exact absurd hj (by simp)
  · rename_i resultProps hgt
    injection hj with hj
    subst hj
    rw [refsOf] at hr
    have hr2 := refsOf_step_literal _ _ _ (refsOfKvs_reqPart _ _) hr
    rcases refsOf_mem_spread2 _ _ _ hr2 with h3 | h3
    · left
      exact refsOf_getJ acc "properties" r (refsOfKvs_getObj _ _ h3)
    · rcases refsOf_goTabs mode fieldName tabs [] tabs resultProps hgt r h3 with h4 | h4
      · simp [refsOfKvs] at h4
      · refine Or.inr (refBound_mono _ _ _ ?_ h4)
        intro t ht
        rcases List.mem_append.1 ht with ht | ht
        · exact ht
        · exact ht
termination_by 2 * wTabs tabs + 6
decreasing_by
  all_goals ((simp [wField, wKind, wFields, wTabs, wTab, wBlocks, wBlock]) <;> omega)

/-- Pointers of one reducer step. -/
theorem refsOf_stepField (mode : Mode) (acc : Json) (field : Field) :
    ∀ j, stepField mode acc field = some j → ∀ r, r ∈ refsOf j →
      r ∈ refsOf acc ∨ refBound r (relTargetsField field) :=
  match field with
  | .mk n rq hd v (.tabs ts) => by
    intro j hj r hr
    simp only [stepField] at hj
    rcases refsOf_stepTabs mode acc n ts j hj r hr with h | h
    · exact Or.inl h
    · refine Or.inr (refBound_mono _ _ _ ?_ h)
      intro t ht
      simpa [relTargetsField, relTargetsKind] using ht
  | .mk n rq hd v .ui => by
    intro j hj r hr
    simp only [stepField] at hj
    injection hj with hj
    rw [← hj] at hr
    exact Or.inl hr
  | .mk n rq hd v .text => by
    intro j hj r hr
    simp only [stepField] at hj
    exact refsOf_stepDefault mode acc _ j hj r hr
  | .mk n rq hd v .textarea => by
    intro j hj r hr
    simp only [stepField] at hj
    exact refsOf_stepDefault mode acc _ j hj r hr
  | .mk n rq hd v .richText => by
    intro j hj r hr
    simp only [stepField] at hj
    exact refsOf_stepDefault mode acc _ j hj r hr
  | .mk n rq hd v .number => by
    intro j hj r hr
    simp only [stepField] at hj
    exact refsOf_stepDefault mode acc _ j hj r hr
  | .mk n rq hd v .checkbox => by
    intro j hj r hr
    simp only [stepField] at hj
    exact refsOf_stepDefault mode acc _ j hj r hr
  | .mk n rq hd v .code => by
    intro j hj r hr
    simp only [stepField] at hj
    exact refsOf_stepDefault mode acc _ j hj r hr
  | .mk n rq hd v .collapsible => by
    intro j hj r hr
    simp only [stepField] at hj
    exact refsOf_stepDefault mode acc _ j hj r hr
  | .mk n rq hd v .date => by
    intro j hj r hr
    simp only [stepField] at hj
    exact refsOf_stepDefault mode acc _ j hj r hr
  | .mk n rq hd v .email => by
    intro j hj r hr
    simp only [stepField] at hj
    exact refsOf_stepDefault mode acc _ j hj r hr
  | .mk n rq hd v .json => by
    intro j hj r hr
    simp only [stepField] at hj
    exact refsOf_stepDefault mode acc _ j hj r hr
  | .mk n rq hd v .point => by
    intro j hj r hr
    simp only [stepField] at hj
    exact refsOf_stepDefault mode acc _ j hj r hr
  | .mk n rq hd v .upload => by
    intro j hj r hr
    simp only [stepField] at hj
    exact refsOf_stepDefault mode acc _ j hj r hr
  | .mk n rq hd v (.select opts) => by
    intro j hj r hr
    simp only [stepField] at hj
    exact refsOf_stepDefault mode acc _ j hj r hr
  | .mk n rq hd v (.radio opts) => by
    intro j hj r hr
    simp only [stepField] at hj
    exact refsOf_stepDefault mode acc _ j hj r hr
  | .mk n rq hd v (.array fs) => by
    intro j hj r hr
    simp only [stepField] at hj
    exact refsOf_stepDefault mode acc _ j hj r hr
  | .mk n rq hd v (.group fs) => by
    intro j hj r hr
    simp only [stepField] at hj
    exact refsOf_stepDefault mode acc _ j hj r hr
  | .mk n rq hd v (.row fs) => by
    intro j hj r hr
    simp only [stepField] at hj
    exact refsOf_stepDefault mode acc _ j hj r hr
  | .mk n rq hd v (.blocks bs) => by
    intro j hj r hr
    simp only [stepField] at hj
    exact refsOf_stepDefault mode acc _ j hj r hr
  | .mk n rq hd v (.relationship target many) => by
    intro j hj r hr
    simp only [stepField] at hj
    exact refsOf_stepDefault mode acc _ j hj r hr
  | .mk n rq hd v (.join target many) => by
    intro j hj r hr
    simp only [stepField] at hj
    exact refsOf_stepDefault mode acc _ j hj r hr
termination_by wField field + 8
decreasing_by
  all_goals ((simp [wField, wKind, wFields, wTabs, wTab, wBlocks, wBlock]) <;> omega)

/-- Pointers of the reducer loop. -/
theorem refsOf_goFields (mode : Mode) (fs : List Field) :
    ∀ acc j, goFields mode acc fs = some j → ∀ r, r ∈ refsOf j →
      r ∈ refsOf acc ∨ refBound r (relTargetsFields fs) :=
  match fs with
  | [] => by
    intro acc j h r hr
    simp only [goFields] at h
    injection h with h
    rw [← h] at hr
    exact Or.inl hr
  | f :: fs => by
    intro acc j h r hr
    simp only [goFields] at h
    split at h
    · exact absurd h (by simp)
    · rename_i acc2 hs
      rcases refsOf_goFields mode fs acc2 j h r hr with h2 | h2
      · rcases refsOf_stepField mode acc f acc2 hs r h2 with h3 | h3
        · exact Or.inl h3
        · refine Or.inr (refBound_mono _ _ _ ?_ h3)
          intro t ht
          simp [relTargetsFields, ht]
      · refine Or.inr (refBound_mono _ _ _ ?_ h2)
        intro t ht
        simp [relTargetsFields, ht]
termination_by wFields fs + 9
decreasing_by
  all_goals ((simp [wField, wKind, wFields, wTabs, wTab, wBlocks, wBlock]) <;> omega)

/-- Pointers emitted by `generateObject`: only the pagination schema or a
relationship/join target schema of the field tree, in both modes. -/
theorem refsOf_generateObject (mode : Mode) (fields : List Field) :
    ∀ j, generateObject mode fields = some j → ∀ r, r ∈ refsOf j →
      refBound r (relTargetsFields fields) := by
  intro j h r hr
  rw [generateObject] at h
  rcases refsOf_goFields mode fields (Json.obj []) j h r hr with h2 | h2
  · rw [refsOf] at h2
    simp [refsOfKvs] at h2
  · exact h2
termination_by wFields fields + 10
decreasing_by
  all_goals ((simp [wField, wKind, wFields, wTabs, wTab, wBlocks, wBlock]) <;> omega)

end

theorem refEntry_obj (k : String) (kvs : List (String × Json)) :
    refEntry k (Json.obj kvs) = [] := by
  rw [refEntry]
  split <;> simp [Json.refStr]

/-- The set of pointer strings the generator can emit for a given
configuration (custom endpoint override fragments apart). -/
def allowedRef (config : Config) (r : String) : Prop :=
  r = refString .schemas "countResponse" ∨
  r = refString .schemas "paginationResponse" ∨
  r = refString .schemas "createResponse" ∨
  r = refString .responses "count" ∨
  (∃ t ∈ configRelTargets config, r = refString .schemas t) ∨
  (∃ g ∈ config.globals.getD [],
    r = refString .schemas (componentName g.slug ⟨some "global", none⟩) ∨
    r = refString .requestBodies (componentName g.slug ⟨some "global", none⟩) ∨
    r = refString .responses (componentName g.slug ⟨some "global", none⟩)) ∨
  (∃ c ∈ config.collections.getD [],
    r = refString .schemas c.slug ∨
    (c.upload = false ∧ r = refString .schemas (componentName c.slug ⟨some "new", none⟩)) ∨
    (c.upload = false ∧ r = refString .requestBodies (componentName c.slug ⟨some "new", none⟩)) ∨
    r = refString .requestBodies c.slug ∨
    (c.upload = true ∧ r = refString .requestBodies (componentName c.slug ⟨some "upload", none⟩)) ∨
    r = refString .responses c.slug ∨
    r = refString .responses (componentName c.slug ⟨none, some "list"⟩))

theorem docRefs_initialDocument (options : Options) :
    docRefs (initialDocument options) = [refString .schemas "countResponse"] := by
  rfl

theorem slash_key_ne_ref (slug suffix : String) : "/api/" ++ slug ++ suffix ≠ "$ref" := by
  intro h
  have hl := congrArg String.length h
  simp [String.length_append] at hl
  have h5 : ("/api/" : String).length = 5 := by decide
  have h4 : ("$ref" : String).length = 4 := by decide
  omega

theorem refsOfKvs_endpointOpBase (slug : String) :
    refsOfKvs [("tags", Json.arr [Json.str slug]),
      ("responses", Json.obj [("200", composeRef .get .responses slug noOpts)])] =
      [refString .responses slug] := by
  rw [refsOfKvs_cons, refsOfKvs_single_of_ne _ _ (by decide),
    refsOfKvs_single_obj, refsOfKvs_single_of_ne _ _ (by decide),
    refsOf_composeRef_get, componentName_noOpts]
  simp [refsOf, refsOfList]

theorem docRefs_goEndpoints (base slug : String) (eps : List Endpoint)
    (hcustom : ∀ e ∈ eps, refsOfKvs e.custom = []) :
    ∀ doc r, r ∈ docRefs (goEndpoints doc base slug eps) →
      r ∈ docRefs doc ∨ r = refString .responses slug ∨
        r = refString .requestBodies slug := by
  induction eps with
  | nil =>
    intro doc r h
    rw [goEndpoints] at h
    exact Or.inl h
  | cons e es ih =>
    intro doc r h
    rw [goEndpoints] at h
    have hces : ∀ e2 ∈ es, refsOfKvs e2.custom = [] := by
      intro e2 he2
      exact hcustom e2 (by simp [he2])
    have hop : ∀ x, x ∈ refsOfKvs
        (spread2 [("tags", Json.arr [Json.str slug]),
          ("responses", Json.obj [("200", composeRef .get .responses slug noOpts)])]
          e.custom) →
        x = refString .responses slug := by
      intro x hx
      rcases refsOf_mem_spread2 _ _ _ hx with hx | hx
      · rw [refsOfKvs_endpointOpBase] at hx
        simpa using hx
      · rw [hcustom e (by simp)] at hx
        simp at hx
    rcases ih hces _ r h with h2 | h2
    · rcases docRefs_mem_setPath _ _ _ _ h2 with h3 | h3
      · exact Or.inl h3
      · rw [refsOfKvs_single_of_ne _ _ (slash_key_ne_ref slug e.path)] at h3
        rcases refsOf_mem_set _ _ _ _ h3 with h4 | h4
        · -- pointers of the previously recorded path item
          left
          rw [docRefs]
          refine List.mem_append.2 (Or.inl ?_)
          have hconv : ((doc.getJ "paths").getKey (base ++ slug ++ e.path)).getD
              (Json.obj []) = (doc.getJ "paths").getJ (base ++ slug ++ e.path) := rfl
          rw [hconv] at h4
          exact refsOf_getJ _ _ _ h4
        · -- pointers of the new operation object
          split at h4
          · rw [Json.set] at h4
            rw [refsOfKvs_single_obj] at h4
            rcases refsOf_mem_setKey _ _ _ _ h4 with h5 | h5
            · simp only [Json.getObj] at h5
              exact Or.inr (Or.inl (hop r h5))
            · rw [refsOfKvs_single_of_ne _ _ (by decide)] at h5
              rw [refsOf_composeRef_get, componentName_noOpts] at h5
              simp at h5
              exact Or.inr (Or.inr h5)
          · rw [refsOfKvs_single_obj] at h4
            exact Or.inr (Or.inl (hop r h4))
    · exact Or.inr h2

theorem refsOf_str (s : String) : refsOf (Json.str s) = [] := rfl

theorem refsOf_num (n : Int) : refsOf (Json.num n) = [] := rfl

theorem refsOf_bool (b : Bool) : refsOf (Json.bool b) = [] := rfl

theorem refsOf_arr (js : List Json) : refsOf (Json.arr js) = refsOfList js := rfl

theorem refsOf_obj (kvs : List (String × Json)) : refsOf (Json.obj kvs) = refsOfKvs kvs := rfl

theorem refsOf_schema_entries (l : List String) (A B : List (String × Json)) (r : String)
    (h : r ∈ refsOfKvs [("type", Json.str "object"),
      ("required", Json.arr (l.map Json.str)),
      ("properties", Json.obj (spread2 A B))]) :
    r ∈ refsOfKvs A ∨ r ∈ refsOfKvs B := by
  simp [refsOfKvs, refEntry, Json.refStr, refsOf, refsOfList_map_str] at h
  exact refsOf_mem_spread2 _ _ _ h

theorem refsOf_body_entries (mime : String) (v : Json) (r : String)
    (h : r ∈ refsOfKvs [("description", Json.str "successful operation"),
      ("content", Json.obj [(mime, Json.obj [("schema", v)])])]) :
    r ∈ refsOf v := by
  simp [refsOfKvs, refEntry, Json.refStr, refsOf, refEntry_obj] at h
  exact h

theorem refsOf_object_props (object : Json) (r : String)
    (h : r ∈ refsOfKvs (object.getJ "properties").getObj) : r ∈ refsOf object :=
  refsOf_getJ _ _ _ (refsOfKvs_getObj _ _ h)

theorem docRefs_generateGlobalOperators (doc : Json) (g : GlobalConfig) (d : Json)
    (h : generateGlobalOperators doc g = some d) :
    ∀ r ∈ docRefs d, r ∈ docRefs doc ∨
      r = refString .schemas (componentName g.slug ⟨some "global", none⟩) ∨
      r = refString .requestBodies (componentName g.slug ⟨some "global", none⟩) ∨
      r = refString .responses (componentName g.slug ⟨some "global", none⟩) ∨
      refBound r (relTargetsFields g.fields) := by
  intro r hr
  rw [generateGlobalOperators] at h
  cases hgen : generateObject .get g.fields with
  | none =>
    rw [hgen] at h
    simp at h
  | some object =>
    rw [hgen] at h
    have h2 := Option.some.inj h
    subst h2
    rcases docRefs_mem_setPath _ _ _ _ hr with hr | hr
    · rcases docRefs_mem_setComponent _ _ _ _ _ (by decide) hr with hr | hr
      · rcases docRefs_mem_setComponent _ _ _ _ _ (by decide) hr with hr | hr
        · rcases docRefs_mem_setComponent _ _ _ _ _ (by decide) hr with hr | hr
          · exact Or.inl hr
          · -- the global schema component value
            rw [refsOfKvs_single_obj] at hr
            rcases refsOf_schema_entries _ _ _ _ hr with hr | hr
            · simp [refsOfKvs, refEntry, Json.refStr, refsOf] at hr
            · refine Or.inr (Or.inr (Or.inr (Or.inr ?_)))
              exact refsOf_generateObject .get g.fields object hgen r
                (refsOf_object_props object r hr)
        · -- the global request body component value
          rw [refsOfKvs_single_obj] at hr
          have hr2 := refsOf_body_entries _ _ _ hr
          rw [refsOf_composeRef_get] at hr2
          simp at hr2
          exact Or.inr (Or.inl hr2)
      · -- the global response component value
        rw [refsOfKvs_single_obj] at hr
        have hr2 := refsOf_body_entries _ _ _ hr
        rw [refsOf_composeRef_get] at hr2
        simp at hr2
        exact Or.inr (Or.inl hr2)
    · -- the global path item
      rw [refsOfKvs_single_obj] at hr
      simp [refsOfKvs, refEntry, Json.refStr, refsOfList,
        refsOf_str, refsOf_num, refsOf_bool, refsOf_arr, refsOf_obj,
        refsOfList_append, refsOfList_baseQueryParams, refsOfList_filterQueryParams,
        refsOf_composeRef_get] at hr
      rcases hr with hr | hr | hr
      · exact Or.inr (Or.inr (Or.inr (Or.inl hr)))
      · exact Or.inr (Or.inr (Or.inl hr))
      · exact Or.inr (Or.inr (Or.inr (Or.inl hr)))

theorem refsOf_body_composeRef (mime : String) (ty : ComponentType) (nm : String)
    (opts : RefOptions) (r : String)
    (h : r ∈ refsOfKvs [("description", Json.str "successful operation"),
      ("content", Json.obj [(mime, Json.obj [("schema", composeRef .get ty nm opts)])])]) :
    r = refString ty (componentName nm opts) := by
  have h2 := refsOf_body_entries _ _ _ h
  rw [refsOf_composeRef_get] at h2
  simpa using h2

theorem docRefs_generateCollectionOperators (doc : Json) (c : CollectionConfig) (d : Json)
    (h : generateCollectionOperators doc c = some d) :
    ∀ r ∈ docRefs d, r ∈ docRefs doc ∨
      r = refString .schemas c.slug ∨
      r = refString .schemas (componentName c.slug ⟨some "new", none⟩) ∨
      r = refString .requestBodies (componentName c.slug ⟨some "new", none⟩) ∨
      r = refString .requestBodies c.slug ∨
      r = refString .responses c.slug ∨
      r = refString .responses (componentName c.slug ⟨none, some "list"⟩) ∨
      r = refString .responses "count" ∨
      r = refString .schemas "createResponse" ∨
      refBound r (relTargetsFields c.fields) := by
  intro r hr
  rw [generateCollectionOperators] at h
  cases hnew : generateObject .new c.fields with
  | none =>
    rw [hnew] at h
    simp at h
  | some newObject =>
    rw [hnew] at h
    cases hget : generateObject .get c.fields with
    | none =>
      rw [hget] at h
      simp at h
    | some object =>
      rw [hget] at h
      have h2 := Option.some.inj h
      subst h2
      rcases docRefs_mem_setPath _ _ _ _ hr with hr | hr
      swap
      · -- the count path item
        rw [refsOfKvs_single_obj] at hr
        simp [refsOfKvs, refEntry, Json.refStr, refsOfList,
          refsOf_str, refsOf_num, refsOf_bool, refsOf_arr, refsOf_obj,
          refsOfList_append, refsOfList_baseQueryParams, refsOfList_filterQueryParams,
          refsOf_composeRef_get, componentName_noOpts] at hr
        first
        | (rcases hr with rfl | rfl | rfl | rfl | rfl)
        | (rcases hr with rfl | rfl | rfl | rfl)
        | (rcases hr with rfl | rfl | rfl)
        | (rcases hr with rfl | rfl)
        | (rcases hr with rfl)
        all_goals simp [refBound]
      rcases docRefs_mem_setPath _ _ _ _ hr with hr | hr
      swap
      · -- the by-id path item
        rw [refsOfKvs_single_obj] at hr
        simp [refsOfKvs, refEntry, Json.refStr, refsOfList,
          refsOf_str, refsOf_num, refsOf_bool, refsOf_arr, refsOf_obj,
          refsOfList_append, refsOfList_baseQueryParams, refsOfList_filterQueryParams,
          refsOf_composeRef_get, componentName_noOpts] at hr
        first
        | (rcases hr with rfl | rfl | rfl | rfl | rfl)
        | (rcases hr with rfl | rfl | rfl | rfl)
        | (rcases hr with rfl | rfl | rfl)
        | (rcases hr with rfl | rfl)
        | (rcases hr with rfl)
        all_goals simp [refBound]
      rcases docRefs_mem_setPath _ _ _ _ hr with hr | hr
      swap
      · -- the base path item
        rw [refsOfKvs_single_obj] at hr
        simp [refsOfKvs, refEntry, Json.refStr, refsOfList,
          refsOf_str, refsOf_num, refsOf_bool, refsOf_arr, refsOf_obj,
          refsOfList_append, refsOfList_baseQueryParams, refsOfList_filterQueryParams,
          refsOf_composeRef_get, componentName_noOpts] at hr
        first
        | (rcases hr with rfl | rfl | rfl | rfl | rfl)
        | (rcases hr with rfl | rfl | rfl | rfl)
        | (rcases hr with rfl | rfl | rfl)
        | (rcases hr with rfl | rfl)
        | (rcases hr with rfl)
        all_goals simp [refBound]
      rcases docRefs_mem_setComponent _ _ _ _ _ (by decide) hr with hr | hr
      swap
      · -- responses list component
        rw [refsOfKvs_single_obj] at hr
        have hr2 := refsOf_body_entries _ _ _ hr
        simp [refsOfKvs, refEntry, Json.refStr, refsOfList,
          refsOf_str, refsOf_num, refsOf_bool, refsOf_arr, refsOf_obj,
          refsOf_composeRef_get, componentName_noOpts] at hr2
        first
        | (rcases hr2 with rfl | rfl)
        | (rcases hr2 with rfl)
        all_goals simp [refBound]
      rcases docRefs_mem_setComponent _ _ _ _ _ (by decide) hr with hr | hr
      swap
      · -- responses new (create confirmation) component
        rw [refsOfKvs_single_obj] at hr
        have hr2 := refsOf_body_entries _ _ _ hr
        simp [refsOfKvs, refEntry, Json.refStr, refsOfList,
          refsOf_str, refsOf_num, refsOf_bool, refsOf_arr, refsOf_obj,
          refsOf_composeRef_get, componentName_noOpts] at hr2
        first
        | (rcases hr2 with rfl | rfl)
        | (rcases hr2 with rfl)
        all_goals simp [refBound]
      rcases docRefs_mem_setComponent _ _ _ _ _ (by decide) hr with hr | hr
      swap
      · -- responses slug component
        rw [refsOfKvs_single_obj] at hr
        have hr2 := refsOf_body_composeRef _ _ _ _ _ hr
        rw [componentName_noOpts] at hr2
        subst hr2
        simp [refBound]
      rcases docRefs_mem_setComponent _ _ _ _ _ (by decide) hr with hr | hr
      swap
      · -- request body slug component
        rw [refsOfKvs_single_obj] at hr
        have hr2 := refsOf_body_composeRef _ _ _ _ _ hr
        rw [componentName_noOpts] at hr2
        subst hr2
        simp [refBound]
      rcases docRefs_mem_setComponent _ _ _ _ _ (by decide) hr with hr | hr
      swap
      · -- request body new component
        rw [refsOfKvs_single_obj] at hr
        have hr2 := refsOf_body_composeRef _ _ _ _ _ hr
        rw [componentName_noOpts] at hr2
        subst hr2
        simp [refBound]
      rcases docRefs_mem_setComponent _ _ _ _ _ (by decide) hr with hr | hr
      swap
      · -- the get-mode schema component
        rw [refsOfKvs_single_obj] at hr
        rcases refsOf_schema_entries _ _ _ _ hr with hr | hr
        · simp [refsOfKvs, refEntry, Json.refStr, refsOf_str, refsOf_num,
            refsOf_bool, refsOf_arr, refsOf_obj, refsOfList] at hr
        · exact Or.inr (Or.inr (Or.inr (Or.inr (Or.inr (Or.inr (Or.inr (Or.inr (Or.inr
            (refsOf_generateObject .get c.fields object hget r
              (refsOf_object_props object r hr))))))))))
      rcases docRefs_mem_setComponent _ _ _ _ _ (by decide) hr with hr | hr
      · exact Or.inl hr
      · -- the new-mode schema component
        rw [refsOfKvs_single_obj] at hr
        rcases refsOf_schema_entries _ _ _ _ hr with hr | hr
        · simp [refsOfKvs] at hr
        · exact Or.inr (Or.inr (Or.inr (Or.inr (Or.inr (Or.inr (Or.inr (Or.inr (Or.inr
            (refsOf_generateObject .new c.fields newObject hnew r
              (refsOf_object_props newObject r hr))))))))))

theorem docRefs_generateUploadCollectionOperators (doc : Json) (c : CollectionConfig)
    (d : Json) (h : generateUploadCollectionOperators doc c = some d) :
    ∀ r ∈ docRefs d, r ∈ docRefs doc ∨
      r = refString .schemas c.slug ∨
      r = refString .requestBodies c.slug ∨
      r = refString .requestBodies (componentName c.slug ⟨some "upload", none⟩) ∨
      r = refString .responses c.slug ∨
      r = refString .responses (componentName c.slug ⟨none, some "list"⟩) ∨
      r = refString .responses "count" ∨
      refBound r (relTargetsFields c.fields) := by
  intro r hr
  rw [generateUploadCollectionOperators] at h
  cases hget : generateObject .get c.fields with
  | none =>
    rw [hget] at h
    simp at h
  | some object =>
    rw [hget] at h
    have h2 := Option.some.inj h
    subst h2
    rcases docRefs_mem_setPath _ _ _ _ hr with hr | hr
    swap
    · -- the count path item
      rw [refsOfKvs_single_obj] at hr
      simp [refsOfKvs, refEntry, Json.refStr, refsOfList,
        refsOf_str, refsOf_num, refsOf_bool, refsOf_arr, refsOf_obj,
        refsOfList_append, refsOfList_baseQueryParams, refsOfList_filterQueryParams,
        refsOf_composeRef_get, componentName_noOpts] at hr
      first
      | (rcases hr with rfl | rfl | rfl | rfl | rfl)
      | (rcases hr with rfl | rfl | rfl | rfl)
      | (rcases hr with rfl | rfl | rfl)
      | (rcases hr with rfl | rfl)
      | (rcases hr with rfl)
      all_goals simp [refBound]
    rcases docRefs_mem_setPath _ _ _ _ hr with hr | hr
    swap
    · -- the by-id path item
      rw [refsOfKvs_single_obj] at hr
      simp [refsOfKvs, refEntry, Json.refStr, refsOfList,
        refsOf_str, refsOf_num, refsOf_bool, refsOf_arr, refsOf_obj,
        refsOfList_append, refsOfList_baseQueryParams, refsOfList_filterQueryParams,
        refsOf_composeRef_get, componentName_noOpts] at hr
      first
      | (rcases hr with rfl | rfl | rfl | rfl | rfl)
      | (rcases hr with rfl | rfl | rfl | rfl)
      | (rcases hr with rfl | rfl | rfl)
      | (rcases hr with rfl | rfl)
      | (rcases hr with rfl)
      all_goals simp [refBound]
    rcases docRefs_mem_setPath _ _ _ _ hr with hr | hr
    swap
    · -- the base path item
      rw [refsOfKvs_single_obj] at hr
      simp [refsOfKvs, refEntry, Json.refStr, refsOfList,
        refsOf_str, refsOf_num, refsOf_bool, refsOf_arr, refsOf_obj,
        refsOfList_append, refsOfList_baseQueryParams, refsOfList_filterQueryParams,
        refsOf_composeRef_get, componentName_noOpts] at hr
      first
      | (rcases hr with rfl | rfl | rfl | rfl | rfl)
      | (rcases hr with rfl | rfl | rfl | rfl)
      | (rcases hr with rfl | rfl | rfl)
      | (rcases hr with rfl | rfl)
      | (rcases hr with rfl)
      all_goals simp [refBound]
    rcases docRefs_mem_setComponent _ _ _ _ _ (by decide) hr with hr | hr
    swap
    · -- responses list component
      rw [refsOfKvs_single_obj] at hr
      have hr2 := refsOf_body_entries _ _ _ hr
      simp [refsOfKvs, refEntry, Json.refStr, refsOfList,
        refsOf_str, refsOf_num, refsOf_bool, refsOf_arr, refsOf_obj,
        refsOf_composeRef_get, componentName_noOpts] at hr2
      first
      | (rcases hr2 with rfl | rfl)
      | (rcases hr2 with rfl)
      all_goals simp [refBound]
    rcases docRefs_mem_setComponent _ _ _ _ _ (by decide) hr with hr | hr
    swap
    · -- responses slug component
      rw [refsOfKvs_single_obj] at hr
      have hr2 := refsOf_body_composeRef _ _ _ _ _ hr
      rw [componentName_noOpts] at hr2
      subst hr2
      simp [refBound]
    rcases docRefs_mem_setComponent _ _ _ _ _ (by decide) hr with hr | hr
    swap
    · -- the multipart upload request body component
      rw [refsOfKvs_single_obj] at hr
      have hr2 := refsOf_body_entries _ _ _ hr
      simp [refsOfKvs, refEntry, Json.refStr, refsOfList,
        refsOf_str, refsOf_num, refsOf_bool, refsOf_arr, refsOf_obj] at hr2
      exact Or.inr (Or.inr (Or.inr (Or.inr (Or.inr (Or.inr (Or.inr
        (refsOf_generateObject .get c.fields object hget r hr2)))))))
    rcases docRefs_mem_setComponent _ _ _ _ _ (by decide) hr with hr | hr
    swap
    · -- request body slug component
      rw [refsOfKvs_single_obj] at hr
      have hr2 := refsOf_body_composeRef _ _ _ _ _ hr
      rw [componentName_noOpts] at hr2
      subst hr2
      simp [refBound]
    rcases docRefs_mem_setComponent _ _ _ _ _ (by decide) hr with hr | hr
    · exact Or.inl hr
    · -- the upload schema component
      rw [refsOfKvs_single_obj] at hr
      rcases refsOf_schema_entries _ _ _ _ hr with hr | hr
      · simp [refsOfKvs, refEntry, Json.refStr, refsOf_str, refsOf_num,
          refsOf_bool, refsOf_arr, refsOf_obj, refsOfList] at hr
      · exact Or.inr (Or.inr (Or.inr (Or.inr (Or.inr (Or.inr (Or.inr
          (refsOf_generateObject .get c.fields object hget r
            (refsOf_object_props object r hr))))))))

theorem refBound_allowed_global (config : Config) (g : GlobalConfig)
    (hg : g ∈ config.globals.getD []) (r : String)
    (h : refBound r (relTargetsFields g.fields)) : allowedRef config r := by
  rcases h with h | ⟨t, ht, h⟩
  · exact Or.inr (Or.inl h)
  · refine Or.inr (Or.inr (Or.inr (Or.inr (Or.inl ⟨t, ?_, h⟩))))
    rw [configRelTargets]
    refine List.mem_append.2 (Or.inl ?_)
    exact List.mem_flatMap.2 ⟨g, hg, ht⟩

theorem refBound_allowed_collection (config : Config) (c : CollectionConfig)
    (hc : c ∈ config.collections.getD []) (r : String)
    (h : refBound r (relTargetsFields c.fields)) : allowedRef config r := by
  rcases h with h | ⟨t, ht, h⟩
  · exact Or.inr (Or.inl h)
  · refine Or.inr (Or.inr (Or.inr (Or.inr (Or.inl ⟨t, ?_, h⟩))))
    rw [configRelTargets]
    refine List.mem_append.2 (Or.inr ?_)
    exact List.mem_flatMap.2 ⟨c, hc, ht⟩

theorem docRefs_processGlobals (config : Config) (gs : List GlobalConfig) :
    (∀ g ∈ gs, g ∈ config.globals.getD []) →
    (∀ g ∈ gs, g.endpoints.getD [] = []) →
    ∀ doc d, processGlobals doc gs = some d →
      ∀ r ∈ docRefs d, r ∈ docRefs doc ∨ allowedRef config r := by
  induction gs with
  | nil =>
    intro _ _ doc d h r hr
    rw [processGlobals] at h
    injection h with h
    subst h
    exact Or.inl hr
  | cons g gs ih =>
    intro hmem hend doc d h r hr
    rw [processGlobals] at h
    cases hg : generateGlobalOperators (pushTag doc g.slug) g with
    | none =>
      rw [hg] at h
      simp at h
    | some doc2 =>
      rw [hg] at h
      have h9 : processGlobals (generateCustomEndpointOperators doc2 "/api/globals/"
          g.slug g.endpoints) gs = some d := h
      have hnoeps : generateCustomEndpointOperators doc2 "/api/globals/" g.slug
          g.endpoints = doc2 := by
        cases heps : g.endpoints with
        | none => rfl
        | some eps =>
          have hnil : eps = [] := by
            have h0 := hend g (by simp)
            rw [heps] at h0
            simpa using h0
          subst hnil
          rfl
      rw [hnoeps] at h9
      rcases ih (fun g2 hg2 => hmem g2 (by simp [hg2]))
          (fun g2 hg2 => hend g2 (by simp [hg2])) _ _ h9 r hr with h2 | h2
      · rcases docRefs_generateGlobalOperators _ _ _ hg r h2 with h3 | h3 | h3 | h3 | h3
        · exact Or.inl (docRefs_pushTag _ _ _ h3)
        · exact Or.inr (Or.inr (Or.inr (Or.inr (Or.inr (Or.inr (Or.inl
            ⟨g, hmem g (by simp), Or.inl h3⟩))))))
        · exact Or.inr (Or.inr (Or.inr (Or.inr (Or.inr (Or.inr (Or.inl
            ⟨g, hmem g (by simp), Or.inr (Or.inl h3)⟩))))))
        · exact Or.inr (Or.inr (Or.inr (Or.inr (Or.inr (Or.inr (Or.inl
            ⟨g, hmem g (by simp), Or.inr (Or.inr h3)⟩))))))
        · exact Or.inr (refBound_allowed_global config g (hmem g (by simp)) r h3)
      · exact Or.inr h2

theorem docRefs_processCollections (config : Config) (cs : List CollectionConfig) :
    (∀ c ∈ cs, c ∈ config.collections.getD []) →
    (∀ c ∈ cs, ∀ eps, c.endpoints = some eps → ∀ e ∈ eps, refsOfKvs e.custom = []) →
    ∀ doc d, processCollections doc cs = some d →
      ∀ r ∈ docRefs d, r ∈ docRefs doc ∨ allowedRef config r := by
  induction cs with
  | nil =>
    intro _ _ doc d h r hr
    rw [processCollections] at h
    injection h with h
    subst h
    exact Or.inl hr
  | cons c cs ih =>
    intro hmem hcust doc d h r hr
    rw [processCollections] at h
    have hcol : ∀ x, allowedRef config x ∨ x ∈ docRefs doc →
        x ∈ docRefs doc ∨ allowedRef config x := fun x hx => hx.symm
    have hcin : c ∈ config.collections.getD [] := hmem c (by simp)
    cases hup : c.upload with
    | true =>
      rw [hup] at h
      cases hgc : generateUploadCollectionOperators (pushTag doc c.slug) c with
      | none =>
        rw [hgc] at h
        simp at h
      | some doc2 =>
        rw [hgc] at h
        have h9 : processCollections (generateCustomEndpointOperators doc2 "/api/"
            c.slug c.endpoints) cs = some d := h
        rcases ih (fun c2 hc2 => hmem c2 (by simp [hc2]))
            (fun c2 hc2 => hcust c2 (by simp [hc2])) _ _ h9 r hr with h2 | h2
        · have hbound : ∀ x, x ∈ docRefs doc2 → x ∈ docRefs doc ∨ allowedRef config x := by
            intro x hx
            rcases docRefs_generateUploadCollectionOperators _ _ _ hgc x hx
              with h3 | h3 | h3 | h3 | h3 | h3 | h3 | h3
            · exact Or.inl (docRefs_pushTag _ _ _ h3)
            · exact Or.inr (Or.inr (Or.inr (Or.inr (Or.inr (Or.inr (Or.inr
                ⟨c, hcin, Or.inl h3⟩))))))
            · exact Or.inr (Or.inr (Or.inr (Or.inr (Or.inr (Or.inr (Or.inr
                ⟨c, hcin, Or.inr (Or.inr (Or.inr (Or.inl h3)))⟩))))))
            · exact Or.inr (Or.inr (Or.inr (Or.inr (Or.inr (Or.inr (Or.inr
                ⟨c, hcin, Or.inr (Or.inr (Or.inr (Or.inr (Or.inl ⟨hup, h3⟩))))⟩))))))
            · exact Or.inr (Or.inr (Or.inr (Or.inr (Or.inr (Or.inr (Or.inr
                ⟨c, hcin, Or.inr (Or.inr (Or.inr (Or.inr (Or.inr (Or.inl h3)))))⟩))))))
            · exact Or.inr (Or.inr (Or.inr (Or.inr (Or.inr (Or.inr (Or.inr
                ⟨c, hcin, Or.inr (Or.inr (Or.inr (Or.inr (Or.inr (Or.inr h3)))))⟩))))))
            · exact Or.inr (Or.inr (Or.inr (Or.inr (Or.inl h3))))
            · exact Or.inr (refBound_allowed_collection config c hcin x h3)
          -- pointers flowing through the custom endpoint merger
          rcases heps : c.endpoints with _ | eps
          · rw [heps] at h2
            exact hbound r h2
          · rw [heps] at h2
            have h2b : r ∈ docRefs (goEndpoints doc2 "/api/" c.slug eps) := h2
            rcases docRefs_goEndpoints "/api/" c.slug eps (hcust c (List.mem_cons_self c cs) eps heps)
                doc2 r h2b with h3 | h3 | h3
            · exact hbound r h3
            · exact Or.inr (Or.inr (Or.inr (Or.inr (Or.inr (Or.inr (Or.inr
                ⟨c, hcin, Or.inr (Or.inr (Or.inr (Or.inr (Or.inr (Or.inl h3)))))⟩))))))
            · exact Or.inr (Or.inr (Or.inr (Or.inr (Or.inr (Or.inr (Or.inr
                ⟨c, hcin, Or.inr (Or.inr (Or.inr (Or.inl h3)))⟩))))))
        · exact Or.inr h2
    | false =>
      rw [hup] at h
      cases hgc : generateCollectionOperators (pushTag doc c.slug) c with
      | none =>
        rw [hgc] at h
        simp at h
      | some doc2 =>
        rw [hgc] at h
        have h9 : processCollections (generateCustomEndpointOperators doc2 "/api/"
            c.slug c.endpoints) cs = some d := h
        rcases ih (fun c2 hc2 => hmem c2 (by simp [hc2]))
            (fun c2 hc2 => hcust c2 (by simp [hc2])) _ _ h9 r hr with h2 | h2
        · have hbound : ∀ x, x ∈ docRefs doc2 → x ∈ docRefs doc ∨ allowedRef config x := by
            intro x hx
            rcases docRefs_generateCollectionOperators _ _ _ hgc x hx
              with h3 | h3 | h3 | h3 | h3 | h3 | h3 | h3 | h3 | h3
            · exact Or.inl (docRefs_pushTag _ _ _ h3)
            · exact Or.inr (Or.inr (Or.inr (Or.inr (Or.inr (Or.inr (Or.inr
                ⟨c, hcin, Or.inl h3⟩))))))
            · exact Or.inr (Or.inr (Or.inr (Or.inr (Or.inr (Or.inr (Or.inr
                ⟨c, hcin, Or.inr (Or.inl ⟨hup, h3⟩)⟩))))))
            · exact Or.inr (Or.inr (Or.inr (Or.inr (Or.inr (Or.inr (Or.inr
                ⟨c, hcin, Or.inr (Or.inr (Or.inl ⟨hup, h3⟩))⟩))))))
            · exact Or.inr (Or.inr (Or.inr (Or.inr (Or.inr (Or.inr (Or.inr
                ⟨c, hcin, Or.inr (Or.inr (Or.inr (Or.inl h3)))⟩))))))
            · exact Or.inr (Or.inr (Or.inr (Or.inr (Or.inr (Or.inr (Or.inr
                ⟨c, hcin, Or.inr (Or.inr (Or.inr (Or.inr (Or.inr (Or.inl h3)))))⟩))))))
            · exact Or.inr (Or.inr (Or.inr (Or.inr (Or.inr (Or.inr (Or.inr
                ⟨c, hcin, Or.inr (Or.inr (Or.inr (Or.inr (Or.inr (Or.inr h3)))))⟩))))))
            · exact Or.inr (Or.inr (Or.inr (Or.inr (Or.inl h3))))
            · exact Or.inr (Or.inr (Or.inr (Or.inl h3)))
            · exact Or.inr (refBound_allowed_collection config c hcin x h3)
          rcases heps : c.endpoints with _ | eps
          · rw [heps] at h2
            exact hbound r h2
          · rw [heps] at h2
            have h2b : r ∈ docRefs (goEndpoints doc2 "/api/" c.slug eps) := h2
            rcases docRefs_goEndpoints "/api/" c.slug eps (hcust c (List.mem_cons_self c cs) eps heps)
                doc2 r h2b with h3 | h3 | h3
            · exact hbound r h3
            · exact Or.inr (Or.inr (Or.inr (Or.inr (Or.inr (Or.inr (Or.inr
                ⟨c, hcin, Or.inr (Or.inr (Or.inr (Or.inr (Or.inr (Or.inl h3)))))⟩))))))
            · exact Or.inr (Or.inr (Or.inr (Or.inr (Or.inr (Or.inr (Or.inr
                ⟨c, hcin, Or.inr (Or.inr (Or.inr (Or.inl h3)))⟩))))))
        · exact Or.inr h2

theorem docRefs_openapiDoc (options : Options) (config : Config) (d : Json)
    (H2 : ∀ g ∈ config.globals.getD [], g.endpoints.getD [] = [])
    (H3 : ∀ c ∈ config.collections.getD [], ∀ eps, c.endpoints = some eps →
      ∀ e ∈ eps, refsOfKvs e.custom = [])
    (h : openapiDoc options config = some d) :
    ∀ r ∈ docRefs d, allowedRef config r := by
  intro r hr
  rw [openapiDoc] at h
  cases hpg : processGlobals (initialDocument options) (config.globals.getD []) with
  | none =>
    rw [hpg] at h
    simp at h
  | some doc1 =>
    rw [hpg] at h
    rcases docRefs_processCollections config _ (fun c hc => hc) H3 _ _ h r hr with h2 | h2
    · rcases docRefs_processGlobals config _ (fun g hg => hg) H2 _ _ hpg r h2 with h3 | h3
      · rw [docRefs_initialDocument] at h3
        simp at h3
        exact Or.inl h3
      · exact h3
    · exact h2

end Payload